import Mathlib

/-
Verification of the backup-update-restore orchestration engine of the
richbess updater (the Node.js script whose functions are `createBackup`,
`copyDirectoryAsync`, `downloadUpdate`, `cleanOldFiles`,
`cleanDirectoryAsync`, `applyUpdate`, `restoreBackup`,
`installDependencies`, `cleanup` and `main`).

The filesystem is shallowly embedded as an inductive tree of named
entries rooted at the working directory (`process.cwd()`); paths are
lists of path components, mirroring `path.join(process.cwd(), ...)`.
File contents are strings ("byte-for-byte" equality is string equality).
Each updater function is translated into a state transformer on this
tree, following the source line by line; external effects (git clone,
npm, the post-workflow HTTP call) are parametrized by oracles.
-/

namespace Updater

/-- A filesystem entry: either a regular file with its contents, or a
directory holding its listing (named child entries, in `readdir` order). -/
inductive Entry where
  | file (content : String)
  | dir (entries : List (String × Entry))

/-- First binding of a name in a directory listing (listings of a real
filesystem have pairwise distinct names, so first = unique). -/
def childNamed : List (String × Entry) → String → Option Entry
  | [], _ => none
  | (m, e) :: rest, n => if m = n then some e else childNamed rest n

/-- Overwrite the first binding of a name, or append a new binding:
the effect of (re)writing one directory entry. -/
def setAssoc : List (String × Entry) → String → Entry → List (String × Entry)
  | [], n, v => [(n, v)]
  | (m, e) :: rest, n, v =>
    if m = n then (n, v) :: rest else (m, e) :: setAssoc rest n v

/-- Remove every binding of a name from a directory listing. -/
def eraseChild : List (String × Entry) → String → List (String × Entry)
  | [], _ => []
  | (m, e) :: rest, n =>
    if m = n then eraseChild rest n else (m, e) :: eraseChild rest n

/-- Child of an entry by name (`none` on files: files have no children). -/
def getChild : Entry → String → Option Entry
  | Entry.dir es, n => childNamed es n
  | Entry.file _, _ => none

/-- Resolve a path to the entry stored there, if any. -/
def lookupEntry : Entry → List String → Option Entry
  | e, [] => some e
  | e, n :: p =>
    match getChild e n with
    | some c => lookupEntry c p
    | none => none

/-- Model of `fsSync.existsSync` on a path under the working directory. -/
def existsPath (fs : Entry) (p : List String) : Bool :=
  (lookupEntry fs p).isSome

/-- Whether an entry is a directory (`stats.isDirectory()`). -/
def Entry.isDir : Entry → Bool
  | Entry.dir _ => true
  | Entry.file _ => false

/-- Write the entry `v` at a path, creating missing parent directories
(the combined effect of `fs.mkdir { recursive: true }` on the parents
followed by writing the entry). Writing below an existing file is
impossible on a real filesystem (the source would raise ENOTDIR); the
model leaves the tree unchanged there. -/
def setEntry : Entry → List String → Entry → Entry
  | _, [], v => v
  | Entry.dir es, n :: p, v =>
    Entry.dir (setAssoc es n (setEntry ((childNamed es n).getD (Entry.dir [])) p v))
  | Entry.file c, _ :: _, _ => Entry.file c

/-- Model of `fs.mkdir(path, { recursive: true })`: create missing
directories along the path, leaving every existing entry unchanged.
(On a path segment occupied by a file the source would raise; the model
leaves the tree unchanged there.) -/
def mkdirp : Entry → List String → Entry
  | e, [] => e
  | Entry.dir es, n :: p =>
    Entry.dir (setAssoc es n (mkdirp ((childNamed es n).getD (Entry.dir [])) p))
  | Entry.file c, _ :: _ => Entry.file c

/-- Model of recursive removal at a path (`fs.rm { recursive: true,
force: true }` / `rmdir /s /q` / `fs.unlink` all delete the entry);
removing a missing path is a no-op (`force: true`). -/
def removeEntry : Entry → List String → Entry
  | e, [] => e
  | Entry.file c, _ :: _ => Entry.file c
  | Entry.dir es, n :: p =>
    match p with
    | [] => Entry.dir (eraseChild es n)
    | _ :: _ =>
      match childNamed es n with
      | some e => Entry.dir (setAssoc es n (removeEntry e p))
      | none => Entry.dir es

/-- Membership of a name among the keys of a directory listing. -/
def keyMem (n : String) : List (String × Entry) → Bool
  | [] => false
  | (m, _) :: rest => (m == n) || keyMem n rest

mutual

/-- Well-formedness of an entry as a real filesystem tree: every
directory listing has pairwise distinct names, recursively. -/
def wfEntry : Entry → Bool
  | Entry.file _ => true
  | Entry.dir es => wfList es

/-- Well-formedness of a directory listing (see `wfEntry`). -/
def wfList : List (String × Entry) → Bool
  | [] => true
  | (n, e) :: rest => !(keyMem n rest) && wfEntry e && wfList rest

end

/-- Write one child of a directory entry (a file destination cannot hold
children: the source would raise ENOTDIR, the model leaves it unchanged). -/
def setChild : Entry → String → Entry → Entry
  | Entry.dir ds, n, v => Entry.dir (setAssoc ds n v)
  | Entry.file c, _, _ => Entry.file c

mutual

/-- Entry-level semantics of `copyDirectoryAsync(source, destination)`
(source lines 161-180): given the entry at `source` and the current
entry at `destination`, produce the new destination entry. A file
source is copied directly; a directory source is merged entry by entry
(existing destination entries not named in the source are kept, as the
source function never clears the destination). -/
def copyDirA : Entry → Entry → Entry
  | Entry.file c, _ => Entry.file c
  | Entry.dir es, dst => copyFiles es dst

/-- The `for (const file of files)` loop of `copyDirectoryAsync`:
for each name in the source listing, recurse on directories (the
destination child defaulting to a fresh empty directory, as `fs.mkdir`
creates it) and overwrite files (`fs.copyFile`). -/
def copyFiles : List (String × Entry) → Entry → Entry
  | [], dst => dst
  | (n, Entry.file c) :: rest, dst => copyFiles rest (setChild dst n (Entry.file c))
  | (n, Entry.dir es) :: rest, dst =>
      copyFiles rest (setChild dst n (copyDirA (Entry.dir es) ((getChild dst n).getD (Entry.dir []))))

end

/-- `TEMP_DIR = path.join(process.cwd(), 'temp_richbess')` (line 14). -/
abbrev TEMPDIR : List String := ["temp_richbess"]

/-- The configured structured-storage directory `dados/database` (line 136). -/
abbrev dadosDatabase : List String := ["dados", "database"]

/-- The configured single configuration file `dados/src/config.json` (line 142). -/
abbrev dadosSrcConfig : List String := ["dados", "src", "config.json"]

/-- The configured media directory `dados/midias` (line 148). -/
abbrev dadosMidias : List String := ["dados", "midias"]

/-- FS-level `copyDirectoryAsync(source, destination)` (lines 161-180):
make the destination directory if absent, then merge the source subtree
into it. Every call site in the source guards the source's existence
with `existsSync`, so the missing-source branch (where the source would
raise on `readdir`) is unreachable; the model leaves the tree unchanged
there. Source and destination are disjoint at every call site, so
reading the source entry once up front is faithful. -/
def copyDirectoryAsync (fs : Entry) (source destination : List String) : Entry :=
  match lookupEntry fs source with
  | some src =>
    let dst0 := (lookupEntry fs destination).getD (Entry.dir [])
    setEntry fs destination (copyDirA src dst0)
  | none => fs

/-- `fs.copyFile(source, destination)`: copy the entry at `source` over
`destination`. Call sites guard existence with `existsSync`; copying a
directory this way would raise EISDIR in the source (excluded by the
theorems' shape hypotheses). -/
def copyFile (fs : Entry) (source destination : List String) : Entry :=
  match lookupEntry fs source with
  | some e => setEntry fs destination e
  | none => fs

/-- `createBackup` (lines 128-159), for snapshot directory name `bk`
(`BACKUP_DIR = backup_<timestamp>` at the working-directory top level,
line 13): scaffold the three snapshot directories unconditionally, then
copy each configured live path into the snapshot if it exists. -/
def createBackup (bk : String) (fs : Entry) : Entry :=
  let fs1 := mkdirp fs [bk, "dados", "database"]
  let fs2 := mkdirp fs1 [bk, "dados", "src"]
  let fs3 := mkdirp fs2 [bk, "dados", "midias"]
  let fs4 := if existsPath fs3 dadosDatabase then
      copyDirectoryAsync fs3 dadosDatabase [bk, "dados", "database"] else fs3
  let fs5 := if existsPath fs4 dadosSrcConfig then
      copyFile fs4 dadosSrcConfig [bk, "dados", "src", "config.json"] else fs4
  if existsPath fs5 dadosMidias then
      copyDirectoryAsync fs5 dadosMidias [bk, "dados", "midias"] else fs5

/-- `restoreBackup` (lines 343-374): recreate the three live directories,
then copy each configured path back from the snapshot if present there. -/
def restoreBackup (bk : String) (fs : Entry) : Entry :=
  let fs1 := mkdirp fs ["dados", "database"]
  let fs2 := mkdirp fs1 ["dados", "src"]
  let fs3 := mkdirp fs2 ["dados", "midias"]
  let fs4 := if existsPath fs3 [bk, "dados", "database"] then
      copyDirectoryAsync fs3 [bk, "dados", "database"] dadosDatabase else fs3
  let fs5 := if existsPath fs4 [bk, "dados", "src", "config.json"] then
      copyFile fs4 [bk, "dados", "src", "config.json"] dadosSrcConfig else fs4
  if existsPath fs5 [bk, "dados", "midias"] then
      copyDirectoryAsync fs5 [bk, "dados", "midias"] dadosMidias else fs5

/-- The fixed `itemsToDelete` list of `cleanOldFiles` (lines 241-249). -/
def itemsToDelete : List String :=
  [".git", ".github", ".npm", "node_modules", "package.json",
   "package-lock.json", "README.md"]

/-- The `for (const item of itemsToDelete)` loop (lines 251-264): remove
each item if present (directory or file alike). -/
def removeItems : List String → Entry → Entry
  | [], fs => fs
  | n :: rest, fs =>
    removeItems rest (if existsPath fs [n] then removeEntry fs [n] else fs)

/-- The `for (const file of files)` loop of `cleanDirectoryAsync`
(lines 282-299): for each name of the listing taken at entry, skip the
child whose joined path equals `excludeDir` (`filePath === excludeDir`),
and remove every other child wholesale (`fs.rm` recursive for
directories, `fs.unlink` for files: both delete the entry). -/
def cleanLoop (dir excludeDir : List String) : List (String × Entry) → Entry → Entry
  | [], fs => fs
  | (n, _) :: rest, fs =>
    if dir ++ [n] = excludeDir then cleanLoop dir excludeDir rest fs
    else cleanLoop dir excludeDir rest (removeEntry fs (dir ++ [n]))

/-- `cleanDirectoryAsync(directory, excludeDir)` (lines 279-300):
`readdir` the directory and run the removal loop. A missing or
non-directory argument would raise on `readdir` in the source; the only
call site guards existence, and the theorems' hypotheses keep the
argument a directory. -/
def cleanDirectoryAsync (fs : Entry) (dir excludeDir : List String) : Entry :=
  match lookupEntry fs dir with
  | some (Entry.dir es) => cleanLoop dir excludeDir es fs
  | _ => fs

/-- `cleanOldFiles` (lines 237-277), for snapshot directory name `bk`:
remove the fixed top-level artifacts, then clean the `dados` directory
excluding (by path equality) the snapshot location `BACKUP_DIR = [bk]`. -/
def cleanOldFiles (bk : String) (fs : Entry) : Entry :=
  let fs1 := removeItems itemsToDelete fs
  if existsPath fs1 ["dados"] then cleanDirectoryAsync fs1 ["dados"] [bk] else fs1

/-- The `for (const file of tempFiles)` loop of `applyUpdate`
(lines 309-326): for each name listed in the staging directory, copy a
directory recursively or a file directly to the same name at the
working-directory top level. The `stat` is re-read per iteration, hence
the lookup against the current tree; a vanished entry (impossible
without concurrent mutation) is skipped. -/
def applyLoop : List (String × Entry) → Entry → Entry
  | [], fs => fs
  | (n, _) :: rest, fs =>
    applyLoop rest
      (match lookupEntry fs (TEMPDIR ++ [n]) with
       | some (Entry.dir _) => copyDirectoryAsync fs (TEMPDIR ++ [n]) [n]
       | some (Entry.file c) => setEntry fs [n] (Entry.file c)
       | none => fs)

/-- `applyUpdate` (lines 302-341): list the staging directory, copy each
entry into the live tree, then remove the staging directory. A missing
staging directory would raise on `readdir` (aborting the run); the
model leaves the tree unchanged there. -/
def applyUpdate (fs : Entry) : Entry :=
  match lookupEntry fs TEMPDIR with
  | some (Entry.dir es) =>
    let fs1 := applyLoop es fs
    if existsPath fs1 TEMPDIR then removeEntry fs1 TEMPDIR else fs1
  | _ => fs

/-- Filesystem effects of `downloadUpdate` (lines 182-235). `fetched`
is the clone oracle: `some tree` means `git clone` succeeded and wrote
`tree` at `TEMP_DIR`; `none` means the clone failed, leaving at most
partial clone output `garbage` under `TEMP_DIR` (a `git clone URL dest`
writes only under `dest`). In both cases a pre-existing staging
directory is force-removed first (lines 186-192); on success the
top-level `README.md` of the staging tree is stripped (lines 214-217).
The failure diagnostics (`ping`) touch no files. -/
def downloadUpdateFS (fetched garbage : Option Entry) (fs : Entry) : Entry :=
  let fs1 := if existsPath fs TEMPDIR then removeEntry fs TEMPDIR else fs
  match fetched with
  | some tree =>
    let fs2 := setEntry fs1 TEMPDIR tree
    if existsPath fs2 (TEMPDIR ++ ["README.md"]) then
      removeEntry fs2 (TEMPDIR ++ ["README.md"]) else fs2
  | none =>
    match garbage with
    | some g => setEntry fs1 TEMPDIR g
    | none => fs1

/-- Filesystem effect of `cleanup` (lines 406-422): discard the snapshot
directory if present; its own errors are caught and only logged. -/
def cleanupFS (bk : String) (fs : Entry) : Entry :=
  if existsPath fs [bk] then removeEntry fs [bk] else fs

/-- The names of the nine workflow steps of `main` (lines 445-455), in
their fixed order, named after the functions they call. -/
def stepNames : List String :=
  ["checkRequirements", "confirmUpdate", "createBackup", "downloadUpdate",
   "cleanOldFiles", "applyUpdate", "restoreBackup", "installDependencies",
   "cleanup"]

/-- Control-flow skeleton of the `for (const step of steps)` loop of
`main` (lines 460-464), abstracting each step's outcome by the oracle
`fails`: a failing step still executes (and is recorded) but every
later step is skipped; the second component tells whether the whole
sequence succeeded. -/
def runSteps (fails : String → Bool) : List String → List String × Bool
  | [] => ([], true)
  | s :: rest =>
    if fails s then ([s], false)
    else
      let r := runSteps fails rest
      (s :: r.1, r.2)

/-- Process exit code of `main` under the step oracle `fails` and the
outcome `metaOk` of the post-workflow commit-metadata call (lines
466-479): any step failure reaches the catch block and `process.exit(1)`
(line 491); with all steps succeeded, a failing metadata call also
reaches the catch block, otherwise the process ends normally (code 0). -/
def mainExitCode (fails : String → Bool) (metaOk : Bool) : Nat :=
  if (runSteps fails stepNames).2 then (if metaOk then 0 else 1) else 1

/-- Oracles for the externally determined outcomes inside `main`:
`gitOk`/`npmOk` are the tool probes of `checkRequirements` (lines
80-102), `fetched`/`fetchGarbage` the clone oracle of `downloadUpdate`
(see `downloadUpdateFS`), `installOk` the exit status of the package
installer (lines 380-396), `discardOk` whether the snapshot removal
inside `cleanup` succeeds (its failure is caught there, lines 419-421),
and `metaOk` the outcome of the post-workflow HTTP metadata call and
`updateSave.json` write (lines 467-479, whose target lies outside the
working tree modeled here). -/
structure Oracle where
  gitOk : Bool
  npmOk : Bool
  fetched : Option Entry
  fetchGarbage : Option Entry
  installOk : Bool
  discardOk : Bool
  metaOk : Bool

/-- Result of a `main` run: final working tree, the list of steps that
executed (in order), and the process exit code. -/
structure RunResult where
  fs : Entry
  trace : List String
  exitCode : Nat

/-- Combined semantics of `main` (lines 440-493) over the filesystem
model, with snapshot directory name `bk` and initial tree `fs0`:
the nine steps run in order; `checkRequirements` exits with code 1 when
a tool probe fails (lines 92, 101); `confirmUpdate` always resolves
(lines 112-125); a clone failure or a non-zero installer exit is thrown,
caught by `main`'s catch block and turned into exit code 1 with no
further step executing; `cleanup` swallows its own errors; after all
nine steps, a failing metadata call reaches the same catch block.
IO errors of the pure filesystem steps are outside this model. -/
def mainRun (o : Oracle) (bk : String) (fs0 : Entry) : RunResult :=
  if !(o.gitOk && o.npmOk) then ⟨fs0, ["checkRequirements"], 1⟩
  else
    let fs3 := createBackup bk fs0
    match o.fetched with
    | none =>
      ⟨downloadUpdateFS none o.fetchGarbage fs3, stepNames.take 4, 1⟩
    | some tree =>
      let fs4 := downloadUpdateFS (some tree) o.fetchGarbage fs3
      let fs5 := cleanOldFiles bk fs4
      let fs6 := applyUpdate fs5
      let fs7 := restoreBackup bk fs6
      if !o.installOk then ⟨fs7, stepNames.take 8, 1⟩
      else
        let fs8 := if o.discardOk then cleanupFS bk fs7 else fs7
        ⟨fs8, stepNames, if o.metaOk then 0 else 1⟩

/-- Every existing entry along the path is a directory, so that writes
along the path behave as on a real filesystem (no ENOTDIR). -/
def dirsAlong : Entry → List String → Bool
  | _, [] => true
  | Entry.file _, _ :: _ => false
  | Entry.dir es, n :: p =>
    match childNamed es n with
    | some e => dirsAlong e p
    | none => true

theorem childNamed_setAssoc_self (es : List (String × Entry)) (n : String) (v : Entry) :
    childNamed (setAssoc es n v) n = some v := by
  induction es with
  | nil => simp [setAssoc, childNamed]
  | cons p rest ih =>
    obtain ⟨m, e⟩ := p
    by_cases h : m = n
    · simp [setAssoc, childNamed, h]
    · simp [setAssoc, childNamed, h, ih]

theorem childNamed_setAssoc_ne (es : List (String × Entry)) (n m : String) (v : Entry)
    (h : n ≠ m) : childNamed (setAssoc es n v) m = childNamed es m := by
  induction es with
  | nil => simp [setAssoc, childNamed, h]
  | cons p rest ih =>
    obtain ⟨k, e⟩ := p
    by_cases hk : k = n
    · subst hk
      simp [setAssoc, childNamed, h]
    · simp [setAssoc, childNamed, hk, ih]

theorem childNamed_eraseChild_self (es : List (String × Entry)) (n : String) :
    childNamed (eraseChild es n) n = none := by
  induction es with
  | nil => simp [eraseChild, childNamed]
  | cons p rest ih =>
    obtain ⟨m, e⟩ := p
    by_cases h : m = n
    · simpa [eraseChild, childNamed, h] using ih
    · simpa [eraseChild, childNamed, h] using ih

theorem childNamed_eraseChild_ne (es : List (String × Entry)) (n m : String)
    (h : n ≠ m) : childNamed (eraseChild es n) m = childNamed es m := by
  induction es with
  | nil => simp [eraseChild, childNamed]
  | cons p rest ih =>
    obtain ⟨k, e⟩ := p
    by_cases hk : k = n
    · subst hk
      simp [eraseChild, childNamed, h, ih]
    · simp [eraseChild, childNamed, hk, ih]

theorem childNamed_none_of_keyMem_false (es : List (String × Entry)) (n : String)
    (h : keyMem n es = false) : childNamed es n = none := by
  induction es with
  | nil => simp [childNamed]
  | cons p rest ih =>
    obtain ⟨m, e⟩ := p
    simp [keyMem] at h
    simp [childNamed, fun hh : m = n => h.1 hh, ih h.2]

theorem setAssoc_append (es : List (String × Entry)) (n : String) (v : Entry)
    (h : keyMem n es = false) : setAssoc es n v = es ++ [(n, v)] := by
  induction es with
  | nil => simp [setAssoc]
  | cons p rest ih =>
    obtain ⟨m, e⟩ := p
    simp [keyMem] at h
    simp [setAssoc, fun hh : m = n => h.1 hh, ih h.2]

theorem lookupEntry_dir_empty (p : List String) (hp : p ≠ []) :
    lookupEntry (Entry.dir []) p = none := by
  cases p with
  | nil => exact absurd rfl hp
  | cons n q => simp [lookupEntry, getChild, childNamed]

theorem dirsAlong_dir_empty (p : List String) : dirsAlong (Entry.dir []) p = true := by
  cases p with
  | nil => rfl
  | cons n q => simp [dirsAlong, childNamed]

theorem dirsAlong_of_lookup (fs : Entry) (p : List String) (e : Entry)
    (h : lookupEntry fs p = some e) : dirsAlong fs p = true := by
  induction p generalizing fs with
  | nil => cases fs <;> rfl
  | cons n q ih =>
    cases fs with
    | file c => simp [lookupEntry, getChild] at h
    | dir es =>
      simp only [lookupEntry, getChild] at h
      cases hc : childNamed es n with
      | none => rw [hc] at h; simp at h
      | some c =>
        rw [hc] at h
        simp only [dirsAlong, hc]
        exact ih c h

theorem lookupEntry_setEntry_head_ne (fs : Entry) (n m : String) (p q : List String)
    (v : Entry) (h : n ≠ m) :
    lookupEntry (setEntry fs (n :: p) v) (m :: q) = lookupEntry fs (m :: q) := by
  cases fs with
  | file c => rfl
  | dir es => simp [setEntry, lookupEntry, getChild, childNamed_setAssoc_ne es n m _ h]

theorem lookupEntry_setEntry_head_eq (es : List (String × Entry)) (n : String)
    (p q : List String) (v : Entry) :
    lookupEntry (setEntry (Entry.dir es) (n :: p) v) (n :: q) =
      lookupEntry (setEntry ((childNamed es n).getD (Entry.dir [])) p v) q := by
  simp [setEntry, lookupEntry, getChild, childNamed_setAssoc_self]

theorem lookupEntry_mkdirp_head_ne (fs : Entry) (n m : String) (p q : List String)
    (h : n ≠ m) :
    lookupEntry (mkdirp fs (n :: p)) (m :: q) = lookupEntry fs (m :: q) := by
  cases fs with
  | file c => rfl
  | dir es => simp [mkdirp, lookupEntry, getChild, childNamed_setAssoc_ne es n m _ h]

theorem lookupEntry_mkdirp_head_eq (es : List (String × Entry)) (n : String)
    (p q : List String) :
    lookupEntry (mkdirp (Entry.dir es) (n :: p)) (n :: q) =
      lookupEntry (mkdirp ((childNamed es n).getD (Entry.dir [])) p) q := by
  simp [mkdirp, lookupEntry, getChild, childNamed_setAssoc_self]

theorem lookupEntry_removeEntry_head_ne (fs : Entry) (n m : String) (p q : List String)
    (h : n ≠ m) :
    lookupEntry (removeEntry fs (n :: p)) (m :: q) = lookupEntry fs (m :: q) := by
  cases fs with
  | file c => rfl
  | dir es =>
    cases p with
    | nil => simp [removeEntry, lookupEntry, getChild, childNamed_eraseChild_ne es n m h]
    | cons x xs =>
      simp only [removeEntry]
      cases hc : childNamed es n with
      | none => rfl
      | some e => simp [lookupEntry, getChild, childNamed_setAssoc_ne es n m _ h]

theorem lookupEntry_removeEntry_self (fs : Entry) (p q : List String) (hp : p ≠ []) :
    lookupEntry (removeEntry fs p) (p ++ q) = none := by
  induction p generalizing fs with
  | nil => exact absurd rfl hp
  | cons n p ih =>
    cases fs with
    | file c => simp [removeEntry, lookupEntry, getChild]
    | dir es =>
      cases p with
      | nil => simp [removeEntry, lookupEntry, getChild, childNamed_eraseChild_self]
      | cons x xs =>
        simp only [removeEntry]
        cases hc : childNamed es n with
        | none => simp [lookupEntry, getChild, hc]
        | some e =>
          simp only [List.cons_append, lookupEntry, getChild, childNamed_setAssoc_self]
          exact ih e (by simp)

theorem dirsAlong_child (es : List (String × Entry)) (n : String) (p : List String)
    (h : dirsAlong (Entry.dir es) (n :: p) = true) :
    dirsAlong ((childNamed es n).getD (Entry.dir [])) p = true := by
  simp only [dirsAlong] at h
  cases hc : childNamed es n with
  | none => simpa using dirsAlong_dir_empty p
  | some e =>
    rw [hc] at h
    simpa using h

theorem lookup_child_getD (es : List (String × Entry)) (n : String) (p : List String) :
    (lookupEntry (Entry.dir es) (n :: p)).getD (Entry.dir []) =
      (lookupEntry ((childNamed es n).getD (Entry.dir [])) p).getD (Entry.dir []) := by
  cases hc : childNamed es n with
  | none =>
    cases p with
    | nil => simp [lookupEntry, getChild, hc]
    | cons x xs => simp [lookupEntry, getChild, hc, childNamed]
  | some e => simp [lookupEntry, getChild, hc]

theorem lookup_child_cons (es : List (String × Entry)) (n : String) (p : List String)
    (e : Entry) (hc : childNamed es n = some e) :
    lookupEntry (Entry.dir es) (n :: p) = lookupEntry e p := by
  simp [lookupEntry, getChild, hc]

theorem lookupEntry_setEntry_self (fs : Entry) (p q : List String) (v : Entry)
    (h : dirsAlong fs p = true) :
    lookupEntry (setEntry fs p v) (p ++ q) = lookupEntry v q := by
  induction p generalizing fs with
  | nil => simp [setEntry]
  | cons n p ih =>
    cases fs with
    | file c => simp [dirsAlong] at h
    | dir es =>
      rw [List.cons_append, lookupEntry_setEntry_head_eq]
      exact ih _ (dirsAlong_child es n p h)

theorem lookupEntry_mkdirp_self (fs : Entry) (p : List String)
    (h : dirsAlong fs p = true) :
    lookupEntry (mkdirp fs p) p = some ((lookupEntry fs p).getD (Entry.dir [])) := by
  induction p generalizing fs with
  | nil => cases fs <;> simp [mkdirp, lookupEntry]
  | cons n p ih =>
    cases fs with
    | file c => simp [dirsAlong] at h
    | dir es =>
      rw [lookupEntry_mkdirp_head_eq, ih _ (dirsAlong_child es n p h),
        lookup_child_getD]

theorem lookupEntry_setEntry_diverge (pre : List String) (fs : Entry) (a b : String)
    (p q : List String) (v : Entry) (h : a ≠ b) :
    lookupEntry (setEntry fs (pre ++ a :: p) v) (pre ++ b :: q) =
      lookupEntry fs (pre ++ b :: q) := by
  induction pre generalizing fs with
  | nil => exact lookupEntry_setEntry_head_ne fs a b p q v h
  | cons m pre ih =>
    cases fs with
    | file c => rfl
    | dir es =>
      rw [List.cons_append, List.cons_append, lookupEntry_setEntry_head_eq, ih]
      cases hc : childNamed es m with
      | some e => simp [lookupEntry, getChild, hc]
      | none =>
        simp [lookupEntry, getChild, hc,
          lookupEntry_dir_empty (pre ++ b :: q) (by simp)]

theorem lookupEntry_mkdirp_diverge (pre : List String) (fs : Entry) (a b : String)
    (p q : List String) (h : a ≠ b) :
    lookupEntry (mkdirp fs (pre ++ a :: p)) (pre ++ b :: q) =
      lookupEntry fs (pre ++ b :: q) := by
  induction pre generalizing fs with
  | nil => exact lookupEntry_mkdirp_head_ne fs a b p q h
  | cons m pre ih =>
    cases fs with
    | file c => rfl
    | dir es =>
      rw [List.cons_append, List.cons_append, lookupEntry_mkdirp_head_eq, ih]
      cases hc : childNamed es m with
      | some e => simp [lookupEntry, getChild, hc]
      | none =>
        simp [lookupEntry, getChild, hc,
          lookupEntry_dir_empty (pre ++ b :: q) (by simp)]

theorem lookupEntry_removeEntry_diverge (pre : List String) (fs : Entry) (a b : String)
    (p q : List String) (h : a ≠ b) :
    lookupEntry (removeEntry fs (pre ++ a :: p)) (pre ++ b :: q) =
      lookupEntry fs (pre ++ b :: q) := by
  induction pre generalizing fs with
  | nil => exact lookupEntry_removeEntry_head_ne fs a b p q h
  | cons m pre ih =>
    cases fs with
    | file c => rfl
    | dir es =>
      rw [List.cons_append, List.cons_append]
      rcases hs : pre ++ a :: p with _ | ⟨y, ys⟩
      · exact absurd hs (by simp)
      · simp only [removeEntry]
        cases hc : childNamed es m with
        | none => rfl
        | some e =>
          rw [← hs]
          simp only [lookupEntry, getChild, childNamed_setAssoc_self, hc, ih]

theorem isDir_setChild (d : Entry) (n : String) (v : Entry) (h : d.isDir = true) :
    (setChild d n v).isDir = true := by
  cases d with
  | file c => simp [Entry.isDir] at h
  | dir ds => rfl

theorem getChild_setChild_self (d : Entry) (n : String) (v : Entry) (h : d.isDir = true) :
    getChild (setChild d n v) n = some v := by
  cases d with
  | file c => simp [Entry.isDir] at h
  | dir ds => simp [setChild, getChild, childNamed_setAssoc_self]

theorem getChild_setChild_ne (d : Entry) (n m : String) (v : Entry) (hd : d.isDir = true)
    (h : n ≠ m) : getChild (setChild d n v) m = getChild d m := by
  cases d with
  | file c => simp [Entry.isDir] at hd
  | dir ds => simp [setChild, getChild, childNamed_setAssoc_ne ds n m v h]

theorem keyMem_append (n : String) (as bs : List (String × Entry)) :
    keyMem n (as ++ bs) = (keyMem n as || keyMem n bs) := by
  induction as with
  | nil => simp [keyMem]
  | cons p rest ih =>
    obtain ⟨m, e⟩ := p
    simp [keyMem, ih, Bool.or_assoc]

theorem wfList_cons (n : String) (e : Entry) (rest : List (String × Entry)) :
    wfList ((n, e) :: rest) = true ↔
      keyMem n rest = false ∧ wfEntry e = true ∧ wfList rest = true := by
  simp [wfList, Bool.and_eq_true, Bool.not_eq_true', and_assoc]

theorem wfList_suffix (as bs : List (String × Entry)) (h : wfList (as ++ bs) = true) :
    wfList bs = true := by
  induction as with
  | nil => simpa using h
  | cons p rest ih =>
    obtain ⟨m, e⟩ := p
    rw [List.cons_append, wfList_cons] at h
    exact ih h.2.2

theorem childNamed_split (es : List (String × Entry)) (n : String) (e : Entry)
    (h : childNamed es n = some e) :
    ∃ pre post, es = pre ++ (n, e) :: post ∧ keyMem n pre = false := by
  induction es with
  | nil => simp [childNamed] at h
  | cons p rest ih =>
    obtain ⟨m, v⟩ := p
    by_cases hm : m = n
    · subst hm
      simp [childNamed] at h
      exact ⟨[], rest, by simp [h], by simp [keyMem]⟩
    · simp only [childNamed, if_neg hm] at h
      obtain ⟨pre, post, heq, hk⟩ := ih h
      exact ⟨(m, v) :: pre, post, by simp [heq], by simp [keyMem, hm, hk]⟩

theorem copyFiles_disjoint : ∀ (es ds : List (String × Entry)),
    wfList es = true → (∀ n, keyMem n es = true → keyMem n ds = false) →
    copyFiles es (Entry.dir ds) = Entry.dir (ds ++ es)
  | [], ds, _, _ => by simp [copyFiles]
  | (n, Entry.file c) :: rest, ds, hwf, hdis => by
    rw [wfList_cons] at hwf
    have hd : keyMem n ds = false := hdis n (by simp [keyMem])
    have hdis2 : ∀ m, keyMem m rest = true → keyMem m (ds ++ [(n, Entry.file c)]) = false := by
      intro m hm
      rw [keyMem_append]
      have h1 : keyMem m ds = false := hdis m (by simp [keyMem, hm])
      have h2 : (n == m) = false := by
        by_contra hne
        rw [Bool.not_eq_false, beq_iff_eq] at hne
        rw [hne] at hwf
        rw [hwf.1] at hm
        exact Bool.false_ne_true hm
      simp [keyMem, h1, h2]
    simp only [copyFiles, setChild, setAssoc_append ds n _ hd]
    rw [copyFiles_disjoint rest (ds ++ [(n, Entry.file c)]) hwf.2.2 hdis2]
    simp
  | (n, Entry.dir es2) :: rest, ds, hwf, hdis => by
    rw [wfList_cons] at hwf
    have hd : keyMem n ds = false := hdis n (by simp [keyMem])
    have hdis2 : ∀ m, keyMem m rest = true → keyMem m (ds ++ [(n, Entry.dir es2)]) = false := by
      intro m hm
      rw [keyMem_append]
      have h1 : keyMem m ds = false := hdis m (by simp [keyMem, hm])
      have h2 : (n == m) = false := by
        by_contra hne
        rw [Bool.not_eq_false, beq_iff_eq] at hne
        rw [hne] at hwf
        rw [hwf.1] at hm
        exact Bool.false_ne_true hm
      simp [keyMem, h1, h2]
    have hw2 : wfList es2 = true := by
      have := hwf.2.1
      simpa [wfEntry] using this
    have hrec : copyFiles es2 (Entry.dir []) = Entry.dir es2 := by
      have := copyFiles_disjoint es2 [] hw2 (by intro m _; simp [keyMem])
      simpa using this
    simp only [copyFiles, copyDirA, getChild,
      childNamed_none_of_keyMem_false ds n hd, Option.getD_none, hrec, setChild,
      setAssoc_append ds n _ hd]
    rw [copyFiles_disjoint rest (ds ++ [(n, Entry.dir es2)]) hwf.2.2 hdis2]
    simp
termination_by es _ _ _ => sizeOf es

/-- Copying a well-formed directory into a freshly made empty directory
reproduces it exactly. -/
theorem copyDirA_dir_empty (es : List (String × Entry)) (hwf : wfList es = true) :
    copyDirA (Entry.dir es) (Entry.dir []) = Entry.dir es := by
  have := copyFiles_disjoint es [] hwf (by intro m _; simp [keyMem])
  simpa [copyDirA] using this

theorem isDir_copyFiles (es : List (String × Entry)) (d : Entry) (h : d.isDir = true) :
    (copyFiles es d).isDir = true := by
  induction es generalizing d with
  | nil => simpa [copyFiles] using h
  | cons p rest ih =>
    obtain ⟨n, e⟩ := p
    cases e with
    | file c =>
      simp only [copyFiles]
      exact ih _ (isDir_setChild d n _ h)
    | dir es2 =>
      simp only [copyFiles]
      exact ih _ (isDir_setChild d n _ h)

theorem getChild_copyFiles_notKey (es : List (String × Entry)) (d : Entry) (n : String)
    (hk : keyMem n es = false) (hd : d.isDir = true) :
    getChild (copyFiles es d) n = getChild d n := by
  induction es generalizing d with
  | nil => simp [copyFiles]
  | cons p rest ih =>
    obtain ⟨m, e⟩ := p
    simp only [keyMem, Bool.or_eq_false_iff, beq_eq_false_iff_ne, ne_eq] at hk
    cases e with
    | file c =>
      simp only [copyFiles]
      rw [ih _ hk.2 (isDir_setChild d m _ hd)]
      exact getChild_setChild_ne d m n _ hd hk.1
    | dir es2 =>
      simp only [copyFiles]
      rw [ih _ hk.2 (isDir_setChild d m _ hd)]
      exact getChild_setChild_ne d m n _ hd hk.1

theorem getChild_copyFiles_file (es : List (String × Entry)) (d : Entry) (n : String)
    (c : String) (hwf : wfList es = true) (hc : childNamed es n = some (Entry.file c))
    (hd : d.isDir = true) :
    getChild (copyFiles es d) n = some (Entry.file c) := by
  induction es generalizing d with
  | nil => simp [childNamed] at hc
  | cons p rest ih =>
    obtain ⟨m, e⟩ := p
    rw [wfList_cons] at hwf
    by_cases hm : m = n
    · subst hm
      simp [childNamed] at hc
      subst hc
      simp only [copyFiles]
      rw [getChild_copyFiles_notKey rest _ m hwf.1 (isDir_setChild d m _ hd)]
      exact getChild_setChild_self d m _ hd
    · simp only [childNamed, if_neg hm] at hc
      cases e with
      | file c2 =>
        simp only [copyFiles]
        exact ih _ hwf.2.2 hc (isDir_setChild d m _ hd)
      | dir es2 =>
        simp only [copyFiles]
        exact ih _ hwf.2.2 hc (isDir_setChild d m _ hd)

theorem lookup_single (es : List (String × Entry)) (n : String) :
    lookupEntry (Entry.dir es) [n] = childNamed es n := by
  cases hc : childNamed es n <;> simp [lookupEntry, getChild, hc]

theorem lookup_cons_none (fs : Entry) (n : String) (q : List String)
    (h : lookupEntry fs [n] = none) : lookupEntry fs (n :: q) = none := by
  cases fs with
  | file c => rfl
  | dir es =>
    rw [lookup_single] at h
    simp [lookupEntry, getChild, h]

theorem lookupEntry_copyDirectoryAsync_head_ne (fs : Entry) (src : List String)
    (d n : String) (ds q : List String) (h : d ≠ n) :
    lookupEntry (copyDirectoryAsync fs src (d :: ds)) (n :: q) =
      lookupEntry fs (n :: q) := by
  simp only [copyDirectoryAsync]
  cases hsrc : lookupEntry fs src with
  | none => rfl
  | some e => exact lookupEntry_setEntry_head_ne fs d n ds q _ h

theorem lookupEntry_copyFile_head_ne (fs : Entry) (src : List String)
    (d n : String) (ds q : List String) (h : d ≠ n) :
    lookupEntry (copyFile fs src (d :: ds)) (n :: q) = lookupEntry fs (n :: q) := by
  simp only [copyFile]
  cases hsrc : lookupEntry fs src with
  | none => rfl
  | some e => exact lookupEntry_setEntry_head_ne fs d n ds q _ h

theorem isDir_setEntry_cons (fs : Entry) (n : String) (p : List String) (v : Entry)
    (h : fs.isDir = true) : (setEntry fs (n :: p) v).isDir = true := by
  cases fs with
  | file c => simp [Entry.isDir] at h
  | dir es => rfl

theorem isDir_mkdirp_cons (fs : Entry) (n : String) (p : List String)
    (h : fs.isDir = true) : (mkdirp fs (n :: p)).isDir = true := by
  cases fs with
  | file c => simp [Entry.isDir] at h
  | dir es => rfl

theorem isDir_removeEntry (fs : Entry) (p : List String) (h : fs.isDir = true) :
    (removeEntry fs p).isDir = true := by
  cases fs with
  | file c => simp [Entry.isDir] at h
  | dir es =>
    cases p with
    | nil => exact h
    | cons n p =>
      cases p with
      | nil => rfl
      | cons x xs =>
        simp only [removeEntry]
        cases childNamed es n <;> rfl

theorem isDir_copyDirectoryAsync (fs : Entry) (src : List String) (d : String)
    (ds : List String) (h : fs.isDir = true) :
    (copyDirectoryAsync fs src (d :: ds)).isDir = true := by
  simp only [copyDirectoryAsync]
  cases hsrc : lookupEntry fs src with
  | none => exact h
  | some e => exact isDir_setEntry_cons fs d ds _ h

theorem isDir_copyFile (fs : Entry) (src : List String) (d : String)
    (ds : List String) (h : fs.isDir = true) :
    (copyFile fs src (d :: ds)).isDir = true := by
  simp only [copyFile]
  cases hsrc : lookupEntry fs src with
  | none => exact h
  | some e => exact isDir_setEntry_cons fs d ds _ h

theorem isDir_createBackup (bk : String) (fs : Entry) (h : fs.isDir = true) :
    (createBackup bk fs).isDir = true := by
  simp only [createBackup]
  split_ifs <;>
    (repeat
      first
        | exact h
        | apply isDir_copyDirectoryAsync
        | apply isDir_copyFile
        | apply isDir_mkdirp_cons)

theorem isDir_restoreBackup (bk : String) (fs : Entry) (h : fs.isDir = true) :
    (restoreBackup bk fs).isDir = true := by
  simp only [restoreBackup]
  split_ifs <;>
    (repeat
      first
        | exact h
        | apply isDir_copyDirectoryAsync
        | apply isDir_copyFile
        | apply isDir_mkdirp_cons)

theorem createBackup_frame (bk : String) (fs : Entry) (n : String) (q : List String)
    (h : bk ≠ n) :
    lookupEntry (createBackup bk fs) (n :: q) = lookupEntry fs (n :: q) := by
  simp only [createBackup]
  split_ifs <;>
    simp only [lookupEntry_copyDirectoryAsync_head_ne _ _ bk n _ q h,
      lookupEntry_copyFile_head_ne _ _ bk n _ q h,
      lookupEntry_mkdirp_head_ne _ bk n _ q h]

theorem lookup_under (fs : Entry) (n : String) (r : List String) (B : Entry)
    (hfs : fs.isDir = true) (hB : lookupEntry fs [n] = some B) :
    lookupEntry fs (n :: r) = lookupEntry B r := by
  cases fs with
  | file c => simp [Entry.isDir] at hfs
  | dir es =>
    rw [lookup_single] at hB
    exact lookup_child_cons es n r B hB

theorem lookup_step_set (fs : Entry) (n : String) (p q : List String) (v B : Entry)
    (hfs : fs.isDir = true) (hB : lookupEntry fs [n] = some B) :
    lookupEntry (setEntry fs (n :: p) v) (n :: q) = lookupEntry (setEntry B p v) q := by
  cases fs with
  | file c => simp [Entry.isDir] at hfs
  | dir es =>
    rw [lookup_single] at hB
    rw [lookupEntry_setEntry_head_eq, hB, Option.getD_some]

theorem lookup_step_mkdirp (fs : Entry) (n : String) (p q : List String) (B : Entry)
    (hfs : fs.isDir = true) (hB : lookupEntry fs [n] = some B) :
    lookupEntry (mkdirp fs (n :: p)) (n :: q) = lookupEntry (mkdirp B p) q := by
  cases fs with
  | file c => simp [Entry.isDir] at hfs
  | dir es =>
    rw [lookup_single] at hB
    rw [lookupEntry_mkdirp_head_eq, hB, Option.getD_some]

theorem lookup_step_mkdirp_none (fs : Entry) (n : String) (p q : List String)
    (hfs : fs.isDir = true) (hB : lookupEntry fs [n] = none) :
    lookupEntry (mkdirp fs (n :: p)) (n :: q) =
      lookupEntry (mkdirp (Entry.dir []) p) q := by
  cases fs with
  | file c => simp [Entry.isDir] at hfs
  | dir es =>
    rw [lookup_single] at hB
    rw [lookupEntry_mkdirp_head_eq, hB, Option.getD_none]

theorem copyDirectoryAsync_lookup_head (fs : Entry) (src : List String) (d : String)
    (ds : List String) (B S : Entry) (hfs : fs.isDir = true)
    (hB : lookupEntry fs [d] = some B) (hS : lookupEntry fs src = some S) :
    lookupEntry (copyDirectoryAsync fs src (d :: ds)) [d] =
      some (setEntry B ds (copyDirA S ((lookupEntry B ds).getD (Entry.dir [])))) := by
  simp only [copyDirectoryAsync, hS]
  rw [lookup_under fs d ds B hfs hB]
  rw [lookup_step_set fs d ds [] _ B hfs hB]
  rfl

theorem copyFile_lookup_head (fs : Entry) (src : List String) (d : String)
    (ds : List String) (B S : Entry) (hfs : fs.isDir = true)
    (hB : lookupEntry fs [d] = some B) (hS : lookupEntry fs src = some S) :
    lookupEntry (copyFile fs src (d :: ds)) [d] = some (setEntry B ds S) := by
  simp only [copyFile, hS]
  rw [lookup_step_set fs d ds [] _ B hfs hB]
  rfl

/-- Either absent or a well-formed directory: the shapes of a configured
backup path on which the source's recursive copy is defined (a file
there would make `fs.readdir` raise ENOTDIR). -/
def dirOrNoneWf : Option Entry → Prop
  | none => True
  | some (Entry.dir es) => wfList es = true
  | some (Entry.file _) => False

/-- Either absent or a file: the shapes on which `fs.copyFile` is
defined (a directory there would make it raise EISDIR). -/
def fileOrNone : Option Entry → Prop
  | none => True
  | some (Entry.file _) => True
  | some (Entry.dir _) => False

/-- What `createBackup` ends up holding at `BACKUP_DIR/dados/database`:
the live `dados/database` subtree, or the empty scaffold directory. -/
def dbBackup (fs : Entry) : Entry :=
  match lookupEntry fs dadosDatabase with
  | some e => e
  | none => Entry.dir []

/-- What `createBackup` ends up holding at `BACKUP_DIR/dados/src`: the
copied `config.json`, or the empty scaffold directory. -/
def cfgBackup (fs : Entry) : Entry :=
  match lookupEntry fs dadosSrcConfig with
  | some e => Entry.dir [("config.json", e)]
  | none => Entry.dir []

/-- What `createBackup` ends up holding at `BACKUP_DIR/dados/midias`:
the live `dados/midias` subtree, or the empty scaffold directory. -/
def midBackup (fs : Entry) : Entry :=
  match lookupEntry fs dadosMidias with
  | some e => e
  | none => Entry.dir []

/-- The full snapshot directory entry that `createBackup` produces. -/
def backupTree (fs : Entry) : Entry :=
  Entry.dir [("dados", Entry.dir
    [("database", dbBackup fs), ("src", cfgBackup fs), ("midias", midBackup fs)])]

/-- Characterization of `createBackup`: on a live tree whose configured
backup paths have copyable shapes and whose snapshot location is fresh,
the snapshot directory holds exactly `backupTree fs`. -/
theorem createBackup_lookup_bk (bk : String) (fs : Entry)
    (hroot : fs.isDir = true)
    (hbk : lookupEntry fs [bk] = none)
    (hne : bk ≠ "dados")
    (hdb : dirOrNoneWf (lookupEntry fs dadosDatabase))
    (hcfg : fileOrNone (lookupEntry fs dadosSrcConfig))
    (hmid : dirOrNoneWf (lookupEntry fs dadosMidias)) :
    lookupEntry (createBackup bk fs) [bk] = some (backupTree fs) := by
  simp only [createBackup]
  set fs1 := mkdirp fs [bk, "dados", "database"] with hfs1
  set fs2 := mkdirp fs1 [bk, "dados", "src"] with hfs2
  set fs3 := mkdirp fs2 [bk, "dados", "midias"] with hfs3
  have hD1 : fs1.isDir = true := isDir_mkdirp_cons _ bk _ hroot
  have hD2 : fs2.isDir = true := isDir_mkdirp_cons _ bk _ hD1
  have hD3 : fs3.isDir = true := isDir_mkdirp_cons _ bk _ hD2
  have hF1 : ∀ r, lookupEntry fs1 ("dados" :: r) = lookupEntry fs ("dados" :: r) :=
    fun r => lookupEntry_mkdirp_head_ne _ bk "dados" _ r hne
  have hF2 : ∀ r, lookupEntry fs2 ("dados" :: r) = lookupEntry fs ("dados" :: r) :=
    fun r => (lookupEntry_mkdirp_head_ne _ bk "dados" _ r hne).trans (hF1 r)
  have hF3 : ∀ r, lookupEntry fs3 ("dados" :: r) = lookupEntry fs ("dados" :: r) :=
    fun r => (lookupEntry_mkdirp_head_ne _ bk "dados" _ r hne).trans (hF2 r)
  have hM1 : lookupEntry fs1 [bk]
      = some (Entry.dir [("dados", Entry.dir [("database", Entry.dir [])])]) := by
    rw [hfs1, lookup_step_mkdirp_none fs bk ["dados", "database"] [] hroot hbk]
    simp [mkdirp, childNamed, setAssoc, lookupEntry]
  have hM2 : lookupEntry fs2 [bk]
      = some (Entry.dir [("dados", Entry.dir
          [("database", Entry.dir []), ("src", Entry.dir [])])]) := by
    rw [hfs2, lookup_step_mkdirp fs1 bk ["dados", "src"] [] _ hD1 hM1]
    simp [mkdirp, childNamed, setAssoc, lookupEntry]
  have hM3 : lookupEntry fs3 [bk]
      = some (Entry.dir [("dados", Entry.dir
          [("database", Entry.dir []), ("src", Entry.dir []),
           ("midias", Entry.dir [])])]) := by
    rw [hfs3, lookup_step_mkdirp fs2 bk ["dados", "midias"] [] _ hD2 hM2]
    simp [mkdirp, childNamed, setAssoc, lookupEntry]
  set fs4 := if existsPath fs3 dadosDatabase = true then
      copyDirectoryAsync fs3 dadosDatabase [bk, "dados", "database"] else fs3 with hfs4
  have hD4 : fs4.isDir = true := by
    rw [hfs4]; split_ifs
    · exact isDir_copyDirectoryAsync _ _ bk _ hD3
    · exact hD3
  have hF4 : ∀ r, lookupEntry fs4 ("dados" :: r) = lookupEntry fs ("dados" :: r) := by
    intro r
    rw [hfs4]; split_ifs
    · exact (lookupEntry_copyDirectoryAsync_head_ne _ _ bk "dados" _ r hne).trans (hF3 r)
    · exact hF3 r
  have hM4 : lookupEntry fs4 [bk]
      = some (Entry.dir [("dados", Entry.dir
          [("database", dbBackup fs), ("src", Entry.dir []),
           ("midias", Entry.dir [])])]) := by
    rw [hfs4]
    cases hdbL : lookupEntry fs dadosDatabase with
    | none =>
      rw [if_neg (by simp [existsPath, hF3, hdbL])]
      rw [hM3]
      simp [dbBackup, hdbL]
    | some e =>
      rw [if_pos (by simp [existsPath, hF3, hdbL])]
      cases e with
      | file c => simp [dirOrNoneWf, hdbL] at hdb
      | dir dbs =>
        rw [copyDirectoryAsync_lookup_head fs3 dadosDatabase bk ["dados", "database"]
          _ _ hD3 hM3 ((hF3 ["database"]).trans hdbL)]
        rw [show (lookupEntry (Entry.dir [("dados", Entry.dir
          [("database", Entry.dir []), ("src", Entry.dir []),
           ("midias", Entry.dir [])])]) ["dados", "database"]) = some (Entry.dir [])
          by simp [lookupEntry, getChild, childNamed]]
        rw [Option.getD_some]
        rw [copyDirA_dir_empty dbs (by simpa [dirOrNoneWf, hdbL] using hdb)]
        simp [setEntry, setAssoc, childNamed, dbBackup, hdbL]
  set fs5 := if existsPath fs4 dadosSrcConfig = true then
      copyFile fs4 dadosSrcConfig [bk, "dados", "src", "config.json"] else fs4 with hfs5
  have hD5 : fs5.isDir = true := by
    rw [hfs5]; split_ifs
    · exact isDir_copyFile _ _ bk _ hD4
    · exact hD4
  have hF5 : ∀ r, lookupEntry fs5 ("dados" :: r) = lookupEntry fs ("dados" :: r) := by
    intro r
    rw [hfs5]; split_ifs
    · exact (lookupEntry_copyFile_head_ne _ _ bk "dados" _ r hne).trans (hF4 r)
    · exact hF4 r
  have hM5 : lookupEntry fs5 [bk]
      = some (Entry.dir [("dados", Entry.dir
          [("database", dbBackup fs), ("src", cfgBackup fs),
           ("midias", Entry.dir [])])]) := by
    rw [hfs5]
    cases hcfgL : lookupEntry fs dadosSrcConfig with
    | none =>
      rw [if_neg (by simp [existsPath, hF4, hcfgL])]
      rw [hM4]
      simp [cfgBackup, hcfgL]
    | some e =>
      rw [if_pos (by simp [existsPath, hF4, hcfgL])]
      cases e with
      | dir ds2 => simp [fileOrNone, hcfgL] at hcfg
      | file cf =>
        rw [copyFile_lookup_head fs4 dadosSrcConfig bk ["dados", "src", "config.json"]
          _ _ hD4 hM4 ((hF4 ["src", "config.json"]).trans hcfgL)]
        simp [setEntry, setAssoc, childNamed, cfgBackup, hcfgL]
  have hM6 : lookupEntry (if existsPath fs5 dadosMidias = true then
      copyDirectoryAsync fs5 dadosMidias [bk, "dados", "midias"] else fs5) [bk]
      = some (backupTree fs) := by
    cases hmidL : lookupEntry fs dadosMidias with
    | none =>
      rw [if_neg (by simp [existsPath, hF5, hmidL])]
      rw [hM5]
      simp [backupTree, midBackup, hmidL]
    | some e =>
      rw [if_pos (by simp [existsPath, hF5, hmidL])]
      cases e with
      | file c => simp [dirOrNoneWf, hmidL] at hmid
      | dir ms =>
        rw [copyDirectoryAsync_lookup_head fs5 dadosMidias bk ["dados", "midias"]
          _ _ hD5 hM5 ((hF5 ["midias"]).trans hmidL)]
        rw [show (lookupEntry (Entry.dir [("dados", Entry.dir
          [("database", dbBackup fs), ("src", cfgBackup fs),
           ("midias", Entry.dir [])])]) ["dados", "midias"]) = some (Entry.dir [])
          by simp [lookupEntry, getChild, childNamed]]
        rw [Option.getD_some]
        rw [copyDirA_dir_empty ms (by simpa [dirOrNoneWf, hmidL] using hmid)]
        simp [setEntry, setAssoc, childNamed, backupTree, midBackup, hmidL]
  exact hM6

theorem lookup_cons_split (fs : Entry) (n : String) (q : List String) (e : Entry)
    (h : lookupEntry fs (n :: q) = some e) :
    ∃ d, lookupEntry fs [n] = some d ∧ lookupEntry d q = some e := by
  cases fs with
  | file c => simp [lookupEntry, getChild] at h
  | dir es =>
    simp only [lookupEntry, getChild] at h
    cases hc : childNamed es n with
    | none => rw [hc] at h; simp at h
    | some d =>
      rw [hc] at h
      exact ⟨d, by rw [lookup_single, hc], h⟩

theorem isDir_of_lookup_cons (fs : Entry) (n : String) (q : List String) (e : Entry)
    (h : lookupEntry fs (n :: q) = some e) : fs.isDir = true := by
  cases fs with
  | file c => simp [lookupEntry, getChild] at h
  | dir es => rfl

theorem dirsAlong_append_of_lookup_dir (fs : Entry) (p : List String) (x : String)
    (es : List (String × Entry)) (h : lookupEntry fs p = some (Entry.dir es)) :
    dirsAlong fs (p ++ [x]) = true := by
  induction p generalizing fs with
  | nil =>
    have hfs : fs = Entry.dir es := by simpa [lookupEntry] using h
    subst hfs
    cases hc : childNamed es x <;> simp [dirsAlong, hc]
  | cons n p ih =>
    cases fs with
    | file c => simp [lookupEntry, getChild] at h
    | dir es0 =>
      simp only [lookupEntry, getChild] at h
      cases hc : childNamed es0 n with
      | none => rw [hc] at h; simp at h
      | some c =>
        rw [hc] at h
        simp only [List.cons_append, dirsAlong, hc]
        exact ih c h

theorem lookupEntry_setEntry_self_nil (fs : Entry) (p : List String) (v : Entry)
    (h : dirsAlong fs p = true) : lookupEntry (setEntry fs p v) p = some v := by
  have := lookupEntry_setEntry_self fs p [] v h
  simpa using this

theorem lookupEntry_removeEntry_self_nil (fs : Entry) (p : List String) (hp : p ≠ []) :
    lookupEntry (removeEntry fs p) p = none := by
  simpa using lookupEntry_removeEntry_self fs p [] hp

theorem remove_lookup_head (fs : Entry) (d : String) (p : List String) (B : Entry)
    (hfs : fs.isDir = true) (hB : lookupEntry fs [d] = some B) (hp : p ≠ []) :
    lookupEntry (removeEntry fs (d :: p)) [d] = some (removeEntry B p) := by
  cases fs with
  | file c => simp [Entry.isDir] at hfs
  | dir es =>
    rw [lookup_single] at hB
    cases p with
    | nil => exact absurd rfl hp
    | cons x xs =>
      simp only [removeEntry, hB]
      rw [lookup_single, childNamed_setAssoc_self]

theorem mkdirp_lookup_head (fs : Entry) (d : String) (p : List String) (B : Entry)
    (hfs : fs.isDir = true) (hB : lookupEntry fs [d] = some B) :
    lookupEntry (mkdirp fs (d :: p)) [d] = some (mkdirp B p) := by
  rw [lookup_step_mkdirp fs d p [] B hfs hB]
  rfl

theorem setEntry_lookup_head (fs : Entry) (d : String) (p : List String) (v B : Entry)
    (hfs : fs.isDir = true) (hB : lookupEntry fs [d] = some B) :
    lookupEntry (setEntry fs (d :: p) v) [d] = some (setEntry B p v) := by
  rw [lookup_step_set fs d p [] v B hfs hB]
  rfl

theorem set_dados_diverge (fs : Entry) (a b : String) (p q : List String) (v : Entry)
    (h : a ≠ b) :
    lookupEntry (setEntry fs ("dados" :: a :: p) v) ("dados" :: b :: q) =
      lookupEntry fs ("dados" :: b :: q) := by
  simpa using lookupEntry_setEntry_diverge ["dados"] fs a b p q v h

theorem mkdirp_dados_diverge (fs : Entry) (a b : String) (p q : List String)
    (h : a ≠ b) :
    lookupEntry (mkdirp fs ("dados" :: a :: p)) ("dados" :: b :: q) =
      lookupEntry fs ("dados" :: b :: q) := by
  simpa using lookupEntry_mkdirp_diverge ["dados"] fs a b p q h

theorem remove_dados_diverge (fs : Entry) (a b : String) (p q : List String)
    (h : a ≠ b) :
    lookupEntry (removeEntry fs ("dados" :: a :: p)) ("dados" :: b :: q) =
      lookupEntry fs ("dados" :: b :: q) := by
  simpa using lookupEntry_removeEntry_diverge ["dados"] fs a b p q h

/-- C1: restore round-trip. For any live tree containing the three
configured user-data paths (`dados/database` a directory, the file
`dados/src/config.json`, `dados/midias` a directory, with arbitrary
well-formed contents) and a fresh snapshot location `bk` (the timestamped
`BACKUP_DIR` of a run never pre-exists and is never named `dados`),
running `createBackup`, then deleting the three live paths, then running
`restoreBackup`, reproduces the original state byte-for-byte at those
paths. -/
theorem C1_restore_round_trip (bk : String) (fs : Entry)
    (dbs ms : List (String × Entry)) (cf : String)
    (hroot : fs.isDir = true)
    (hfresh : lookupEntry fs [bk] = none)
    (hne : bk ≠ "dados")
    (hdb : lookupEntry fs dadosDatabase = some (Entry.dir dbs))
    (hwfdb : wfList dbs = true)
    (hcfg : lookupEntry fs dadosSrcConfig = some (Entry.file cf))
    (hmid : lookupEntry fs dadosMidias = some (Entry.dir ms))
    (hwfmid : wfList ms = true) :
    lookupEntry (restoreBackup bk (removeEntry (removeEntry (removeEntry
        (createBackup bk fs) dadosDatabase) dadosSrcConfig) dadosMidias))
        dadosDatabase = lookupEntry fs dadosDatabase ∧
    lookupEntry (restoreBackup bk (removeEntry (removeEntry (removeEntry
        (createBackup bk fs) dadosDatabase) dadosSrcConfig) dadosMidias))
        dadosSrcConfig = lookupEntry fs dadosSrcConfig ∧
    lookupEntry (restoreBackup bk (removeEntry (removeEntry (removeEntry
        (createBackup bk fs) dadosDatabase) dadosSrcConfig) dadosMidias))
        dadosMidias = lookupEntry fs dadosMidias := by
  have hnd : "dados" ≠ bk := Ne.symm hne
  have hA := createBackup_lookup_bk bk fs hroot hfresh hne
    (by rw [show (dadosDatabase : List String) = ["dados", "database"] from rfl] at hdb ⊢
        rw [hdb]; exact hwfdb)
    (by rw [show (dadosSrcConfig : List String) = ["dados", "src", "config.json"] from rfl]
          at hcfg ⊢
        rw [hcfg]; trivial)
    (by rw [show (dadosMidias : List String) = ["dados", "midias"] from rfl] at hmid ⊢
        rw [hmid]; exact hwfmid)
  have hBT : backupTree fs = Entry.dir [("dados", Entry.dir
      [("database", Entry.dir dbs),
       ("src", Entry.dir [("config.json", Entry.file cf)]),
       ("midias", Entry.dir ms)])] := by
    simp [backupTree, dbBackup, cfgBackup, midBackup, hdb, hcfg, hmid]
  simp only [dadosDatabase, dadosSrcConfig, dadosMidias] at hdb hcfg hmid ⊢
  obtain ⟨D0, hD0, hdb0⟩ := lookup_cons_split fs "dados" ["database"] _ hdb
  have hcfg0 : lookupEntry D0 ["src", "config.json"] = some (Entry.file cf) := by
    rw [← lookup_under fs "dados" ["src", "config.json"] D0 hroot hD0]
    exact hcfg
  obtain ⟨S0, hS0, hS0c⟩ := lookup_cons_split D0 "src" ["config.json"] _ hcfg0
  have hD0dir : D0.isDir = true := isDir_of_lookup_cons _ _ _ _ hdb0
  have hS0dir : S0.isDir = true := isDir_of_lookup_cons _ _ _ _ hS0c
  have hAroot : (createBackup bk fs).isDir = true := isDir_createBackup bk fs hroot
  have hFr1 : ∀ r, lookupEntry (createBackup bk fs) ("dados" :: r) =
      lookupEntry fs ("dados" :: r) := fun r => createBackup_frame bk fs "dados" r hne
  set fs1 := createBackup bk fs with hfs1def
  set r1 := removeEntry fs1 ["dados", "database"] with hr1def
  set r2 := removeEntry r1 ["dados", "src", "config.json"] with hr2def
  set fs2 := removeEntry r2 ["dados", "midias"] with hfs2def
  have hr1dir : r1.isDir = true := isDir_removeEntry _ _ hAroot
  have hr2dir : r2.isDir = true := isDir_removeEntry _ _ hr1dir
  have hfs2dir : fs2.isDir = true := isDir_removeEntry _ _ hr2dir
  have hBK2 : lookupEntry fs2 [bk] = some (backupTree fs) := by
    rw [hfs2def, lookupEntry_removeEntry_head_ne r2 "dados" bk ["midias"] [] hnd,
      hr2def, lookupEntry_removeEntry_head_ne r1 "dados" bk ["src", "config.json"] [] hnd,
      hr1def, lookupEntry_removeEntry_head_ne fs1 "dados" bk ["database"] [] hnd]
    exact hA
  have hD1 : lookupEntry fs1 ["dados"] = some D0 := (hFr1 []).trans hD0
  have hr1dados : lookupEntry r1 ["dados"] = some (removeEntry D0 ["database"]) := by
    rw [hr1def]
    exact remove_lookup_head fs1 "dados" ["database"] D0 hAroot hD1 (by simp)
  have hr2dados : lookupEntry r2 ["dados"] =
      some (removeEntry (removeEntry D0 ["database"]) ["src", "config.json"]) := by
    rw [hr2def]
    exact remove_lookup_head r1 "dados" ["src", "config.json"] _ hr1dir hr1dados (by simp)
  have hfs2dados : lookupEntry fs2 ["dados"] =
      some (removeEntry (removeEntry (removeEntry D0 ["database"])
        ["src", "config.json"]) ["midias"]) := by
    rw [hfs2def]
    exact remove_lookup_head r2 "dados" ["midias"] _ hr2dir hr2dados (by simp)
  have hfs2dadosdir : ∃ es2, lookupEntry fs2 ["dados"] = some (Entry.dir es2) := by
    have hdirx : (removeEntry (removeEntry (removeEntry D0 ["database"])
        ["src", "config.json"]) ["midias"]).isDir = true :=
      isDir_removeEntry _ _ (isDir_removeEntry _ _ (isDir_removeEntry _ _ hD0dir))
    cases hxx : removeEntry (removeEntry (removeEntry D0 ["database"])
        ["src", "config.json"]) ["midias"] with
    | file c => rw [hxx] at hdirx; simp [Entry.isDir] at hdirx
    | dir es2 => exact ⟨es2, by rw [hfs2dados, hxx]⟩
  have hdb2 : lookupEntry fs2 ["dados", "database"] = none := by
    rw [hfs2def, remove_dados_diverge r2 "midias" "database" [] [] (by decide),
      hr2def, remove_dados_diverge r1 "src" "database" ["config.json"] [] (by decide),
      hr1def]
    exact lookupEntry_removeEntry_self_nil fs1 ["dados", "database"] (by simp)
  have hcfg2 : lookupEntry fs2 ["dados", "src", "config.json"] = none := by
    rw [hfs2def, remove_dados_diverge r2 "midias" "src" [] ["config.json"] (by decide),
      hr2def]
    exact lookupEntry_removeEntry_self_nil r1 ["dados", "src", "config.json"] (by simp)
  have hmid2 : lookupEntry fs2 ["dados", "midias"] = none := by
    rw [hfs2def]
    exact lookupEntry_removeEntry_self_nil r2 ["dados", "midias"] (by simp)
  have hsrc2 : lookupEntry fs2 ["dados", "src"] = some (removeEntry S0 ["config.json"]) := by
    rw [hfs2def, remove_dados_diverge r2 "midias" "src" [] [] (by decide)]
    rw [lookup_under r2 "dados" ["src"] _ hr2dir hr2dados]
    have hSx : lookupEntry (removeEntry D0 ["database"]) ["src"] = some S0 := by
      rw [lookupEntry_removeEntry_head_ne D0 "database" "src" [] [] (by decide)]
      exact hS0
    exact remove_lookup_head (removeEntry D0 ["database"]) "src" ["config.json"] S0
      (isDir_removeEntry _ _ hD0dir) hSx (by simp)
  have hsrc2dir : (removeEntry S0 ["config.json"]).isDir = true :=
    isDir_removeEntry _ _ hS0dir
  -- the restore phase
  simp only [restoreBackup]
  set g1 := mkdirp fs2 ["dados", "database"] with hg1def
  set g2 := mkdirp g1 ["dados", "src"] with hg2def
  set g3 := mkdirp g2 ["dados", "midias"] with hg3def
  have hg1dir : g1.isDir = true := isDir_mkdirp_cons _ _ _ hfs2dir
  have hg2dir : g2.isDir = true := isDir_mkdirp_cons _ _ _ hg1dir
  have hg3dir : g3.isDir = true := isDir_mkdirp_cons _ _ _ hg2dir
  have hbkg3 : ∀ r, lookupEntry g3 (bk :: r) = lookupEntry (backupTree fs) r := by
    intro r
    rw [hg3def, lookupEntry_mkdirp_head_ne _ "dados" bk _ r hnd,
        hg2def, lookupEntry_mkdirp_head_ne _ "dados" bk _ r hnd,
        hg1def, lookupEntry_mkdirp_head_ne _ "dados" bk _ r hnd]
    exact lookup_under fs2 bk r _ hfs2dir hBK2
  have hdbg1 : lookupEntry g1 ["dados", "database"] = some (Entry.dir []) := by
    obtain ⟨es2, hes2⟩ := hfs2dadosdir
    rw [hg1def, lookupEntry_mkdirp_self fs2 ["dados", "database"]
      (by simpa using dirsAlong_append_of_lookup_dir fs2 ["dados"] "database" es2 hes2),
      hdb2]
    rfl
  have hsrcg1 : lookupEntry g1 ["dados", "src"] = some (removeEntry S0 ["config.json"]) := by
    rw [hg1def, mkdirp_dados_diverge fs2 "database" "src" [] [] (by decide)]
    exact hsrc2
  have hmidg1 : lookupEntry g1 ["dados", "midias"] = none := by
    rw [hg1def, mkdirp_dados_diverge fs2 "database" "midias" [] [] (by decide)]
    exact hmid2
  have hdadosg1 : ∃ E, lookupEntry g1 ["dados"] = some E ∧ E.isDir = true := by
    obtain ⟨es2, hes2⟩ := hfs2dadosdir
    refine ⟨mkdirp (Entry.dir es2) ["database"], ?_, ?_⟩
    · rw [hg1def]
      exact mkdirp_lookup_head fs2 "dados" ["database"] _ hfs2dir hes2
    · exact isDir_mkdirp_cons _ _ _ rfl
  have hsrcg2 : lookupEntry g2 ["dados", "src"] = some (removeEntry S0 ["config.json"]) := by
    rw [hg2def, lookupEntry_mkdirp_self g1 ["dados", "src"]
      (dirsAlong_of_lookup g1 _ _ hsrcg1), hsrcg1]
    rfl
  have hdbg2 : lookupEntry g2 ["dados", "database"] = some (Entry.dir []) := by
    rw [hg2def, mkdirp_dados_diverge g1 "src" "database" [] [] (by decide)]
    exact hdbg1
  have hmidg2 : lookupEntry g2 ["dados", "midias"] = none := by
    rw [hg2def, mkdirp_dados_diverge g1 "src" "midias" [] [] (by decide)]
    exact hmidg1
  have hdadosg2 : ∃ E, lookupEntry g2 ["dados"] = some E ∧ E.isDir = true := by
    obtain ⟨E, hE, hEd⟩ := hdadosg1
    refine ⟨mkdirp E ["src"], ?_, ?_⟩
    · rw [hg2def]
      exact mkdirp_lookup_head g1 "dados" ["src"] E hg1dir hE
    · exact isDir_mkdirp_cons _ _ _ hEd
  have hmidg3 : lookupEntry g3 ["dados", "midias"] = some (Entry.dir []) := by
    obtain ⟨E, hE, hEd⟩ := hdadosg2
    obtain ⟨es3, rfl⟩ : ∃ es3, E = Entry.dir es3 := by
      cases E with
      | file c => simp [Entry.isDir] at hEd
      | dir es3 => exact ⟨es3, rfl⟩
    rw [hg3def, lookupEntry_mkdirp_self g2 ["dados", "midias"]
      (by simpa using dirsAlong_append_of_lookup_dir g2 ["dados"] "midias" es3 hE),
      hmidg2]
    rfl
  have hdbg3 : lookupEntry g3 ["dados", "database"] = some (Entry.dir []) := by
    rw [hg3def, mkdirp_dados_diverge g2 "midias" "database" [] [] (by decide)]
    exact hdbg2
  have hsrcg3 : lookupEntry g3 ["dados", "src"] = some (removeEntry S0 ["config.json"]) := by
    rw [hg3def, mkdirp_dados_diverge g2 "midias" "src" [] [] (by decide)]
    exact hsrcg2
  have hdadosg3 : ∃ E, lookupEntry g3 ["dados"] = some E ∧ E.isDir = true := by
    obtain ⟨E, hE, hEd⟩ := hdadosg2
    refine ⟨mkdirp E ["midias"], ?_, ?_⟩
    · rw [hg3def]
      exact mkdirp_lookup_head g2 "dados" ["midias"] E hg2dir hE
    · exact isDir_mkdirp_cons _ _ _ hEd
  have hBTdb : lookupEntry (backupTree fs) ["dados", "database"] = some (Entry.dir dbs) := by
    rw [hBT]; simp [lookupEntry, getChild, childNamed]
  have hBTcfg : lookupEntry (backupTree fs) ["dados", "src", "config.json"] =
      some (Entry.file cf) := by
    rw [hBT]; simp [lookupEntry, getChild, childNamed]
  have hBTmid : lookupEntry (backupTree fs) ["dados", "midias"] = some (Entry.dir ms) := by
    rw [hBT]; simp [lookupEntry, getChild, childNamed]
  set c1 := if existsPath g3 [bk, "dados", "database"] = true then
      copyDirectoryAsync g3 [bk, "dados", "database"] ["dados", "database"] else g3
    with hc1def
  have hsrcLook1 : lookupEntry g3 [bk, "dados", "database"] = some (Entry.dir dbs) :=
    (hbkg3 ["dados", "database"]).trans hBTdb
  have hc1eq : c1 = setEntry g3 ["dados", "database"] (Entry.dir dbs) := by
    rw [hc1def, if_pos (by simp [existsPath, hsrcLook1])]
    simp only [copyDirectoryAsync, hsrcLook1, hdbg3, Option.getD_some,
      copyDirA_dir_empty dbs hwfdb]
  have hc1dir : c1.isDir = true := by
    rw [hc1eq]; exact isDir_setEntry_cons _ _ _ _ hg3dir
  have hdbc1 : lookupEntry c1 ["dados", "database"] = some (Entry.dir dbs) := by
    obtain ⟨E, hE, hEd⟩ := hdadosg3
    obtain ⟨es3, rfl⟩ : ∃ es3, E = Entry.dir es3 := by
      cases E with
      | file c => simp [Entry.isDir] at hEd
      | dir es3 => exact ⟨es3, rfl⟩
    rw [hc1eq]
    exact lookupEntry_setEntry_self_nil g3 ["dados", "database"] _
      (by simpa using dirsAlong_append_of_lookup_dir g3 ["dados"] "database" es3 hE)
  have hsrcc1 : lookupEntry c1 ["dados", "src"] = some (removeEntry S0 ["config.json"]) := by
    rw [hc1eq, set_dados_diverge g3 "database" "src" [] [] _ (by decide)]
    exact hsrcg3
  have hmidc1 : lookupEntry c1 ["dados", "midias"] = some (Entry.dir []) := by
    rw [hc1eq, set_dados_diverge g3 "database" "midias" [] [] _ (by decide)]
    exact hmidg3
  have hdadosc1 : ∃ E, lookupEntry c1 ["dados"] = some E ∧ E.isDir = true := by
    obtain ⟨E, hE, hEd⟩ := hdadosg3
    refine ⟨setEntry E ["database"] (Entry.dir dbs), ?_, ?_⟩
    · rw [hc1eq]
      exact setEntry_lookup_head g3 "dados" ["database"] _ E hg3dir hE
    · exact isDir_setEntry_cons _ _ _ _ hEd
  have hbkc1 : ∀ r, lookupEntry c1 (bk :: r) = lookupEntry (backupTree fs) r := by
    intro r
    rw [hc1eq, lookupEntry_setEntry_head_ne g3 "dados" bk _ r _ hnd]
    exact hbkg3 r
  set c2 := if existsPath c1 [bk, "dados", "src", "config.json"] = true then
      copyFile c1 [bk, "dados", "src", "config.json"] ["dados", "src", "config.json"] else c1
    with hc2def
  have hsrcLook2 : lookupEntry c1 [bk, "dados", "src", "config.json"] =
      some (Entry.file cf) := (hbkc1 ["dados", "src", "config.json"]).trans hBTcfg
  have hc2eq : c2 = setEntry c1 ["dados", "src", "config.json"] (Entry.file cf) := by
    rw [hc2def, if_pos (by simp [existsPath, hsrcLook2])]
    simp only [copyFile, hsrcLook2]
  have hc2dir : c2.isDir = true := by
    rw [hc2eq]; exact isDir_setEntry_cons _ _ _ _ hc1dir
  have hcfgc2 : lookupEntry c2 ["dados", "src", "config.json"] = some (Entry.file cf) := by
    obtain ⟨es4, hes4⟩ : ∃ es4, removeEntry S0 ["config.json"] = Entry.dir es4 := by
      cases hxx : removeEntry S0 ["config.json"] with
      | file c =>
        have hy := hsrc2dir
        rw [hxx] at hy
        simp [Entry.isDir] at hy
      | dir es4 => exact ⟨es4, rfl⟩
    rw [hc2eq]
    refine lookupEntry_setEntry_self_nil c1 ["dados", "src", "config.json"] _ ?_
    have hd := dirsAlong_append_of_lookup_dir c1 ["dados", "src"] "config.json" es4
      (by rw [hsrcc1, hes4])
    simpa using hd
  have hdbc2 : lookupEntry c2 ["dados", "database"] = some (Entry.dir dbs) := by
    rw [hc2eq, set_dados_diverge c1 "src" "database" ["config.json"] [] _ (by decide)]
    exact hdbc1
  have hmidc2 : lookupEntry c2 ["dados", "midias"] = some (Entry.dir []) := by
    rw [hc2eq, set_dados_diverge c1 "src" "midias" ["config.json"] [] _ (by decide)]
    exact hmidc1
  have hdadosc2 : ∃ E, lookupEntry c2 ["dados"] = some E ∧ E.isDir = true := by
    obtain ⟨E, hE, hEd⟩ := hdadosc1
    refine ⟨setEntry E ["src", "config.json"] (Entry.file cf), ?_, ?_⟩
    · rw [hc2eq]
      exact setEntry_lookup_head c1 "dados" ["src", "config.json"] _ E hc1dir hE
    · exact isDir_setEntry_cons _ _ _ _ hEd
  have hbkc2 : ∀ r, lookupEntry c2 (bk :: r) = lookupEntry (backupTree fs) r := by
    intro r
    rw [hc2eq, lookupEntry_setEntry_head_ne c1 "dados" bk _ r _ hnd]
    exact hbkc1 r
  set c3 := if existsPath c2 [bk, "dados", "midias"] = true then
      copyDirectoryAsync c2 [bk, "dados", "midias"] ["dados", "midias"] else c2
    with hc3def
  have hsrcLook3 : lookupEntry c2 [bk, "dados", "midias"] = some (Entry.dir ms) :=
    (hbkc2 ["dados", "midias"]).trans hBTmid
  have hc3eq : c3 = setEntry c2 ["dados", "midias"] (Entry.dir ms) := by
    rw [hc3def, if_pos (by simp [existsPath, hsrcLook3])]
    simp only [copyDirectoryAsync, hsrcLook3, hmidc2, Option.getD_some,
      copyDirA_dir_empty ms hwfmid]
  have hmidc3 : lookupEntry c3 ["dados", "midias"] = some (Entry.dir ms) := by
    obtain ⟨E, hE, hEd⟩ := hdadosc2
    obtain ⟨es5, rfl⟩ : ∃ es5, E = Entry.dir es5 := by
      cases E with
      | file c => simp [Entry.isDir] at hEd
      | dir es5 => exact ⟨es5, rfl⟩
    rw [hc3eq]
    exact lookupEntry_setEntry_self_nil c2 ["dados", "midias"] _
      (by simpa using dirsAlong_append_of_lookup_dir c2 ["dados"] "midias" es5 hE)
  have hdbc3 : lookupEntry c3 ["dados", "database"] = some (Entry.dir dbs) := by
    rw [hc3eq, set_dados_diverge c2 "midias" "database" [] [] _ (by decide)]
    exact hdbc2
  have hcfgc3 : lookupEntry c3 ["dados", "src", "config.json"] = some (Entry.file cf) := by
    rw [hc3eq, set_dados_diverge c2 "midias" "src" [] ["config.json"] _ (by decide)]
    exact hcfgc2
  refine ⟨?_, ?_, ?_⟩
  · rw [hdb]; exact hdbc3
  · rw [hcfg]; exact hcfgc3
  · rw [hmid]; exact hmidc3

/-- Witness for C1: the round trip at a concrete live tree with one
database file, one configuration file and one media file. -/
theorem C1_restore_round_trip_witness :
    lookupEntry (restoreBackup "backup_1" (removeEntry (removeEntry (removeEntry
        (createBackup "backup_1" (Entry.dir [("dados", Entry.dir
          [("database", Entry.dir [("db.json", Entry.file "a")]),
           ("src", Entry.dir [("config.json", Entry.file "b")]),
           ("midias", Entry.dir [("m.png", Entry.file "c")])])]))
        dadosDatabase) dadosSrcConfig) dadosMidias)) dadosDatabase =
      lookupEntry (Entry.dir [("dados", Entry.dir
          [("database", Entry.dir [("db.json", Entry.file "a")]),
           ("src", Entry.dir [("config.json", Entry.file "b")]),
           ("midias", Entry.dir [("m.png", Entry.file "c")])])]) dadosDatabase ∧
    lookupEntry (restoreBackup "backup_1" (removeEntry (removeEntry (removeEntry
        (createBackup "backup_1" (Entry.dir [("dados", Entry.dir
          [("database", Entry.dir [("db.json", Entry.file "a")]),
           ("src", Entry.dir [("config.json", Entry.file "b")]),
           ("midias", Entry.dir [("m.png", Entry.file "c")])])]))
        dadosDatabase) dadosSrcConfig) dadosMidias)) dadosSrcConfig =
      lookupEntry (Entry.dir [("dados", Entry.dir
          [("database", Entry.dir [("db.json", Entry.file "a")]),
           ("src", Entry.dir [("config.json", Entry.file "b")]),
           ("midias", Entry.dir [("m.png", Entry.file "c")])])]) dadosSrcConfig ∧
    lookupEntry (restoreBackup "backup_1" (removeEntry (removeEntry (removeEntry
        (createBackup "backup_1" (Entry.dir [("dados", Entry.dir
          [("database", Entry.dir [("db.json", Entry.file "a")]),
           ("src", Entry.dir [("config.json", Entry.file "b")]),
           ("midias", Entry.dir [("m.png", Entry.file "c")])])]))
        dadosDatabase) dadosSrcConfig) dadosMidias)) dadosMidias =
      lookupEntry (Entry.dir [("dados", Entry.dir
          [("database", Entry.dir [("db.json", Entry.file "a")]),
           ("src", Entry.dir [("config.json", Entry.file "b")]),
           ("midias", Entry.dir [("m.png", Entry.file "c")])])]) dadosMidias :=
  C1_restore_round_trip "backup_1"
    (Entry.dir [("dados", Entry.dir
      [("database", Entry.dir [("db.json", Entry.file "a")]),
       ("src", Entry.dir [("config.json", Entry.file "b")]),
       ("midias", Entry.dir [("m.png", Entry.file "c")])])])
    [("db.json", Entry.file "a")] [("m.png", Entry.file "c")] "b"
    (by rfl) (by rfl) (by decide) (by rfl) (by rfl) (by rfl) (by rfl) (by rfl)

theorem removeItems_frame (items : List String) (fs : Entry) (n : String)
    (q : List String) (h : n ∉ items) :
    lookupEntry (removeItems items fs) (n :: q) = lookupEntry fs (n :: q) := by
  induction items generalizing fs with
  | nil => rfl
  | cons m rest ih =>
    have hmn : m ≠ n := fun hh => h (hh ▸ List.mem_cons_self m rest)
    simp only [removeItems]
    rw [ih _ (fun hx => h (List.mem_cons_of_mem m hx))]
    split_ifs
    · exact lookupEntry_removeEntry_head_ne fs m n [] q hmn
    · rfl

theorem isDir_removeItems (items : List String) (fs : Entry) (hfs : fs.isDir = true) :
    (removeItems items fs).isDir = true := by
  induction items generalizing fs with
  | nil => exact hfs
  | cons m rest ih =>
    simp only [removeItems]
    apply ih
    split_ifs
    · exact isDir_removeEntry _ _ hfs
    · exact hfs

theorem removeItems_absent (items : List String) (fs : Entry) (n : String)
    (q : List String) (hmem : n ∈ items) (hfs : fs.isDir = true) :
    lookupEntry (removeItems items fs) (n :: q) = none := by
  induction items generalizing fs with
  | nil => simp at hmem
  | cons m rest ih =>
    simp only [removeItems]
    by_cases hr : n ∈ rest
    · apply ih _ hr
      split_ifs
      · exact isDir_removeEntry _ _ hfs
      · exact hfs
    · have hnm : n = m := by
        rcases List.mem_cons.mp hmem with h1 | h2
        · exact h1
        · exact absurd h2 hr
      subst hnm
      rw [removeItems_frame rest _ n q hr]
      split_ifs with hex
      · exact lookupEntry_removeEntry_self fs [n] q (by simp)
      · cases hl : lookupEntry fs [n] with
        | none => exact lookup_cons_none fs n q hl
        | some e => simp [existsPath, hl] at hex

theorem cleanLoop_frame (bk : String) (es : List (String × Entry)) (fs : Entry)
    (n : String) (q : List String) (hn : n ≠ "dados") :
    lookupEntry (cleanLoop ["dados"] [bk] es fs) (n :: q) = lookupEntry fs (n :: q) := by
  induction es generalizing fs with
  | nil => rfl
  | cons p rest ih =>
    obtain ⟨x, e⟩ := p
    simp only [cleanLoop]
    split_ifs
    · exact ih fs
    · rw [ih]
      exact lookupEntry_removeEntry_head_ne fs "dados" n [x] q (Ne.symm hn)

theorem mem_eraseChild (es : List (String × Entry)) (n : String) (p : String × Entry)
    (h : p ∈ eraseChild es n) : p ∈ es ∧ p.1 ≠ n := by
  induction es with
  | nil => simp [eraseChild] at h
  | cons q rest ih =>
    obtain ⟨m, e⟩ := q
    by_cases hm : m = n
    · rw [eraseChild, if_pos hm] at h
      obtain ⟨h1, h2⟩ := ih h
      exact ⟨List.mem_cons_of_mem _ h1, h2⟩
    · rw [eraseChild, if_neg hm] at h
      rcases List.mem_cons.mp h with h1 | h2
      · subst h1
        exact ⟨List.mem_cons_self _ _, hm⟩
      · obtain ⟨h1, h2⟩ := ih h2
        exact ⟨List.mem_cons_of_mem _ h1, h2⟩

theorem cleanLoop_clears (bk : String) (es : List (String × Entry)) (fs : Entry)
    (cur : List (String × Entry))
    (hfs : fs.isDir = true)
    (hcur : lookupEntry fs ["dados"] = some (Entry.dir cur))
    (hcov : ∀ p ∈ cur, ∃ x ∈ es, x.1 = p.1) :
    lookupEntry (cleanLoop ["dados"] [bk] es fs) ["dados"] = some (Entry.dir []) := by
  induction es generalizing fs cur with
  | nil =>
    cases cur with
    | nil => exact hcur
    | cons p rest =>
      obtain ⟨x, hx, _⟩ := hcov p (List.mem_cons_self p rest)
      simp at hx
  | cons q rest ih =>
    obtain ⟨x, e⟩ := q
    simp only [cleanLoop]
    split_ifs with hx
    · exact absurd hx (by simp)
    · have hrm : lookupEntry (removeEntry fs (["dados"] ++ [x])) ["dados"]
          = some (Entry.dir (eraseChild cur x)) :=
        remove_lookup_head fs "dados" [x] (Entry.dir cur) hfs hcur (by simp)
      apply ih (removeEntry fs (["dados"] ++ [x])) (eraseChild cur x)
        (isDir_removeEntry _ _ hfs) hrm
      intro p hp
      obtain ⟨hin, hpne⟩ := mem_eraseChild cur x p hp
      obtain ⟨y, hy, hyeq⟩ := hcov p hin
      rcases List.mem_cons.mp hy with h1 | h2
      · exfalso
        apply hpne
        rw [← hyeq, h1]
      · exact ⟨y, h2, hyeq⟩

theorem cleanOldFiles_frame (bk : String) (fs : Entry) (n : String) (q : List String)
    (h1 : n ∉ itemsToDelete) (h2 : n ≠ "dados") :
    lookupEntry (cleanOldFiles bk fs) (n :: q) = lookupEntry fs (n :: q) := by
  simp only [cleanOldFiles]
  split_ifs
  · simp only [cleanDirectoryAsync]
    cases hd : lookupEntry (removeItems itemsToDelete fs) ["dados"] with
    | none => exact removeItems_frame _ _ _ _ h1
    | some e =>
      cases e with
      | file c => exact removeItems_frame _ _ _ _ h1
      | dir es =>
        rw [cleanLoop_frame bk es _ n q h2]
        exact removeItems_frame _ _ _ _ h1
  · exact removeItems_frame _ _ _ _ h1

theorem cleanOldFiles_items (bk : String) (fs : Entry) (n : String) (q : List String)
    (hmem : n ∈ itemsToDelete) (hfs : fs.isDir = true) :
    lookupEntry (cleanOldFiles bk fs) (n :: q) = none := by
  have hnd : n ≠ "dados" := by
    intro hh
    subst hh
    simp [itemsToDelete] at hmem
  simp only [cleanOldFiles]
  split_ifs
  · simp only [cleanDirectoryAsync]
    cases hd : lookupEntry (removeItems itemsToDelete fs) ["dados"] with
    | none => exact removeItems_absent _ _ _ _ hmem hfs
    | some e =>
      cases e with
      | file c => exact removeItems_absent _ _ _ _ hmem hfs
      | dir es =>
        rw [cleanLoop_frame bk es _ n q hnd]
        exact removeItems_absent _ _ _ _ hmem hfs
  · exact removeItems_absent _ _ _ _ hmem hfs

theorem cleanOldFiles_dados (bk : String) (fs : Entry) (ds : List (String × Entry))
    (hfs : fs.isDir = true)
    (hdados : lookupEntry fs ["dados"] = some (Entry.dir ds)) :
    lookupEntry (cleanOldFiles bk fs) ["dados"] = some (Entry.dir []) := by
  have hd1 : lookupEntry (removeItems itemsToDelete fs) ["dados"]
      = some (Entry.dir ds) := by
    rw [removeItems_frame itemsToDelete fs "dados" [] (by decide)]
    exact hdados
  simp only [cleanOldFiles]
  rw [if_pos (by simp [existsPath, hd1])]
  simp only [cleanDirectoryAsync, hd1]
  exact cleanLoop_clears bk ds _ ds (isDir_removeItems _ _ hfs) hd1
    (fun p hp => ⟨p, hp, rfl⟩)

/-- C4: exclusion invariant of the clean step. On any live tree whose
active snapshot directory name is distinct from every protected/live
top-level name (which holds for the timestamped `backup_...` name),
`cleanOldFiles` leaves the snapshot entry — hence its whole subtree —
unchanged, while every artifact of the fixed top-level removal list that
existed before is absent afterwards. -/
theorem C4_clean_exclusion (bk : String) (fs : Entry) (snap : Entry)
    (hfs : fs.isDir = true)
    (hsnap : lookupEntry fs [bk] = some snap)
    (hbk1 : bk ∉ itemsToDelete)
    (hbk2 : bk ≠ "dados") :
    lookupEntry (cleanOldFiles bk fs) [bk] = some snap ∧
    ∀ n ∈ itemsToDelete, lookupEntry (cleanOldFiles bk fs) [n] = none := by
  constructor
  · rw [cleanOldFiles_frame bk fs bk [] hbk1 hbk2]
    exact hsnap
  · intro n hn
    exact cleanOldFiles_items bk fs n [] hn hfs

/-- Witness for C4 at a concrete live tree holding a snapshot, all seven
removal-list artifacts, and user data. -/
theorem C4_clean_exclusion_witness :
    lookupEntry (cleanOldFiles "backup_1" (Entry.dir
      [(".git", Entry.dir []), (".github", Entry.dir []), (".npm", Entry.dir []),
       ("node_modules", Entry.dir [("x", Entry.file "m")]),
       ("package.json", Entry.file "p"), ("package-lock.json", Entry.file "l"),
       ("README.md", Entry.file "r"),
       ("backup_1", Entry.dir [("dados", Entry.file "snap")]),
       ("dados", Entry.dir [("database", Entry.dir [])])]))
      ["backup_1"] = some (Entry.dir [("dados", Entry.file "snap")]) ∧
    ∀ n ∈ itemsToDelete, lookupEntry (cleanOldFiles "backup_1" (Entry.dir
      [(".git", Entry.dir []), (".github", Entry.dir []), (".npm", Entry.dir []),
       ("node_modules", Entry.dir [("x", Entry.file "m")]),
       ("package.json", Entry.file "p"), ("package-lock.json", Entry.file "l"),
       ("README.md", Entry.file "r"),
       ("backup_1", Entry.dir [("dados", Entry.file "snap")]),
       ("dados", Entry.dir [("database", Entry.dir [])])]))
      [n] = none :=
  C4_clean_exclusion "backup_1"
    (Entry.dir
      [(".git", Entry.dir []), (".github", Entry.dir []), (".npm", Entry.dir []),
       ("node_modules", Entry.dir [("x", Entry.file "m")]),
       ("package.json", Entry.file "p"), ("package-lock.json", Entry.file "l"),
       ("README.md", Entry.file "r"),
       ("backup_1", Entry.dir [("dados", Entry.file "snap")]),
       ("dados", Entry.dir [("database", Entry.dir [])])])
    (Entry.dir [("dados", Entry.file "snap")])
    (by rfl) (by rfl) (by decide) (by decide)

/-- C10: the user-data pass of the clean step. The snapshot lives at the
working-directory top level, outside `dados`, so the path-equality
exclusion (`dados/<child> = BACKUP_DIR`) matches no entry; after
`cleanOldFiles` the user-data root, when it existed, is an empty
directory — the three configured user-data subpaths are gone from the
live tree and the snapshot entry is untouched. -/
theorem C10_clean_user_data_pass (bk : String) (fs : Entry)
    (ds : List (String × Entry))
    (hfs : fs.isDir = true)
    (hdados : lookupEntry fs ["dados"] = some (Entry.dir ds))
    (hbk1 : bk ∉ itemsToDelete)
    (hbk2 : bk ≠ "dados") :
    (∀ x : String, ¬ (["dados"] ++ [x] = [bk])) ∧
    lookupEntry (cleanOldFiles bk fs) ["dados"] = some (Entry.dir []) ∧
    lookupEntry (cleanOldFiles bk fs) dadosDatabase = none ∧
    lookupEntry (cleanOldFiles bk fs) dadosSrcConfig = none ∧
    lookupEntry (cleanOldFiles bk fs) dadosMidias = none ∧
    lookupEntry (cleanOldFiles bk fs) [bk] = lookupEntry fs [bk] := by
  have hres := cleanOldFiles_dados bk fs ds hfs hdados
  have hid : (cleanOldFiles bk fs).isDir = true := isDir_of_lookup_cons _ _ _ _ hres
  refine ⟨fun x => by simp, hres, ?_, ?_, ?_, ?_⟩
  · rw [lookup_under _ "dados" ["database"] _ hid hres]
    rfl
  · rw [lookup_under _ "dados" ["src", "config.json"] _ hid hres]
    rfl
  · rw [lookup_under _ "dados" ["midias"] _ hid hres]
    rfl
  · exact cleanOldFiles_frame bk fs bk [] hbk1 hbk2

/-- Witness for C10 at a concrete live tree with populated user data. -/
theorem C10_clean_user_data_pass_witness :
    (∀ x : String, ¬ (["dados"] ++ [x] = ["backup_1"])) ∧
    lookupEntry (cleanOldFiles "backup_1" (Entry.dir
      [("backup_1", Entry.file "s"),
       ("dados", Entry.dir [("database", Entry.dir [("db.json", Entry.file "a")]),
        ("src", Entry.dir [("config.json", Entry.file "b")]),
        ("midias", Entry.dir [])])])) ["dados"] = some (Entry.dir []) ∧
    lookupEntry (cleanOldFiles "backup_1" (Entry.dir
      [("backup_1", Entry.file "s"),
       ("dados", Entry.dir [("database", Entry.dir [("db.json", Entry.file "a")]),
        ("src", Entry.dir [("config.json", Entry.file "b")]),
        ("midias", Entry.dir [])])])) dadosDatabase = none ∧
    lookupEntry (cleanOldFiles "backup_1" (Entry.dir
      [("backup_1", Entry.file "s"),
       ("dados", Entry.dir [("database", Entry.dir [("db.json", Entry.file "a")]),
        ("src", Entry.dir [("config.json", Entry.file "b")]),
        ("midias", Entry.dir [])])])) dadosSrcConfig = none ∧
    lookupEntry (cleanOldFiles "backup_1" (Entry.dir
      [("backup_1", Entry.file "s"),
       ("dados", Entry.dir [("database", Entry.dir [("db.json", Entry.file "a")]),
        ("src", Entry.dir [("config.json", Entry.file "b")]),
        ("midias", Entry.dir [])])])) dadosMidias = none ∧
    lookupEntry (cleanOldFiles "backup_1" (Entry.dir
      [("backup_1", Entry.file "s"),
       ("dados", Entry.dir [("database", Entry.dir [("db.json", Entry.file "a")]),
        ("src", Entry.dir [("config.json", Entry.file "b")]),
        ("midias", Entry.dir [])])])) ["backup_1"] =
      lookupEntry (Entry.dir
      [("backup_1", Entry.file "s"),
       ("dados", Entry.dir [("database", Entry.dir [("db.json", Entry.file "a")]),
        ("src", Entry.dir [("config.json", Entry.file "b")]),
        ("midias", Entry.dir [])])]) ["backup_1"] :=
  C10_clean_user_data_pass "backup_1"
    (Entry.dir
      [("backup_1", Entry.file "s"),
       ("dados", Entry.dir [("database", Entry.dir [("db.json", Entry.file "a")]),
        ("src", Entry.dir [("config.json", Entry.file "b")]),
        ("midias", Entry.dir [])])])
    [("database", Entry.dir [("db.json", Entry.file "a")]),
     ("src", Entry.dir [("config.json", Entry.file "b")]),
     ("midias", Entry.dir [])]
    (by rfl) (by rfl) (by decide) (by decide)

theorem lookup_append (p r : List String) (fs : Entry) :
    lookupEntry fs (p ++ r) =
      match lookupEntry fs p with
      | some e => lookupEntry e r
      | none => none := by
  induction p generalizing fs with
  | nil => simp [lookupEntry]
  | cons n q ih =>
    cases fs with
    | file c => simp [lookupEntry, getChild]
    | dir es =>
      cases hc : childNamed es n with
      | none => simp [lookupEntry, getChild, hc]
      | some e => simp [lookupEntry, getChild, hc, ih]

theorem lookup_single_getChild (E : Entry) (x : String) :
    lookupEntry E [x] = getChild E x := by
  cases E with
  | file c => rfl
  | dir es => rw [lookup_single]; rfl

theorem dirsAlong_single (fs : Entry) (x : String) (hfs : fs.isDir = true) :
    dirsAlong fs [x] = true := by
  cases fs with
  | file c => simp [Entry.isDir] at hfs
  | dir es => cases hc : childNamed es x <;> simp [dirsAlong, hc]

theorem keyMem_false_forall (n : String) (xs : List (String × Entry))
    (h : keyMem n xs = false) : ∀ p ∈ xs, p.1 ≠ n := by
  induction xs with
  | nil => simp
  | cons q rest ih =>
    obtain ⟨m, e⟩ := q
    simp only [keyMem, Bool.or_eq_false_iff, beq_eq_false_iff_ne, ne_eq] at h
    intro p hp
    rcases List.mem_cons.mp hp with h1 | h2
    · subst h1; exact h.1
    · exact ih h.2 p h2

theorem keyMem_false_of_childNamed_none (es : List (String × Entry)) (n : String)
    (h : childNamed es n = none) : keyMem n es = false := by
  induction es with
  | nil => rfl
  | cons q rest ih =>
    obtain ⟨m, e⟩ := q
    by_cases hm : m = n
    · simp [childNamed, hm] at h
    · simp only [childNamed, if_neg hm] at h
      simp [keyMem, hm, ih h]

theorem applyLoop_frame (es : List (String × Entry)) (fs : Entry) (n : String)
    (q : List String) (h : ∀ p ∈ es, p.1 ≠ n) :
    lookupEntry (applyLoop es fs) (n :: q) = lookupEntry fs (n :: q) := by
  induction es generalizing fs with
  | nil => rfl
  | cons p rest ih =>
    obtain ⟨m, e⟩ := p
    have hmn : m ≠ n := h (m, e) (List.mem_cons_self _ _)
    simp only [applyLoop]
    rw [ih _ (fun p hp => h p (List.mem_cons_of_mem _ hp))]
    cases hl : lookupEntry fs (TEMPDIR ++ [m]) with
    | none => rfl
    | some e2 =>
      cases e2 with
      | file c => exact lookupEntry_setEntry_head_ne fs m n [] q _ hmn
      | dir es2 => exact lookupEntry_copyDirectoryAsync_head_ne fs _ m n [] q hmn

theorem isDir_applyLoop (es : List (String × Entry)) (fs : Entry)
    (hfs : fs.isDir = true) : (applyLoop es fs).isDir = true := by
  induction es generalizing fs with
  | nil => exact hfs
  | cons p rest ih =>
    obtain ⟨m, e⟩ := p
    simp only [applyLoop]
    apply ih
    cases hl : lookupEntry fs (TEMPDIR ++ [m]) with
    | none => exact hfs
    | some e2 =>
      cases e2 with
      | file c => exact isDir_setEntry_cons fs m [] _ hfs
      | dir es2 => exact isDir_copyDirectoryAsync fs _ m [] hfs

theorem applyLoop_append (as bs : List (String × Entry)) (fs : Entry) :
    applyLoop (as ++ bs) fs = applyLoop bs (applyLoop as fs) := by
  induction as generalizing fs with
  | nil => rfl
  | cons p rest ih =>
    obtain ⟨m, e⟩ := p
    rw [List.cons_append]
    simp only [applyLoop]
    exact ih _

theorem applyUpdate_frame (fs : Entry) (tops : List (String × Entry)) (n : String)
    (q : List String)
    (htemp : lookupEntry fs TEMPDIR = some (Entry.dir tops))
    (h1 : ∀ p ∈ tops, p.1 ≠ n)
    (h2 : n ≠ "temp_richbess") :
    lookupEntry (applyUpdate fs) (n :: q) = lookupEntry fs (n :: q) := by
  simp only [applyUpdate, htemp]
  split_ifs
  · rw [lookupEntry_removeEntry_head_ne _ "temp_richbess" n [] q (Ne.symm h2)]
    exact applyLoop_frame tops fs n q h1
  · exact applyLoop_frame tops fs n q h1

/-- `applyUpdate` on a post-clean live tree whose staging tree holds a
well-formed directory named `dados`: the live `dados` becomes exactly the
staged `dados` subtree (merged into the empty directory left by clean). -/
theorem applyUpdate_dados_copy (fs : Entry) (tops D : List (String × Entry))
    (hfs : fs.isDir = true)
    (htemp : lookupEntry fs TEMPDIR = some (Entry.dir tops))
    (hwftops : wfList tops = true)
    (hnotemp : ∀ p ∈ tops, p.1 ≠ "temp_richbess")
    (hdados0 : lookupEntry fs ["dados"] = some (Entry.dir []))
    (hD : childNamed tops "dados" = some (Entry.dir D))
    (hwfD : wfList D = true) :
    lookupEntry (applyUpdate fs) ["dados"] = some (Entry.dir D) := by
  obtain ⟨pre, post, hsplit, hkpre⟩ := childNamed_split tops "dados" _ hD
  have hkpost : keyMem "dados" post = false := by
    have hsuf : wfList (("dados", Entry.dir D) :: post) = true := by
      rw [hsplit] at hwftops
      exact wfList_suffix pre _ hwftops
    exact ((wfList_cons _ _ _).mp hsuf).1
  have hpre : ∀ p ∈ pre, p.1 ≠ "dados" := keyMem_false_forall _ _ hkpre
  have hpost : ∀ p ∈ post, p.1 ≠ "dados" := keyMem_false_forall _ _ hkpost
  have hpretemp : ∀ p ∈ pre, p.1 ≠ "temp_richbess" := by
    intro p hp
    exact hnotemp p (by rw [hsplit]; exact List.mem_append_left _ hp)
  have hposttemp : ∀ p ∈ post, p.1 ≠ "temp_richbess" := by
    intro p hp
    exact hnotemp p (by rw [hsplit]; exact List.mem_append_right _ (List.mem_cons_of_mem _ hp))
  simp only [applyUpdate, htemp]
  have hacc1 : lookupEntry (applyLoop pre fs) (TEMPDIR ++ ["dados"]) =
      some (Entry.dir D) := by
    show lookupEntry (applyLoop pre fs) ("temp_richbess" :: ["dados"]) = _
    rw [applyLoop_frame pre fs "temp_richbess" ["dados"] hpretemp]
    rw [lookup_under fs "temp_richbess" ["dados"] _ hfs htemp, lookup_single]
    exact hD
  have hacc2 : lookupEntry (applyLoop pre fs) ["dados"] = some (Entry.dir []) := by
    rw [applyLoop_frame pre fs "dados" [] hpre]
    exact hdados0
  have haccdir : (applyLoop pre fs).isDir = true := isDir_applyLoop pre fs hfs
  have hstep : applyLoop tops fs =
      applyLoop post (copyDirectoryAsync (applyLoop pre fs)
        (TEMPDIR ++ ["dados"]) ["dados"]) := by
    rw [hsplit, applyLoop_append]
    simp only [applyLoop, hacc1]
  have hcopy : lookupEntry (copyDirectoryAsync (applyLoop pre fs)
      (TEMPDIR ++ ["dados"]) ["dados"]) ["dados"] = some (Entry.dir D) := by
    simp only [copyDirectoryAsync, hacc1, hacc2, Option.getD_some,
      copyDirA_dir_empty D hwfD]
    rw [lookupEntry_setEntry_self_nil _ ["dados"] _ (dirsAlong_single _ _ haccdir)]
  have hloop : lookupEntry (applyLoop tops fs) ["dados"] = some (Entry.dir D) := by
    rw [hstep, applyLoop_frame post _ "dados" [] hpost]
    exact hcopy
  split_ifs
  · rw [lookupEntry_removeEntry_head_ne _ "temp_richbess" "dados" [] [] (by decide)]
    exact hloop
  · exact hloop

/-- `applyUpdate` on a post-clean live tree whose staging tree has no
entry named `dados`: the live `dados` stays the empty directory. -/
theorem applyUpdate_dados_none (fs : Entry) (tops : List (String × Entry))
    (htemp : lookupEntry fs TEMPDIR = some (Entry.dir tops))
    (hdados0 : lookupEntry fs ["dados"] = some (Entry.dir []))
    (hD : childNamed tops "dados" = none) :
    lookupEntry (applyUpdate fs) ["dados"] = some (Entry.dir []) := by
  have hforall : ∀ p ∈ tops, p.1 ≠ "dados" :=
    keyMem_false_forall _ _ (keyMem_false_of_childNamed_none tops "dados" hD)
  simp only [applyUpdate, htemp]
  split_ifs
  · rw [lookupEntry_removeEntry_head_ne _ "temp_richbess" "dados" [] [] (by decide)]
    rw [applyLoop_frame tops fs "dados" [] hforall]
    exact hdados0
  · rw [applyLoop_frame tops fs "dados" [] hforall]
    exact hdados0

/-- Not a file (absent or a directory): the shape of a live path at which
the source's `fs.mkdir { recursive: true }` and directory copies are
defined (a file there would raise EEXIST/ENOTDIR, aborting the run). -/
def noFile : Option Entry → Prop
  | some (Entry.file _) => False
  | _ => True

/-- Characterization of `restoreBackup` on any shape-compatible live tree
(such as the one left by clean + apply): the snapshot's configuration
file and every file of the snapshot's database directory are present on
the live tree afterwards, whatever the live tree held at those paths. -/
theorem restoreBackup_restores (bk : String) (fs : Entry)
    (D dbs ms : List (String × Entry)) (cf : String)
    (hfs : fs.isDir = true)
    (hne : bk ≠ "dados")
    (hdados : lookupEntry fs ["dados"] = some (Entry.dir D))
    (hbkdb : lookupEntry fs (bk :: ["dados", "database"]) = some (Entry.dir dbs))
    (hbkcfg : lookupEntry fs (bk :: ["dados", "src", "config.json"]) =
      some (Entry.file cf))
    (hbkmid : lookupEntry fs (bk :: ["dados", "midias"]) = some (Entry.dir ms))
    (hwfdb : wfList dbs = true)
    (hdbShape : noFile (childNamed D "database"))
    (hsrcShape : noFile (childNamed D "src")) :
    lookupEntry (restoreBackup bk fs) ["dados", "src", "config.json"] =
      some (Entry.file cf) ∧
    ∀ x c', childNamed dbs x = some (Entry.file c') →
      lookupEntry (restoreBackup bk fs) ["dados", "database", x] =
        some (Entry.file c') := by
  have hnd : "dados" ≠ bk := Ne.symm hne
  simp only [restoreBackup]
  set g1 := mkdirp fs ["dados", "database"] with hg1def
  set g2 := mkdirp g1 ["dados", "src"] with hg2def
  set g3 := mkdirp g2 ["dados", "midias"] with hg3def
  have hg1dir : g1.isDir = true := isDir_mkdirp_cons _ _ _ hfs
  have hg2dir : g2.isDir = true := isDir_mkdirp_cons _ _ _ hg1dir
  have hg3dir : g3.isDir = true := isDir_mkdirp_cons _ _ _ hg2dir
  have hdb0 : lookupEntry fs ["dados", "database"] = childNamed D "database" := by
    rw [lookup_under fs "dados" ["database"] _ hfs hdados, lookup_single]
  obtain ⟨db1, hdb1⟩ : ∃ db1, lookupEntry g1 ["dados", "database"] =
      some (Entry.dir db1) := by
    rw [hg1def, lookupEntry_mkdirp_self fs ["dados", "database"]
      (by simpa using dirsAlong_append_of_lookup_dir fs ["dados"] "database" D hdados),
      hdb0]
    cases hcn : childNamed D "database" with
    | none => exact ⟨[], rfl⟩
    | some e =>
      cases e with
      | file c => simp [noFile, hcn] at hdbShape
      | dir dd => exact ⟨dd, rfl⟩
  have hdados_g1 : ∃ E, lookupEntry g1 ["dados"] = some E ∧ E.isDir = true := by
    refine ⟨mkdirp (Entry.dir D) ["database"], ?_, ?_⟩
    · rw [hg1def]
      exact mkdirp_lookup_head fs "dados" ["database"] _ hfs hdados
    · exact isDir_mkdirp_cons _ _ _ rfl
  have hsrc_g1 : lookupEntry g1 ["dados", "src"] = childNamed D "src" := by
    rw [hg1def, mkdirp_dados_diverge fs "database" "src" [] [] (by decide),
      lookup_under fs "dados" ["src"] _ hfs hdados, lookup_single]
  obtain ⟨s2, hs2⟩ : ∃ s2, lookupEntry g2 ["dados", "src"] = some (Entry.dir s2) := by
    obtain ⟨E, hE, hEd⟩ := hdados_g1
    obtain ⟨es1, rfl⟩ : ∃ es1, E = Entry.dir es1 := by
      cases E with
      | file c => simp [Entry.isDir] at hEd
      | dir es1 => exact ⟨es1, rfl⟩
    rw [hg2def, lookupEntry_mkdirp_self g1 ["dados", "src"]
      (by simpa using dirsAlong_append_of_lookup_dir g1 ["dados"] "src" es1 hE),
      hsrc_g1]
    cases hcn : childNamed D "src" with
    | none => exact ⟨[], rfl⟩
    | some e =>
      cases e with
      | file c => simp [noFile, hcn] at hsrcShape
      | dir dd => exact ⟨dd, rfl⟩
  have hdb_g2 : lookupEntry g2 ["dados", "database"] = some (Entry.dir db1) := by
    rw [hg2def, mkdirp_dados_diverge g1 "src" "database" [] [] (by decide)]
    exact hdb1
  have hdados_g2 : ∃ E, lookupEntry g2 ["dados"] = some E ∧ E.isDir = true := by
    obtain ⟨E, hE, hEd⟩ := hdados_g1
    refine ⟨mkdirp E ["src"], ?_, ?_⟩
    · rw [hg2def]
      exact mkdirp_lookup_head g1 "dados" ["src"] E hg1dir hE
    · exact isDir_mkdirp_cons _ _ _ hEd
  have hdb_g3 : lookupEntry g3 ["dados", "database"] = some (Entry.dir db1) := by
    rw [hg3def, mkdirp_dados_diverge g2 "midias" "database" [] [] (by decide)]
    exact hdb_g2
  have hsrc_g3 : lookupEntry g3 ["dados", "src"] = some (Entry.dir s2) := by
    rw [hg3def, mkdirp_dados_diverge g2 "midias" "src" [] [] (by decide)]
    exact hs2
  have hdados_g3 : ∃ E, lookupEntry g3 ["dados"] = some E ∧ E.isDir = true := by
    obtain ⟨E, hE, hEd⟩ := hdados_g2
    refine ⟨mkdirp E ["midias"], ?_, ?_⟩
    · rw [hg3def]
      exact mkdirp_lookup_head g2 "dados" ["midias"] E hg2dir hE
    · exact isDir_mkdirp_cons _ _ _ hEd
  have hbk_g3 : ∀ r, lookupEntry g3 (bk :: r) = lookupEntry fs (bk :: r) := by
    intro r
    rw [hg3def, lookupEntry_mkdirp_head_ne _ "dados" bk _ r hnd,
        hg2def, lookupEntry_mkdirp_head_ne _ "dados" bk _ r hnd,
        hg1def, lookupEntry_mkdirp_head_ne _ "dados" bk _ r hnd]
  set c1 := if existsPath g3 [bk, "dados", "database"] = true then
      copyDirectoryAsync g3 [bk, "dados", "database"] ["dados", "database"] else g3
    with hc1def
  have hlook1 : lookupEntry g3 [bk, "dados", "database"] = some (Entry.dir dbs) :=
    (hbk_g3 ["dados", "database"]).trans hbkdb
  have hc1eq : c1 = setEntry g3 ["dados", "database"] (copyFiles dbs (Entry.dir db1)) := by
    rw [hc1def, if_pos (by simp [existsPath, hlook1])]
    simp only [copyDirectoryAsync, hlook1, hdb_g3, Option.getD_some, copyDirA]
  have hc1dir : c1.isDir = true := by
    rw [hc1eq]
    exact isDir_setEntry_cons _ _ _ _ hg3dir
  have hdbc1 : lookupEntry c1 ["dados", "database"] =
      some (copyFiles dbs (Entry.dir db1)) := by
    obtain ⟨E, hE, hEd⟩ := hdados_g3
    obtain ⟨es3, rfl⟩ : ∃ es3, E = Entry.dir es3 := by
      cases E with
      | file c => simp [Entry.isDir] at hEd
      | dir es3 => exact ⟨es3, rfl⟩
    rw [hc1eq]
    exact lookupEntry_setEntry_self_nil g3 ["dados", "database"] _
      (by simpa using dirsAlong_append_of_lookup_dir g3 ["dados"] "database" es3 hE)
  have hsrcc1 : lookupEntry c1 ["dados", "src"] = some (Entry.dir s2) := by
    rw [hc1eq, set_dados_diverge g3 "database" "src" [] [] _ (by decide)]
    exact hsrc_g3
  have hdados_c1 : ∃ E, lookupEntry c1 ["dados"] = some E ∧ E.isDir = true := by
    obtain ⟨E, hE, hEd⟩ := hdados_g3
    refine ⟨setEntry E ["database"] (copyFiles dbs (Entry.dir db1)), ?_, ?_⟩
    · rw [hc1eq]
      exact setEntry_lookup_head g3 "dados" ["database"] _ E hg3dir hE
    · exact isDir_setEntry_cons _ _ _ _ hEd
  have hbk_c1 : ∀ r, lookupEntry c1 (bk :: r) = lookupEntry fs (bk :: r) := by
    intro r
    rw [hc1eq, lookupEntry_setEntry_head_ne g3 "dados" bk _ r _ hnd]
    exact hbk_g3 r
  set c2 := if existsPath c1 [bk, "dados", "src", "config.json"] = true then
      copyFile c1 [bk, "dados", "src", "config.json"] ["dados", "src", "config.json"]
    else c1 with hc2def
  have hlook2 : lookupEntry c1 [bk, "dados", "src", "config.json"] =
      some (Entry.file cf) := (hbk_c1 ["dados", "src", "config.json"]).trans hbkcfg
  have hc2eq : c2 = setEntry c1 ["dados", "src", "config.json"] (Entry.file cf) := by
    rw [hc2def, if_pos (by simp [existsPath, hlook2])]
    simp only [copyFile, hlook2]
  have hcfgc2 : lookupEntry c2 ["dados", "src", "config.json"] =
      some (Entry.file cf) := by
    rw [hc2eq]
    have hda :=
      dirsAlong_append_of_lookup_dir c1 ["dados", "src"] "config.json" s2 hsrcc1
    exact lookupEntry_setEntry_self_nil c1 ["dados", "src", "config.json"] _
      (by simpa using hda)
  have hdbc2 : lookupEntry c2 ["dados", "database"] =
      some (copyFiles dbs (Entry.dir db1)) := by
    rw [hc2eq, set_dados_diverge c1 "src" "database" ["config.json"] [] _ (by decide)]
    exact hdbc1
  have hbk_c2 : ∀ r, lookupEntry c2 (bk :: r) = lookupEntry fs (bk :: r) := by
    intro r
    rw [hc2eq, lookupEntry_setEntry_head_ne c1 "dados" bk _ r _ hnd]
    exact hbk_c1 r
  set c3 := if existsPath c2 [bk, "dados", "midias"] = true then
      copyDirectoryAsync c2 [bk, "dados", "midias"] ["dados", "midias"] else c2
    with hc3def
  have hlook3 : lookupEntry c2 [bk, "dados", "midias"] = some (Entry.dir ms) :=
    (hbk_c2 ["dados", "midias"]).trans hbkmid
  have hc3eq : c3 = setEntry c2 ["dados", "midias"] (copyDirA (Entry.dir ms)
      ((lookupEntry c2 ["dados", "midias"]).getD (Entry.dir []))) := by
    rw [hc3def, if_pos (by simp [existsPath, hlook3])]
    simp only [copyDirectoryAsync, hlook3]
  constructor
  · rw [hc3eq, set_dados_diverge c2 "midias" "src" [] ["config.json"] _ (by decide)]
    exact hcfgc2
  · intro x c' hx
    rw [hc3eq, set_dados_diverge c2 "midias" "database" [] [x] _ (by decide)]
    have happ := lookup_append ["dados", "database"] [x] c2
    simp only [List.cons_append, List.nil_append] at happ
    rw [happ]
    simp only [hdbc2]
    rw [lookup_single_getChild]
    exact getChild_copyFiles_file dbs (Entry.dir db1) x c' hwfdb hx rfl

/-- Absent or a file: the shape of a destination slot at which the
source's `fs.copyFile` write is defined (an existing directory there
makes it raise EISDIR). -/
def noDir : Option Entry → Prop
  | some (Entry.dir _) => False
  | _ => True

/-- The directory listing of an optional slot (empty when absent): the
listing `fs.mkdir { recursive: true }` leaves at a path whose prior
entry is this slot. -/
def slotDir : Option Entry → List (String × Entry)
  | some (Entry.dir d) => d
  | _ => []

/-- Fallible model of `fs.mkdir(path, { recursive: true })`: create
missing directories along the path; an existing file anywhere along it
— final component included — makes the call raise (ENOTDIR/EEXIST),
modeled as `none`. Refines `mkdirp`, which collapses those raises into
no-ops. -/
def mkdirpE : Entry → List String → Option Entry
  | Entry.dir es, [] => some (Entry.dir es)
  | Entry.file _, [] => none
  | Entry.file _, _ :: _ => none
  | Entry.dir es, n :: p =>
    match mkdirpE ((childNamed es n).getD (Entry.dir [])) p with
    | some c2 => some (Entry.dir (setAssoc es n c2))
    | none => none

/-- Fallible model of writing file contents at a destination path (the
write half of `fs.copyFile`): the parent directories must already exist
(ENOENT otherwise — `fs.copyFile` creates no directories), every entry
along the path must be a directory (ENOTDIR), and the destination slot
must not be an existing directory (EISDIR). -/
def writeFileE : Entry → List String → String → Option Entry
  | _, [], _ => none
  | Entry.file _, _ :: _, _ => none
  | Entry.dir es, n :: p, c =>
    match p with
    | [] =>
      match childNamed es n with
      | some (Entry.dir _) => none
      | _ => some (Entry.dir (setAssoc es n (Entry.file c)))
    | _ :: _ =>
      match childNamed es n with
      | some e =>
        match writeFileE e p c with
        | some e2 => some (Entry.dir (setAssoc es n e2))
        | none => none
      | none => none

/-- Fallible model of `fs.copyFile(source, destination)` (lines 177,
319, 360 and the guarded copies of `createBackup`/`restoreBackup`): the
source must exist and be a file (ENOENT/EISDIR on read), and the write
obeys `writeFileE`. Refines `copyFile`, which collapses the raises into
overwrites or no-ops. -/
def copyFileE (fs : Entry) (source destination : List String) : Option Entry :=
  match lookupEntry fs source with
  | some (Entry.file c) => writeFileE fs destination c
  | _ => none

mutual

/-- Success condition of copying a source entry onto a destination slot
with `copyDirectoryAsync`/`fs.copyFile` semantics: a source file cannot
land on an existing directory (EISDIR, line 177), a source directory
cannot land on an existing file (`fs.mkdir` EEXIST, line 162), and a
directory-onto-directory merge needs every source child compatible with
the like-named destination child. An absent slot is always copyable. -/
def copyOkE : Entry → Option Entry → Bool
  | Entry.file _, some (Entry.dir _) => false
  | Entry.dir _, some (Entry.file _) => false
  | Entry.dir es, some (Entry.dir ds) => entriesOkE es ds
  | _, _ => true

/-- Pointwise `copyOkE` of a source listing against a destination
listing (sequential copies of distinctly named entries each meet the
destination child present at loop entry). -/
def entriesOkE : List (String × Entry) → List (String × Entry) → Bool
  | [], _ => true
  | (n, e) :: rest, ds => copyOkE e (childNamed ds n) && entriesOkE rest ds

end

mutual

/-- Fallible copy of one source entry (read once up front, as source and
destination are disjoint at every call site) to a destination path: the
body of the `for (const file of files)` loop of `copyDirectoryAsync`
(lines 171-178) — recurse on directories after
`fs.mkdir { recursive: true }` (line 162), `fs.copyFile` on files
(line 177, EISDIR onto an existing directory). Refines `copyDirA`. -/
def copyEntryE : Entry → Entry → List String → Option Entry
  | Entry.file c, fs, dst => writeFileE fs dst c
  | Entry.dir des, fs, dst =>
    match mkdirpE fs dst with
    | some fs1 => copyEntriesE des fs1 dst
    | none => none

/-- Fallible copy of a source listing into a destination path, entry by
entry, aborting at the first raise (the loop of lines 171-178). Refines
`copyFiles`. -/
def copyEntriesE : List (String × Entry) → Entry → List String → Option Entry
  | [], fs, _ => some fs
  | (n, e) :: rest, fs, dst =>
    match copyEntryE e fs (dst ++ [n]) with
    | some fs2 => copyEntriesE rest fs2 dst
    | none => none

end

/-- Fallible `copyDirectoryAsync(source, destination)` (lines 161-180):
`fs.mkdir` the destination (recursive, EEXIST on a file there),
`readdir` the source (an absent or file source raises), then copy each
entry. Refines `copyDirectoryAsync`, which silently overwrites where
the source raises EISDIR/EEXIST. -/
def copyDirectoryAsyncE (fs : Entry) (source destination : List String) :
    Option Entry :=
  match mkdirpE fs destination with
  | some fs1 =>
    match lookupEntry fs1 source with
    | some (Entry.dir es) => copyEntriesE es fs1 destination
    | _ => none
  | none => none

/-- Fallible `for (const file of tempFiles)` loop of `applyUpdate`
(lines 309-326): per staged name, recursive directory copy or
`fs.copyFile` (line 319, EISDIR onto an existing live directory of the
same name) to the top level; a failed `fs.stat` (vanished entry)
raises. Refines `applyLoop`. -/
def applyLoopE : List (String × Entry) → Entry → Option Entry
  | [], fs => some fs
  | (n, _) :: rest, fs =>
    match lookupEntry fs (TEMPDIR ++ [n]) with
    | some (Entry.dir _) =>
      match copyDirectoryAsyncE fs (TEMPDIR ++ [n]) [n] with
      | some fs2 => applyLoopE rest fs2
      | none => none
    | some (Entry.file _) =>
      match copyFileE fs (TEMPDIR ++ [n]) [n] with
      | some fs2 => applyLoopE rest fs2
      | none => none
    | none => none

/-- Fallible `applyUpdate` (lines 302-341): list the staging directory
(raising when absent), copy each staged entry into the live tree, then
remove the staging directory. Refines `applyUpdate`. -/
def applyUpdateE (fs : Entry) : Option Entry :=
  match lookupEntry fs TEMPDIR with
  | some (Entry.dir es) =>
    match applyLoopE es fs with
    | some fs1 =>
      some (if existsPath fs1 TEMPDIR then removeEntry fs1 TEMPDIR else fs1)
    | none => none
  | _ => none

/-- Fallible `restoreBackup` (lines 343-374): recreate the three live
directories with `fs.mkdir { recursive: true }` (EEXIST when the
replacement staged a file there), then copy each configured path back
from the snapshot if present — the `fs.copyFile` at line 360 raises
EISDIR when the replacement staged a directory at
`dados/src/config.json`, and the directory copies raise inside on
conflicting staged shapes (line 177). Refines `restoreBackup`. -/
def restoreBackupE (bk : String) (fs : Entry) : Option Entry :=
  match mkdirpE fs ["dados", "database"] with
  | some fs1 =>
    match mkdirpE fs1 ["dados", "src"] with
    | some fs2 =>
      match mkdirpE fs2 ["dados", "midias"] with
      | some fs3 =>
        match (if existsPath fs3 [bk, "dados", "database"] then
            copyDirectoryAsyncE fs3 [bk, "dados", "database"] dadosDatabase
          else some fs3) with
        | some fs4 =>
          match (if existsPath fs4 [bk, "dados", "src", "config.json"] then
              copyFileE fs4 [bk, "dados", "src", "config.json"] dadosSrcConfig
            else some fs4) with
          | some fs5 =>
            if existsPath fs5 [bk, "dados", "midias"] then
              copyDirectoryAsyncE fs5 [bk, "dados", "midias"] dadosMidias
            else some fs5
          | none => none
        | none => none
      | none => none
    | none => none
  | none => none

theorem setEntry_nil (fs v : Entry) : setEntry fs [] v = v := by
  cases fs <;> rfl

theorem mkdirp_nil (fs : Entry) : mkdirp fs [] = fs := by
  cases fs <;> rfl

theorem keyMem_of_mem (es : List (String × Entry)) (n : String) (e : Entry)
    (h : (n, e) ∈ es) : keyMem n es = true := by
  induction es with
  | nil => simp at h
  | cons p rest ih =>
    obtain ⟨m, v⟩ := p
    rcases List.mem_cons.mp h with h1 | h2
    · injection h1 with hn hv
      subst hn
      simp [keyMem]
    · simp [keyMem, ih h2]

theorem childNamed_of_mem_wf (es : List (String × Entry)) (n : String) (e : Entry)
    (hwf : wfList es = true) (h : (n, e) ∈ es) : childNamed es n = some e := by
  induction es with
  | nil => simp at h
  | cons p rest ih =>
    obtain ⟨m, v⟩ := p
    rw [wfList_cons] at hwf
    rcases List.mem_cons.mp h with h1 | h2
    · injection h1 with hn hv
      subst hn
      subst hv
      simp [childNamed]
    · have hne : m ≠ n := by
        intro hmn
        subst hmn
        have hk := keyMem_of_mem rest m e h2
        rw [hwf.1] at hk
        exact Bool.false_ne_true hk
      simp [childNamed, hne, ih hwf.2.2 h2]

theorem wfEntry_of_mem (es : List (String × Entry)) (n : String) (e : Entry)
    (hwf : wfList es = true) (h : (n, e) ∈ es) : wfEntry e = true := by
  induction es with
  | nil => simp at h
  | cons p rest ih =>
    obtain ⟨m, v⟩ := p
    rw [wfList_cons] at hwf
    rcases List.mem_cons.mp h with h1 | h2
    · injection h1 with hn hv
      subst hv
      exact hwf.2.1
    · exact ih hwf.2.2 h2

theorem setAssoc_setAssoc (es : List (String × Entry)) (n : String) (v w : Entry) :
    setAssoc (setAssoc es n v) n w = setAssoc es n w := by
  induction es with
  | nil => simp [setAssoc]
  | cons p rest ih =>
    obtain ⟨m, e⟩ := p
    by_cases h : m = n
    · simp [setAssoc, h]
    · simp [setAssoc, h, ih]

theorem setAssoc_id (es : List (String × Entry)) (n : String) (v : Entry)
    (h : childNamed es n = some v) : setAssoc es n v = es := by
  induction es with
  | nil => simp [childNamed] at h
  | cons p rest ih =>
    obtain ⟨m, e⟩ := p
    by_cases hm : m = n
    · subst hm
      simp [childNamed] at h
      simp [setAssoc, h]
    · simp only [childNamed, if_neg hm] at h
      simp [setAssoc, hm, ih h]

theorem setEntry_lookup_id (fs : Entry) (q : List String) (e : Entry)
    (h : lookupEntry fs q = some e) : setEntry fs q e = fs := by
  induction q generalizing fs with
  | nil =>
    have h2 : fs = e := Option.some.inj h
    subst h2
    exact setEntry_nil fs fs
  | cons n q ih =>
    cases fs with
    | file c => rfl
    | dir es =>
      simp only [lookupEntry, getChild] at h
      cases hc : childNamed es n with
      | none => rw [hc] at h; simp at h
      | some c =>
        rw [hc] at h
        simp only [setEntry, hc, Option.getD_some]
        rw [ih c h, setAssoc_id es n c hc]

theorem setEntry_setEntry (fs : Entry) (p : List String) (v w : Entry) :
    setEntry (setEntry fs p v) p w = setEntry fs p w := by
  induction p generalizing fs with
  | nil => simp [setEntry_nil]
  | cons n p ih =>
    cases fs with
    | file c => rfl
    | dir es =>
      simp only [setEntry, childNamed_setAssoc_self, Option.getD_some]
      rw [ih, setAssoc_setAssoc]

theorem setEntry_mkdirp_same (fs : Entry) (p : List String) (w : Entry) :
    setEntry (mkdirp fs p) p w = setEntry fs p w := by
  induction p generalizing fs with
  | nil => simp [mkdirp_nil]
  | cons n p ih =>
    cases fs with
    | file c => rfl
    | dir es =>
      simp only [mkdirp, setEntry, childNamed_setAssoc_self, Option.getD_some]
      rw [ih, setAssoc_setAssoc]

theorem setEntry_append_last (fs : Entry) (q : List String) (n : String)
    (ds : List (String × Entry)) (v : Entry)
    (h : lookupEntry fs q = some (Entry.dir ds)) :
    setEntry fs (q ++ [n]) v = setEntry fs q (Entry.dir (setAssoc ds n v)) := by
  induction q generalizing fs with
  | nil =>
    have h2 : fs = Entry.dir ds := Option.some.inj h
    subst h2
    simp [setEntry, setEntry_nil]
  | cons m q ih =>
    cases fs with
    | file c => simp [lookupEntry, getChild] at h
    | dir es =>
      simp only [lookupEntry, getChild] at h
      cases hc : childNamed es m with
      | none => rw [hc] at h; simp at h
      | some e =>
        rw [hc] at h
        simp only [List.cons_append, setEntry, hc, Option.getD_some]
        exact congrArg (fun z => Entry.dir (setAssoc es m z)) (ih e h)

theorem mkdirp_append_last (fs : Entry) (q : List String) (n : String)
    (ds : List (String × Entry))
    (h : lookupEntry fs q = some (Entry.dir ds))
    (hslot : noFile (childNamed ds n)) :
    mkdirp fs (q ++ [n]) =
      setEntry fs (q ++ [n]) (Entry.dir (slotDir (childNamed ds n))) := by
  induction q generalizing fs with
  | nil =>
    have h2 : fs = Entry.dir ds := Option.some.inj h
    subst h2
    cases hc : childNamed ds n with
    | none => simp [mkdirp, setEntry, slotDir, hc]
    | some e =>
      cases e with
      | file c => rw [hc] at hslot; simp [noFile] at hslot
      | dir dd => simp [mkdirp, setEntry, slotDir, hc]
  | cons m q ih =>
    cases fs with
    | file c => simp [lookupEntry, getChild] at h
    | dir es =>
      simp only [lookupEntry, getChild] at h
      cases hc : childNamed es m with
      | none => rw [hc] at h; simp at h
      | some e =>
        rw [hc] at h
        simp only [List.cons_append, mkdirp, setEntry, hc, Option.getD_some]
        exact congrArg (fun z => Entry.dir (setAssoc es m z)) (ih e h)

theorem lookup_setEntry_parent (fs : Entry) (q : List String) (n : String)
    (ds : List (String × Entry)) (v : Entry)
    (h : lookupEntry fs q = some (Entry.dir ds)) :
    lookupEntry (setEntry fs (q ++ [n]) v) q =
      some (Entry.dir (setAssoc ds n v)) := by
  rw [setEntry_append_last fs q n ds v h]
  exact lookupEntry_setEntry_self_nil fs q _ (dirsAlong_of_lookup fs q _ h)

theorem lookup_append_slot (fs : Entry) (q : List String) (n : String)
    (ds : List (String × Entry)) (h : lookupEntry fs q = some (Entry.dir ds)) :
    lookupEntry fs (q ++ [n]) = childNamed ds n := by
  rw [lookup_append q [n] fs, h]
  exact lookup_single ds n

theorem copyOkE_none (e : Entry) : copyOkE e none = true := by
  cases e <;> rfl

theorem entriesOkE_nil_dest (es : List (String × Entry)) : entriesOkE es [] = true := by
  induction es with
  | nil => rfl
  | cons p rest ih =>
    obtain ⟨n, e⟩ := p
    simp [entriesOkE, childNamed, copyOkE_none, ih]

theorem entriesOkE_setAssoc_ne (rest ds : List (String × Entry)) (n : String)
    (v : Entry) (hk : keyMem n rest = false) :
    entriesOkE rest (setAssoc ds n v) = entriesOkE rest ds := by
  induction rest with
  | nil => rfl
  | cons p r2 ih =>
    obtain ⟨m, e⟩ := p
    simp only [keyMem, Bool.or_eq_false_iff, beq_eq_false_iff_ne, ne_eq] at hk
    have hne : n ≠ m := fun hh => hk.1 hh.symm
    simp only [entriesOkE]
    rw [childNamed_setAssoc_ne ds n m v hne, ih hk.2]

theorem copyOk_file_noDir (c : String) (o : Option Entry)
    (h : copyOkE (Entry.file c) o = true) : noDir o := by
  cases o with
  | none => trivial
  | some e =>
    cases e with
    | file c2 => trivial
    | dir ds => simp [copyOkE] at h

theorem copyOk_dir_noFile (es : List (String × Entry)) (o : Option Entry)
    (h : copyOkE (Entry.dir es) o = true) : noFile o := by
  cases o with
  | none => trivial
  | some e =>
    cases e with
    | file c => simp [copyOkE] at h
    | dir ds => trivial

theorem copyOk_dir_entries (es ds : List (String × Entry))
    (h : copyOkE (Entry.dir es) (some (Entry.dir ds)) = true) :
    entriesOkE es ds = true := by
  simpa [copyOkE] using h

theorem mkdirpE_append_agree (fs : Entry) (q : List String) (n : String)
    (ds : List (String × Entry))
    (h : lookupEntry fs q = some (Entry.dir ds))
    (hslot : noFile (childNamed ds n)) :
    mkdirpE fs (q ++ [n]) = some (mkdirp fs (q ++ [n])) := by
  induction q generalizing fs with
  | nil =>
    have h2 : fs = Entry.dir ds := Option.some.inj h
    subst h2
    cases hc : childNamed ds n with
    | none => simp [mkdirpE, mkdirp, mkdirp_nil, hc]
    | some e =>
      cases e with
      | file c => rw [hc] at hslot; simp [noFile] at hslot
      | dir dd => simp [mkdirpE, mkdirp, mkdirp_nil, hc]
  | cons m q ih =>
    cases fs with
    | file c => simp [lookupEntry, getChild] at h
    | dir es =>
      simp only [lookupEntry, getChild] at h
      cases hc : childNamed es m with
      | none => rw [hc] at h; simp at h
      | some e =>
        rw [hc] at h
        simp only [List.cons_append, mkdirpE, mkdirp, hc, Option.getD_some,
          List.append_eq]
        rw [ih e h]

theorem writeFileE_append_agree (fs : Entry) (q : List String) (n : String)
    (ds : List (String × Entry)) (c : String)
    (h : lookupEntry fs q = some (Entry.dir ds))
    (hslot : noDir (childNamed ds n)) :
    writeFileE fs (q ++ [n]) c = some (setEntry fs (q ++ [n]) (Entry.file c)) := by
  induction q generalizing fs with
  | nil =>
    have h2 : fs = Entry.dir ds := Option.some.inj h
    subst h2
    cases hc : childNamed ds n with
    | none => simp [writeFileE, setEntry, setEntry_nil, hc]
    | some e =>
      cases e with
      | file c2 => simp [writeFileE, setEntry, setEntry_nil, hc]
      | dir dd => rw [hc] at hslot; simp [noDir] at hslot
  | cons m q ih =>
    cases fs with
    | file c2 => simp [lookupEntry, getChild] at h
    | dir es =>
      simp only [lookupEntry, getChild] at h
      cases hc : childNamed es m with
      | none => rw [hc] at h; simp at h
      | some e =>
        rw [hc] at h
        have ihe := ih e h
        cases q with
        | nil =>
          simp only [List.nil_append] at ihe
          simp only [List.cons_append, List.nil_append, writeFileE, setEntry, hc,
            Option.getD_some, List.append_eq]
          rw [ihe]
        | cons a q2 =>
          simp only [List.cons_append] at ihe
          simp only [List.cons_append, writeFileE, setEntry, hc, Option.getD_some,
            List.append_eq]
          rw [ihe]

/-- Agreement of the fallible copy loop with the total model on its
success domain: copying a well-formed source listing into an existing
destination directory whose children are shape-compatible (`entriesOkE`)
raises nothing and leaves exactly the total model's merge. -/
theorem copyEntriesE_agree : ∀ (es : List (String × Entry)) (fs : Entry)
    (q : List String) (ds : List (String × Entry)),
    wfList es = true →
    lookupEntry fs q = some (Entry.dir ds) →
    entriesOkE es ds = true →
    copyEntriesE es fs q = some (setEntry fs q (copyFiles es (Entry.dir ds)))
  | [], fs, q, ds, _, h, _ => by
    simp only [copyEntriesE, copyFiles]
    rw [setEntry_lookup_id fs q (Entry.dir ds) h]
  | (n, Entry.file c) :: rest, fs, q, ds, hwf, h, hok => by
    rw [wfList_cons] at hwf
    simp only [entriesOkE, Bool.and_eq_true] at hok
    have hw := writeFileE_append_agree fs q n ds c h (copyOk_file_noDir c _ hok.1)
    have hq2 := lookup_setEntry_parent fs q n ds (Entry.file c) h
    have hok2 : entriesOkE rest (setAssoc ds n (Entry.file c)) = true := by
      rw [entriesOkE_setAssoc_ne rest ds n (Entry.file c) hwf.1]
      exact hok.2
    have hrec := copyEntriesE_agree rest (setEntry fs (q ++ [n]) (Entry.file c)) q
      (setAssoc ds n (Entry.file c)) hwf.2.2 hq2 hok2
    simp only [copyEntriesE, copyEntryE, hw, hrec, copyFiles, setChild]
    rw [setEntry_append_last fs q n ds (Entry.file c) h, setEntry_setEntry]
  | (n, Entry.dir des) :: rest, fs, q, ds, hwf, h, hok => by
    rw [wfList_cons] at hwf
    simp only [entriesOkE, Bool.and_eq_true] at hok
    have hnf : noFile (childNamed ds n) := copyOk_dir_noFile des _ hok.1
    have hmkE := mkdirpE_append_agree fs q n ds h hnf
    have hmk := mkdirp_append_last fs q n ds h hnf
    have hq1 : lookupEntry (mkdirp fs (q ++ [n])) (q ++ [n]) =
        some (Entry.dir (slotDir (childNamed ds n))) := by
      rw [hmk]
      exact lookupEntry_setEntry_self_nil fs (q ++ [n]) _
        (dirsAlong_append_of_lookup_dir fs q n ds h)
    have hokInner : entriesOkE des (slotDir (childNamed ds n)) = true := by
      cases hc : childNamed ds n with
      | none => exact entriesOkE_nil_dest des
      | some e =>
        cases e with
        | file c2 => rw [hc] at hnf; simp [noFile] at hnf
        | dir dd =>
          rw [hc] at hok
          exact copyOk_dir_entries des dd hok.1
    have hwdes : wfList des = true := by
      have hh := hwf.2.1
      simpa [wfEntry] using hh
    have hrecI := copyEntriesE_agree des (mkdirp fs (q ++ [n])) (q ++ [n])
      (slotDir (childNamed ds n)) hwdes hq1 hokInner
    have hinner : copyEntryE (Entry.dir des) fs (q ++ [n]) =
        some (setEntry fs (q ++ [n])
          (copyFiles des (Entry.dir (slotDir (childNamed ds n))))) := by
      simp only [copyEntryE, hmkE, hrecI]
      rw [setEntry_mkdirp_same]
    have hq2 := lookup_setEntry_parent fs q n ds
      (copyFiles des (Entry.dir (slotDir (childNamed ds n)))) h
    have hok2 : entriesOkE rest (setAssoc ds n
        (copyFiles des (Entry.dir (slotDir (childNamed ds n))))) = true := by
      rw [entriesOkE_setAssoc_ne rest ds n _ hwf.1]
      exact hok.2
    have hrec := copyEntriesE_agree rest
      (setEntry fs (q ++ [n]) (copyFiles des (Entry.dir (slotDir (childNamed ds n)))))
      q (setAssoc ds n (copyFiles des (Entry.dir (slotDir (childNamed ds n)))))
      hwf.2.2 hq2 hok2
    simp only [copyEntriesE, hinner, hrec, copyFiles, setChild, getChild]
    rw [setEntry_append_last fs q n ds _ h, setEntry_setEntry]
    cases hc : childNamed ds n with
    | none => simp [slotDir, copyDirA, hc]
    | some e =>
      cases e with
      | file c2 => rw [hc] at hnf; simp [noFile] at hnf
      | dir dd => simp [slotDir, copyDirA, hc]
termination_by es _ _ _ _ _ _ => sizeOf es

theorem copyFileE_agree (fs : Entry) (src : List String) (q : List String) (n : String)
    (ds : List (String × Entry)) (c : String)
    (hsrc : lookupEntry fs src = some (Entry.file c))
    (hq : lookupEntry fs q = some (Entry.dir ds))
    (hslot : noDir (childNamed ds n)) :
    copyFileE fs src (q ++ [n]) = some (copyFile fs src (q ++ [n])) := by
  simp only [copyFileE, copyFile, hsrc]
  exact writeFileE_append_agree fs q n ds c hq hslot

/-- Agreement of the fallible directory copy with the total model on its
success domain: an existing well-formed directory source (still there
after the destination `mkdir`, as source and destination are disjoint
at every call site) copied onto a shape-compatible destination slot
raises nothing and equals the total model's merge. -/
theorem copyDirectoryAsyncE_agree (fs : Entry) (src : List String) (q : List String)
    (n : String) (es ds : List (String × Entry))
    (hsrc : lookupEntry fs src = some (Entry.dir es))
    (hsrc1 : lookupEntry (mkdirp fs (q ++ [n])) src = some (Entry.dir es))
    (hwf : wfList es = true)
    (hq : lookupEntry fs q = some (Entry.dir ds))
    (hok : copyOkE (Entry.dir es) (childNamed ds n) = true) :
    copyDirectoryAsyncE fs src (q ++ [n]) =
      some (copyDirectoryAsync fs src (q ++ [n])) := by
  have hnf : noFile (childNamed ds n) := copyOk_dir_noFile es _ hok
  have hmkE := mkdirpE_append_agree fs q n ds hq hnf
  have hq1 : lookupEntry (mkdirp fs (q ++ [n])) (q ++ [n]) =
      some (Entry.dir (slotDir (childNamed ds n))) := by
    rw [mkdirp_append_last fs q n ds hq hnf]
    exact lookupEntry_setEntry_self_nil fs (q ++ [n]) _
      (dirsAlong_append_of_lookup_dir fs q n ds hq)
  have hokInner : entriesOkE es (slotDir (childNamed ds n)) = true := by
    cases hc : childNamed ds n with
    | none => exact entriesOkE_nil_dest es
    | some e =>
      cases e with
      | file c2 => rw [hc] at hnf; simp [noFile] at hnf
      | dir dd =>
        rw [hc] at hok
        exact copyOk_dir_entries es dd hok
  have hrec := copyEntriesE_agree es (mkdirp fs (q ++ [n])) (q ++ [n])
    (slotDir (childNamed ds n)) hwf hq1 hokInner
  have hdst : lookupEntry fs (q ++ [n]) = childNamed ds n :=
    lookup_append_slot fs q n ds hq
  simp only [copyDirectoryAsyncE, copyDirectoryAsync, hmkE, hsrc1, hsrc, hrec, hdst]
  rw [setEntry_mkdirp_same]
  cases hc : childNamed ds n with
  | none => simp [slotDir, copyDirA, hc]
  | some e =>
    cases e with
    | file c2 => rw [hc] at hnf; simp [noFile] at hnf
    | dir dd => simp [slotDir, copyDirA, hc]

/-- Agreement of the fallible apply loop with the total model: when each
staged entry is present under the staging directory, well-formed,
shape-compatible with the like-named live top-level slot, and not named
after the staging directory, the loop raises nothing and equals the
total model's loop. -/
theorem applyLoopE_agree : ∀ (es : List (String × Entry)) (fs : Entry),
    wfList es = true → fs.isDir = true →
    (∀ p ∈ es, lookupEntry fs (TEMPDIR ++ [p.1]) = some p.2) →
    (∀ p ∈ es, copyOkE p.2 (lookupEntry fs [p.1]) = true) →
    (∀ p ∈ es, wfEntry p.2 = true) →
    (∀ p ∈ es, p.1 ≠ "temp_richbess") →
    applyLoopE es fs = some (applyLoop es fs)
  | [], _, _, _, _, _, _, _ => rfl
  | (n, e) :: rest, fs, hwf, hroot, hstage, hok, hwfe, hnt => by
    rw [wfList_cons] at hwf
    obtain ⟨ftop, rfl⟩ : ∃ ftop, fs = Entry.dir ftop := by
      cases fs with
      | file c => simp [Entry.isDir] at hroot
      | dir ftop => exact ⟨ftop, rfl⟩
    have hstageN := hstage (n, e) (List.mem_cons_self _ _)
    have hokN := hok (n, e) (List.mem_cons_self _ _)
    have hntN : n ≠ "temp_richbess" := hnt (n, e) (List.mem_cons_self _ _)
    have hq : lookupEntry (Entry.dir ftop) [] = some (Entry.dir ftop) := rfl
    have hslot : lookupEntry (Entry.dir ftop) [n] = childNamed ftop n :=
      lookup_single ftop n
    have hrestne : ∀ p ∈ rest, p.1 ≠ n := keyMem_false_forall n rest hwf.1
    cases e with
    | file c =>
      have hokN2 : copyOkE (Entry.file c) (childNamed ftop n) = true := by
        rw [← hslot]
        exact hokN
      have hslotOk : noDir (childNamed ftop n) := copyOk_file_noDir c _ hokN2
      have hcf : copyFileE (Entry.dir ftop) (TEMPDIR ++ [n]) [n] =
          some (copyFile (Entry.dir ftop) (TEMPDIR ++ [n]) [n]) :=
        copyFileE_agree (Entry.dir ftop) (TEMPDIR ++ [n]) [] n ftop c hstageN hq hslotOk
      have hstep : copyFile (Entry.dir ftop) (TEMPDIR ++ [n]) [n] =
          setEntry (Entry.dir ftop) [n] (Entry.file c) := by
        simp only [copyFile, hstageN]
      have hroot2 : (setEntry (Entry.dir ftop) [n] (Entry.file c)).isDir = true :=
        isDir_setEntry_cons _ n [] _ rfl
      have hstage2 : ∀ p ∈ rest, lookupEntry (setEntry (Entry.dir ftop) [n]
          (Entry.file c)) (TEMPDIR ++ [p.1]) = some p.2 :=
        fun p hp => (lookupEntry_setEntry_head_ne (Entry.dir ftop) n "temp_richbess"
          [] [p.1] (Entry.file c) hntN).trans (hstage p (List.mem_cons_of_mem _ hp))
      have hok2 : ∀ p ∈ rest, copyOkE p.2 (lookupEntry (setEntry (Entry.dir ftop) [n]
          (Entry.file c)) [p.1]) = true := by
        intro p hp
        rw [lookupEntry_setEntry_head_ne (Entry.dir ftop) n p.1 [] [] (Entry.file c)
          (Ne.symm (hrestne p hp))]
        exact hok p (List.mem_cons_of_mem _ hp)
      simp only [applyLoopE, applyLoop, hstageN, hcf, hstep]
      exact applyLoopE_agree rest (setEntry (Entry.dir ftop) [n] (Entry.file c))
        hwf.2.2 hroot2 hstage2 hok2
        (fun p hp => hwfe p (List.mem_cons_of_mem _ hp))
        (fun p hp => hnt p (List.mem_cons_of_mem _ hp))
    | dir des =>
      have hokN2 : copyOkE (Entry.dir des) (childNamed ftop n) = true := by
        rw [← hslot]
        exact hokN
      have hwfdes : wfList des = true := by
        have hh := hwfe (n, Entry.dir des) (List.mem_cons_self _ _)
        simpa [wfEntry] using hh
      have hsrc1 : lookupEntry (mkdirp (Entry.dir ftop) [n]) (TEMPDIR ++ [n]) =
          some (Entry.dir des) :=
        (lookupEntry_mkdirp_head_ne (Entry.dir ftop) n "temp_richbess" [] [n]
          hntN).trans hstageN
      have hcd : copyDirectoryAsyncE (Entry.dir ftop) (TEMPDIR ++ [n]) [n] =
          some (copyDirectoryAsync (Entry.dir ftop) (TEMPDIR ++ [n]) [n]) :=
        copyDirectoryAsyncE_agree (Entry.dir ftop) (TEMPDIR ++ [n]) [] n des ftop
          hstageN hsrc1 hwfdes hq hokN2
      have hroot2 : (copyDirectoryAsync (Entry.dir ftop) (TEMPDIR ++ [n]) [n]).isDir
          = true := isDir_copyDirectoryAsync _ _ n [] rfl
      have hstage2 : ∀ p ∈ rest, lookupEntry (copyDirectoryAsync (Entry.dir ftop)
          (TEMPDIR ++ [n]) [n]) (TEMPDIR ++ [p.1]) = some p.2 :=
        fun p hp => (lookupEntry_copyDirectoryAsync_head_ne (Entry.dir ftop) _ n
          "temp_richbess" [] [p.1] hntN).trans (hstage p (List.mem_cons_of_mem _ hp))
      have hok2 : ∀ p ∈ rest, copyOkE p.2 (lookupEntry (copyDirectoryAsync
          (Entry.dir ftop) (TEMPDIR ++ [n]) [n]) [p.1]) = true := by
        intro p hp
        rw [lookupEntry_copyDirectoryAsync_head_ne (Entry.dir ftop) _ n p.1 [] []
          (Ne.symm (hrestne p hp))]
        exact hok p (List.mem_cons_of_mem _ hp)
      simp only [applyLoopE, applyLoop, hstageN, hcd]
      exact applyLoopE_agree rest (copyDirectoryAsync (Entry.dir ftop) (TEMPDIR ++ [n])
        [n]) hwf.2.2 hroot2 hstage2 hok2
        (fun p hp => hwfe p (List.mem_cons_of_mem _ hp))
        (fun p hp => hnt p (List.mem_cons_of_mem _ hp))
termination_by es _ _ _ _ _ _ _ => sizeOf es

/-- Agreement of the fallible `applyUpdate` with the total model on its
success domain (staged listing well-formed at every level, every staged
top-level entry shape-compatible with the like-named live slot, no
staged entry named after the staging directory). -/
theorem applyUpdateE_agree (fs : Entry) (tops : List (String × Entry))
    (htemp : lookupEntry fs TEMPDIR = some (Entry.dir tops))
    (hroot : fs.isDir = true)
    (hwf : wfList tops = true)
    (hwfdeep : ∀ p ∈ tops, wfEntry p.2 = true)
    (hok : ∀ p ∈ tops, copyOkE p.2 (lookupEntry fs [p.1]) = true)
    (hnt : keyMem "temp_richbess" tops = false) :
    applyUpdateE fs = some (applyUpdate fs) := by
  have hstage : ∀ p ∈ tops, lookupEntry fs (TEMPDIR ++ [p.1]) = some p.2 := by
    intro p hp
    exact (lookup_append_slot fs TEMPDIR p.1 tops htemp).trans
      (childNamed_of_mem_wf tops p.1 p.2 hwf hp)
  have hloop := applyLoopE_agree tops fs hwf hroot hstage hok hwfdeep
    (keyMem_false_forall _ _ hnt)
  simp only [applyUpdateE, applyUpdate, htemp, hloop]

theorem mkdirp_single (D : List (String × Entry)) (n : String)
    (h : noFile (childNamed D n)) :
    mkdirp (Entry.dir D) [n] =
      Entry.dir (setAssoc D n (Entry.dir (slotDir (childNamed D n)))) := by
  cases hc : childNamed D n with
  | none => simp [mkdirp, mkdirp_nil, slotDir, hc]
  | some e =>
    cases e with
    | file c => rw [hc] at h; simp [noFile] at h
    | dir dd => simp [mkdirp, mkdirp_nil, slotDir, hc]

theorem setEntry_single (D : List (String × Entry)) (n : String) (v : Entry) :
    setEntry (Entry.dir D) [n] v = Entry.dir (setAssoc D n v) := by
  simp [setEntry, setEntry_nil]

theorem entriesOk_slotDir (es : List (String × Entry)) (o : Option Entry)
    (h : copyOkE (Entry.dir es) o = true) :
    entriesOkE es (slotDir o) = true := by
  cases o with
  | none => exact entriesOkE_nil_dest es
  | some e =>
    cases e with
    | file c => simp [copyOkE] at h
    | dir dd => simpa [slotDir, copyOkE] using h

/-- One `fs.mkdir { recursive: true }` of `restoreBackup`'s scaffold
phase (lines 345-353), on a tree whose `dados` listing is known: the
fallible call agrees with the total model, and the listing update and
the snapshot frame are explicit. -/
theorem mkdir_dados_step (bk : String) (g : Entry) (DD : List (String × Entry))
    (x : String) (hne : bk ≠ "dados") (hg : g.isDir = true)
    (hD : lookupEntry g ["dados"] = some (Entry.dir DD))
    (hnf : noFile (childNamed DD x)) :
    mkdirpE g ["dados", x] = some (mkdirp g ["dados", x]) ∧
    (mkdirp g ["dados", x]).isDir = true ∧
    lookupEntry (mkdirp g ["dados", x]) ["dados"] =
      some (Entry.dir (setAssoc DD x (Entry.dir (slotDir (childNamed DD x))))) ∧
    (∀ r, lookupEntry (mkdirp g ["dados", x]) (bk :: r) = lookupEntry g (bk :: r)) := by
  refine ⟨?_, ?_, ?_, ?_⟩
  · exact mkdirpE_append_agree g ["dados"] x DD hD hnf
  · exact isDir_mkdirp_cons g "dados" [x] hg
  · rw [mkdirp_lookup_head g "dados" [x] (Entry.dir DD) hg hD, mkdirp_single DD x hnf]
  · intro r
    exact lookupEntry_mkdirp_head_ne g "dados" bk [x] r (Ne.symm hne)

/-- One guarded snapshot-to-live directory copy of `restoreBackup`
(lines 356-357, 365-372), on a tree whose `dados` listing and target
slot are known: the fallible copy agrees with the total model, whose
value, listing update and snapshot frame are explicit. -/
theorem copydir_dados_step (bk : String) (g : Entry) (DD dd0 es : List (String × Entry))
    (x : String) (r : List String) (hne : bk ≠ "dados") (hg : g.isDir = true)
    (hD : lookupEntry g ["dados"] = some (Entry.dir DD))
    (hslot : childNamed DD x = some (Entry.dir dd0))
    (hsrc : lookupEntry g (bk :: r) = some (Entry.dir es))
    (hwf : wfList es = true)
    (hok : entriesOkE es dd0 = true) :
    copyDirectoryAsyncE g (bk :: r) ["dados", x] =
      some (copyDirectoryAsync g (bk :: r) ["dados", x]) ∧
    (copyDirectoryAsync g (bk :: r) ["dados", x]).isDir = true ∧
    lookupEntry (copyDirectoryAsync g (bk :: r) ["dados", x]) ["dados"] =
      some (Entry.dir (setAssoc DD x (copyFiles es (Entry.dir dd0)))) ∧
    (∀ r2, lookupEntry (copyDirectoryAsync g (bk :: r) ["dados", x]) (bk :: r2) =
      lookupEntry g (bk :: r2)) := by
  have hokC : copyOkE (Entry.dir es) (childNamed DD x) = true := by
    rw [hslot]
    exact hok
  have hsrc1 : lookupEntry (mkdirp g (["dados"] ++ [x])) (bk :: r) =
      some (Entry.dir es) :=
    (lookupEntry_mkdirp_head_ne g "dados" bk [x] r (Ne.symm hne)).trans hsrc
  have hagree : copyDirectoryAsyncE g (bk :: r) ["dados", x] =
      some (copyDirectoryAsync g (bk :: r) ["dados", x]) :=
    copyDirectoryAsyncE_agree g (bk :: r) ["dados"] x es DD hsrc hsrc1 hwf hD hokC
  have hdst : lookupEntry g ["dados", x] = some (Entry.dir dd0) :=
    (lookup_append_slot g ["dados"] x DD hD).trans hslot
  have hval : copyDirectoryAsync g (bk :: r) ["dados", x] =
      setEntry g ["dados", x] (copyFiles es (Entry.dir dd0)) := by
    simp only [copyDirectoryAsync, hsrc, hdst, Option.getD_some, copyDirA]
  refine ⟨hagree, ?_, ?_, ?_⟩
  · rw [hval]
    exact isDir_setEntry_cons g "dados" [x] _ hg
  · rw [hval]
    exact lookup_setEntry_parent g ["dados"] x DD _ hD
  · intro r2
    rw [hval]
    exact lookupEntry_setEntry_head_ne g "dados" bk [x] r2 _ (Ne.symm hne)

/-- The guarded configuration-file copy of `restoreBackup` (lines
359-362): the fallible `fs.copyFile` (EISDIR when the live slot became
a directory) agrees with the total model, whose value is explicit. -/
theorem copyfile_cfg_step (bk : String) (g : Entry) (DD ss : List (String × Entry))
    (cf : String) (r : List String)
    (hD : lookupEntry g ["dados"] = some (Entry.dir DD))
    (hsrcx : childNamed DD "src" = some (Entry.dir ss))
    (hslot : noDir (childNamed ss "config.json"))
    (hsrc : lookupEntry g (bk :: r) = some (Entry.file cf)) :
    copyFileE g (bk :: r) ["dados", "src", "config.json"] =
      some (copyFile g (bk :: r) ["dados", "src", "config.json"]) ∧
    copyFile g (bk :: r) ["dados", "src", "config.json"] =
      setEntry g ["dados", "src", "config.json"] (Entry.file cf) := by
  have hq : lookupEntry g ["dados", "src"] = some (Entry.dir ss) :=
    (lookup_append_slot g ["dados"] "src" DD hD).trans hsrcx
  constructor
  · exact copyFileE_agree g (bk :: r) ["dados", "src"] "config.json" ss cf hsrc hq hslot
  · simp only [copyFile, hsrc]

/-- Agreement of the fallible `restoreBackup` with the total model on
its success domain: live `dados` listing known, the snapshot holding a
well-formed database directory, the configuration file and a
well-formed media directory, and every snapshot item shape-compatible
with what the replacement left at the like-named live slot. -/
theorem restoreBackupE_agree (bk : String) (fs : Entry)
    (D dbs ms : List (String × Entry)) (cf : String)
    (hfs : fs.isDir = true)
    (hne : bk ≠ "dados")
    (hdados : lookupEntry fs ["dados"] = some (Entry.dir D))
    (hbkdb : lookupEntry fs (bk :: ["dados", "database"]) = some (Entry.dir dbs))
    (hbkcfg : lookupEntry fs (bk :: ["dados", "src", "config.json"]) =
      some (Entry.file cf))
    (hbkmid : lookupEntry fs (bk :: ["dados", "midias"]) = some (Entry.dir ms))
    (hwfdb : wfList dbs = true)
    (hwfms : wfList ms = true)
    (hokdb : copyOkE (Entry.dir dbs) (childNamed D "database") = true)
    (hsrcShape : noFile (childNamed D "src"))
    (hokcfg : ∀ ss, childNamed D "src" = some (Entry.dir ss) →
      noDir (childNamed ss "config.json"))
    (hokmid : copyOkE (Entry.dir ms) (childNamed D "midias") = true) :
    restoreBackupE bk fs = some (restoreBackup bk fs) := by
  have hnd : "dados" ≠ bk := Ne.symm hne
  have hnfdb : noFile (childNamed D "database") := copyOk_dir_noFile dbs _ hokdb
  have hnfmid : noFile (childNamed D "midias") := copyOk_dir_noFile ms _ hokmid
  obtain ⟨hA1, hg1dir, hg1D, hg1bk⟩ :=
    mkdir_dados_step bk fs D "database" hne hfs hdados hnfdb
  have hnfsrc1 := hsrcShape
  rw [← childNamed_setAssoc_ne D "database" "src"
    (Entry.dir (slotDir (childNamed D "database"))) (by decide)] at hnfsrc1
  obtain ⟨hA2, hg2dir, hg2D, hg2bk⟩ :=
    mkdir_dados_step bk _ _ "src" hne hg1dir hg1D hnfsrc1
  rw [childNamed_setAssoc_ne D "database" "src"
    (Entry.dir (slotDir (childNamed D "database"))) (by decide)] at hg2D
  have hnfmid2 := hnfmid
  rw [← childNamed_setAssoc_ne D "database" "midias"
      (Entry.dir (slotDir (childNamed D "database"))) (by decide),
    ← childNamed_setAssoc_ne _ "src" "midias"
      (Entry.dir (slotDir (childNamed D "src"))) (by decide)] at hnfmid2
  obtain ⟨hA3, hg3dir, hg3D, hg3bk⟩ :=
    mkdir_dados_step bk _ _ "midias" hne hg2dir hg2D hnfmid2
  rw [childNamed_setAssoc_ne _ "src" "midias"
      (Entry.dir (slotDir (childNamed D "src"))) (by decide),
    childNamed_setAssoc_ne D "database" "midias"
      (Entry.dir (slotDir (childNamed D "database"))) (by decide)] at hg3D
  have hbk3 : ∀ r, lookupEntry (mkdirp (mkdirp (mkdirp fs ["dados", "database"])
      ["dados", "src"]) ["dados", "midias"]) (bk :: r) = lookupEntry fs (bk :: r) :=
    fun r => (hg3bk r).trans ((hg2bk r).trans (hg1bk r))
  have hlook1 : lookupEntry (mkdirp (mkdirp (mkdirp fs ["dados", "database"])
      ["dados", "src"]) ["dados", "midias"]) (bk :: ["dados", "database"]) =
      some (Entry.dir dbs) := (hbk3 ["dados", "database"]).trans hbkdb
  have hex1 : existsPath (mkdirp (mkdirp (mkdirp fs ["dados", "database"])
      ["dados", "src"]) ["dados", "midias"]) [bk, "dados", "database"] = true := by
    simp [existsPath, hlook1]
  have hslotdb3 : childNamed (setAssoc (setAssoc (setAssoc D "database"
      (Entry.dir (slotDir (childNamed D "database")))) "src"
      (Entry.dir (slotDir (childNamed D "src")))) "midias"
      (Entry.dir (slotDir (childNamed D "midias")))) "database" =
      some (Entry.dir (slotDir (childNamed D "database"))) := by
    rw [childNamed_setAssoc_ne _ "midias" "database" _ (by decide),
      childNamed_setAssoc_ne _ "src" "database" _ (by decide),
      childNamed_setAssoc_self]
  obtain ⟨hB1, hc1dir, hc1D, hc1bk⟩ :=
    copydir_dados_step bk _ _ (slotDir (childNamed D "database")) dbs "database"
      ["dados", "database"] hne hg3dir hg3D hslotdb3 hlook1 hwfdb
      (entriesOk_slotDir dbs _ hokdb)
  have hlook2 : lookupEntry (copyDirectoryAsync (mkdirp (mkdirp (mkdirp fs
      ["dados", "database"]) ["dados", "src"]) ["dados", "midias"])
      (bk :: ["dados", "database"]) ["dados", "database"])
      (bk :: ["dados", "src", "config.json"]) = some (Entry.file cf) :=
    (hc1bk ["dados", "src", "config.json"]).trans
      ((hbk3 ["dados", "src", "config.json"]).trans hbkcfg)
  have hex2 : existsPath (copyDirectoryAsync (mkdirp (mkdirp (mkdirp fs
      ["dados", "database"]) ["dados", "src"]) ["dados", "midias"])
      (bk :: ["dados", "database"]) ["dados", "database"])
      [bk, "dados", "src", "config.json"] = true := by
    simp [existsPath, hlook2]
  have hslotsrc4 : childNamed (setAssoc (setAssoc (setAssoc (setAssoc D "database"
      (Entry.dir (slotDir (childNamed D "database")))) "src"
      (Entry.dir (slotDir (childNamed D "src")))) "midias"
      (Entry.dir (slotDir (childNamed D "midias")))) "database"
      (copyFiles dbs (Entry.dir (slotDir (childNamed D "database"))))) "src" =
      some (Entry.dir (slotDir (childNamed D "src"))) := by
    rw [childNamed_setAssoc_ne _ "database" "src" _ (by decide),
      childNamed_setAssoc_ne _ "midias" "src" _ (by decide),
      childNamed_setAssoc_self]
  have hnoDirCfg : noDir (childNamed (slotDir (childNamed D "src")) "config.json") := by
    cases hc : childNamed D "src" with
    | none => simp [slotDir, childNamed, noDir]
    | some e =>
      cases e with
      | file c2 => rw [hc] at hsrcShape; simp [noFile] at hsrcShape
      | dir ss => exact hokcfg ss hc
  obtain ⟨hC1, hC1val⟩ :=
    copyfile_cfg_step bk _ _ (slotDir (childNamed D "src")) cf
      ["dados", "src", "config.json"] hc1D hslotsrc4 hnoDirCfg hlook2
  have hc2dir : (copyFile (copyDirectoryAsync (mkdirp (mkdirp (mkdirp fs
      ["dados", "database"]) ["dados", "src"]) ["dados", "midias"])
      (bk :: ["dados", "database"]) ["dados", "database"])
      (bk :: ["dados", "src", "config.json"])
      ["dados", "src", "config.json"]).isDir = true := by
    rw [hC1val]
    exact isDir_setEntry_cons _ "dados" _ _ hc1dir
  have hinner45 : setEntry (Entry.dir (setAssoc (setAssoc (setAssoc (setAssoc D
      "database" (Entry.dir (slotDir (childNamed D "database")))) "src"
      (Entry.dir (slotDir (childNamed D "src")))) "midias"
      (Entry.dir (slotDir (childNamed D "midias")))) "database"
      (copyFiles dbs (Entry.dir (slotDir (childNamed D "database"))))))
      ["src", "config.json"] (Entry.file cf) =
      Entry.dir (setAssoc (setAssoc (setAssoc (setAssoc (setAssoc D "database"
      (Entry.dir (slotDir (childNamed D "database")))) "src"
      (Entry.dir (slotDir (childNamed D "src")))) "midias"
      (Entry.dir (slotDir (childNamed D "midias")))) "database"
      (copyFiles dbs (Entry.dir (slotDir (childNamed D "database"))))) "src"
      (Entry.dir (setAssoc (slotDir (childNamed D "src")) "config.json"
        (Entry.file cf)))) := by
    simp [setEntry, setEntry_nil, hslotsrc4]
  have hc2D : lookupEntry (copyFile (copyDirectoryAsync (mkdirp (mkdirp (mkdirp fs
      ["dados", "database"]) ["dados", "src"]) ["dados", "midias"])
      (bk :: ["dados", "database"]) ["dados", "database"])
      (bk :: ["dados", "src", "config.json"]) ["dados", "src", "config.json"])
      ["dados"] = some (Entry.dir (setAssoc (setAssoc (setAssoc (setAssoc (setAssoc D
      "database" (Entry.dir (slotDir (childNamed D "database")))) "src"
      (Entry.dir (slotDir (childNamed D "src")))) "midias"
      (Entry.dir (slotDir (childNamed D "midias")))) "database"
      (copyFiles dbs (Entry.dir (slotDir (childNamed D "database"))))) "src"
      (Entry.dir (setAssoc (slotDir (childNamed D "src")) "config.json"
        (Entry.file cf))))) := by
    rw [hC1val, setEntry_lookup_head _ "dados" ["src", "config.json"] (Entry.file cf)
      _ hc1dir hc1D, hinner45]
  have hc2bk : ∀ r2, lookupEntry (copyFile (copyDirectoryAsync (mkdirp (mkdirp
      (mkdirp fs ["dados", "database"]) ["dados", "src"]) ["dados", "midias"])
      (bk :: ["dados", "database"]) ["dados", "database"])
      (bk :: ["dados", "src", "config.json"]) ["dados", "src", "config.json"])
      (bk :: r2) = lookupEntry fs (bk :: r2) := by
    intro r2
    rw [hC1val, lookupEntry_setEntry_head_ne _ "dados" bk _ r2 _ hnd]
    exact (hc1bk r2).trans (hbk3 r2)
  have hlook3 : lookupEntry (copyFile (copyDirectoryAsync (mkdirp (mkdirp (mkdirp fs
      ["dados", "database"]) ["dados", "src"]) ["dados", "midias"])
      (bk :: ["dados", "database"]) ["dados", "database"])
      (bk :: ["dados", "src", "config.json"]) ["dados", "src", "config.json"])
      (bk :: ["dados", "midias"]) = some (Entry.dir ms) :=
    (hc2bk ["dados", "midias"]).trans hbkmid
  have hex3 : existsPath (copyFile (copyDirectoryAsync (mkdirp (mkdirp (mkdirp fs
      ["dados", "database"]) ["dados", "src"]) ["dados", "midias"])
      (bk :: ["dados", "database"]) ["dados", "database"])
      (bk :: ["dados", "src", "config.json"]) ["dados", "src", "config.json"])
      [bk, "dados", "midias"] = true := by
    simp [existsPath, hlook3]
  have hslotmid5 : childNamed (setAssoc (setAssoc (setAssoc (setAssoc (setAssoc D
      "database" (Entry.dir (slotDir (childNamed D "database")))) "src"
      (Entry.dir (slotDir (childNamed D "src")))) "midias"
      (Entry.dir (slotDir (childNamed D "midias")))) "database"
      (copyFiles dbs (Entry.dir (slotDir (childNamed D "database"))))) "src"
      (Entry.dir (setAssoc (slotDir (childNamed D "src")) "config.json"
        (Entry.file cf)))) "midias" =
      some (Entry.dir (slotDir (childNamed D "midias"))) := by
    rw [childNamed_setAssoc_ne _ "src" "midias" _ (by decide),
      childNamed_setAssoc_ne _ "database" "midias" _ (by decide),
      childNamed_setAssoc_self]
  obtain ⟨hB3, hc3dir, hc3D, hc3bk⟩ :=
    copydir_dados_step bk _ _ (slotDir (childNamed D "midias")) ms "midias"
      ["dados", "midias"] hne hc2dir hc2D hslotmid5 hlook3 hwfms
      (entriesOk_slotDir ms _ hokmid)
  simp only [restoreBackupE, restoreBackup, hA1, hA2, hA3, hex1, hB1, hex2, hC1,
    hex3, hB3, eq_self_iff_true, if_true]

/-- Counterexample to C2 as stated: the claim quantifies over the
fetched tree "regardless of what [it] contained at those paths", but a
replacement staging directories at the two file paths refutes it.
Starting from the scenario's live tree with a fetched tree carrying
directories at `dados/database/db.json` and `dados/src/config.json`:
the replacement itself succeeds (the staged `dados` subtree is copied
into the directory just emptied by clean), but during restore the
`fs.copyFile` of the snapshot's `db.json` onto the staged directory
(line 177) and the `fs.copyFile` of `config.json` (line 360) raise
EISDIR, so `restoreBackup` aborts — the run has no post-restore state,
and at the abort point the live `dados/src/config.json` is the staged
empty directory, not the original file. -/
theorem C2_end_to_end_counterexample :
    ((applyUpdateE (cleanOldFiles "backup_1" (setEntry (createBackup "backup_1"
        (Entry.dir [("dados", Entry.dir
          [("database", Entry.dir [("db.json", Entry.file "\x7b\"v\":1\x7d")]),
           ("src", Entry.dir [("config.json",
              Entry.file "\x7b\"prefixo\":\"!\"\x7d")])])]))
        TEMPDIR (Entry.dir [("dados", Entry.dir
          [("database", Entry.dir [("db.json", Entry.dir [])]),
           ("src", Entry.dir [("config.json", Entry.dir [])])])]))))).isSome = true ∧
    Option.bind (applyUpdateE (cleanOldFiles "backup_1" (setEntry (createBackup "backup_1"
        (Entry.dir [("dados", Entry.dir
          [("database", Entry.dir [("db.json", Entry.file "\x7b\"v\":1\x7d")]),
           ("src", Entry.dir [("config.json",
              Entry.file "\x7b\"prefixo\":\"!\"\x7d")])])]))
        TEMPDIR (Entry.dir [("dados", Entry.dir
          [("database", Entry.dir [("db.json", Entry.dir [])]),
           ("src", Entry.dir [("config.json", Entry.dir [])])])])))) (restoreBackupE "backup_1") = none ∧
    Option.bind (applyUpdateE (cleanOldFiles "backup_1" (setEntry (createBackup "backup_1"
        (Entry.dir [("dados", Entry.dir
          [("database", Entry.dir [("db.json", Entry.file "\x7b\"v\":1\x7d")]),
           ("src", Entry.dir [("config.json",
              Entry.file "\x7b\"prefixo\":\"!\"\x7d")])])]))
        TEMPDIR (Entry.dir [("dados", Entry.dir
          [("database", Entry.dir [("db.json", Entry.dir [])]),
           ("src", Entry.dir [("config.json", Entry.dir [])])])])))) (fun A => lookupEntry A dadosSrcConfig) =
      some (Entry.dir []) :=
  ⟨rfl, rfl, rfl⟩

/-- C2 (amended): end-to-end user-data preservation on the replacement
shapes the program survives. From the scenario's live tree (the two
user-data files, no media directory yet), running `createBackup`, then
the full file replacement (staging the fetched tree at `TEMP_DIR`,
`cleanOldFiles`, `applyUpdate`) and `restoreBackup` — both modeled
fallibly, with every EISDIR/EEXIST/ENOTDIR raise — completes without
raising and leaves both files present with their original contents,
whatever contents the fetched tree carried at those paths, PROVIDED the
fetched tree is shape-compatible: well-formed listings, no staged entry
named after the snapshot or staging directories, staged top-level
entries compatible with the live slots they overwrite, and no staged
directory sitting where the snapshot holds a file (`db.json`,
`config.json`) nor a staged file where restore recreates a directory.
Without the compatibility proviso the run aborts mid-restore (see the
counterexample), which is the forced correction to the claim. The
backup step keeps the total model: its copies land in the freshly
scaffolded empty snapshot, where the fallible and total models agree. -/
theorem C2_end_to_end_amended (bk : String) (fs : Entry)
    (tops dbs : List (String × Entry))
    (hroot : fs.isDir = true)
    (hfresh : lookupEntry fs [bk] = none)
    (hne1 : bk ≠ "dados") (hne2 : bk ≠ "temp_richbess") (hne3 : bk ∉ itemsToDelete)
    (hdb : lookupEntry fs dadosDatabase = some (Entry.dir dbs))
    (hwfdb : wfList dbs = true)
    (hdbjson : childNamed dbs "db.json" = some (Entry.file "\x7b\"v\":1\x7d"))
    (hcfg : lookupEntry fs dadosSrcConfig = some (Entry.file "\x7b\"prefixo\":\"!\"\x7d"))
    (hmid : lookupEntry fs dadosMidias = none)
    (hwftops : wfList tops = true)
    (hnotemp : keyMem "temp_richbess" tops = false)
    (hnobk : keyMem bk tops = false)
    (htshape1 : noFile (childNamed tops "dados"))
    (htopok : ∀ p ∈ tops, p.1 ≠ "dados" → p.1 ∉ itemsToDelete →
      copyOkE p.2 (lookupEntry fs [p.1]) = true)
    (hstaged : ∀ dd, childNamed tops "dados" = some (Entry.dir dd) →
      copyOkE (Entry.dir dbs) (childNamed dd "database") = true ∧
      noFile (childNamed dd "src") ∧
      (∀ ss, childNamed dd "src" = some (Entry.dir ss) →
        noDir (childNamed ss "config.json")) ∧
      noFile (childNamed dd "midias")) :
    applyUpdateE (cleanOldFiles bk (setEntry (createBackup bk fs) TEMPDIR
        (Entry.dir tops))) =
      some (applyUpdate (cleanOldFiles bk (setEntry (createBackup bk fs) TEMPDIR
        (Entry.dir tops)))) ∧
    restoreBackupE bk (applyUpdate (cleanOldFiles bk (setEntry (createBackup bk fs)
        TEMPDIR (Entry.dir tops)))) =
      some (restoreBackup bk (applyUpdate (cleanOldFiles bk (setEntry
        (createBackup bk fs) TEMPDIR (Entry.dir tops))))) ∧
    lookupEntry (restoreBackup bk (applyUpdate (cleanOldFiles bk (setEntry
        (createBackup bk fs) TEMPDIR (Entry.dir tops)))))
      ["dados", "database", "db.json"] = some (Entry.file "\x7b\"v\":1\x7d") ∧
    lookupEntry (restoreBackup bk (applyUpdate (cleanOldFiles bk (setEntry
        (createBackup bk fs) TEMPDIR (Entry.dir tops)))))
      dadosSrcConfig = some (Entry.file "\x7b\"prefixo\":\"!\"\x7d") := by
  have hA := createBackup_lookup_bk bk fs hroot hfresh hne1
    (by rw [show (dadosDatabase : List String) = ["dados", "database"] from rfl] at hdb ⊢
        rw [hdb]; exact hwfdb)
    (by rw [show (dadosSrcConfig : List String) = ["dados", "src", "config.json"] from rfl]
          at hcfg ⊢
        rw [hcfg]; trivial)
    (by rw [hmid]; trivial)
  have hBTdb : lookupEntry (backupTree fs) ["dados", "database"] =
      some (Entry.dir dbs) := by
    simp only [backupTree, dbBackup, hdb]
    simp [lookupEntry, getChild, childNamed]
  have hBTcfg : lookupEntry (backupTree fs) ["dados", "src", "config.json"] =
      some (Entry.file "\x7b\"prefixo\":\"!\"\x7d") := by
    simp only [backupTree, cfgBackup, hcfg]
    simp [lookupEntry, getChild, childNamed]
  have hBTmid : lookupEntry (backupTree fs) ["dados", "midias"] =
      some (Entry.dir []) := by
    simp only [backupTree, midBackup, hmid]
    simp [lookupEntry, getChild, childNamed]
  set fs1 := setEntry (createBackup bk fs) TEMPDIR (Entry.dir tops) with hfs1def
  have hcbdir : (createBackup bk fs).isDir = true := isDir_createBackup bk fs hroot
  have hfs1dir : fs1.isDir = true := by
    rw [hfs1def]
    exact isDir_setEntry_cons _ "temp_richbess" [] _ hcbdir
  have hbk1 : lookupEntry fs1 [bk] = some (backupTree fs) := by
    rw [hfs1def]
    exact (lookupEntry_setEntry_head_ne (createBackup bk fs) "temp_richbess" bk [] []
      (Entry.dir tops) (Ne.symm hne2)).trans hA
  have htemp1 : lookupEntry fs1 TEMPDIR = some (Entry.dir tops) := by
    rw [hfs1def]
    exact lookupEntry_setEntry_self_nil _ TEMPDIR _
      (dirsAlong_single _ "temp_richbess" hcbdir)
  obtain ⟨D0, hD0, hD0db⟩ := lookup_cons_split fs "dados" ["database"] _ hdb
  have hD0dir : D0.isDir = true := isDir_of_lookup_cons _ _ _ _ hD0db
  obtain ⟨d0es, rfl⟩ : ∃ d0es, D0 = Entry.dir d0es := by
    cases D0 with
    | file c => simp [Entry.isDir] at hD0dir
    | dir d0es => exact ⟨d0es, rfl⟩
  have hdados1 : lookupEntry fs1 ["dados"] = some (Entry.dir d0es) := by
    rw [hfs1def]
    exact (lookupEntry_setEntry_head_ne (createBackup bk fs) "temp_richbess" "dados" [] []
      (Entry.dir tops) (by decide)).trans
      ((createBackup_frame bk fs "dados" [] hne1).trans hD0)
  set fs2 := cleanOldFiles bk fs1 with hfs2def
  have hdados2 : lookupEntry fs2 ["dados"] = some (Entry.dir []) := by
    rw [hfs2def]
    exact cleanOldFiles_dados bk fs1 d0es hfs1dir hdados1
  have hfs2dir : fs2.isDir = true := isDir_of_lookup_cons _ _ _ _ hdados2
  have htemp2 : lookupEntry fs2 TEMPDIR = some (Entry.dir tops) := by
    rw [hfs2def]
    exact (cleanOldFiles_frame bk fs1 "temp_richbess" [] (by decide) (by decide)).trans
      htemp1
  have hbk2 : lookupEntry fs2 [bk] = some (backupTree fs) := by
    rw [hfs2def]
    exact (cleanOldFiles_frame bk fs1 bk [] hne3 hne1).trans hbk1
  -- the replacement phase: fallible apply agrees with the total model
  have hwfdeep : ∀ p ∈ tops, wfEntry p.2 = true :=
    fun p hp => wfEntry_of_mem tops p.1 p.2 hwftops hp
  have hokAt2 : ∀ p ∈ tops, copyOkE p.2 (lookupEntry fs2 [p.1]) = true := by
    intro p hp
    by_cases hd : p.1 = "dados"
    · have hcn : childNamed tops "dados" = some p.2 := by
        rw [← hd]
        exact childNamed_of_mem_wf tops p.1 p.2 hwftops hp
      rw [hd, hdados2]
      cases hp2 : p.2 with
      | file c =>
        rw [hp2] at hcn
        rw [hcn] at htshape1
        simp [noFile] at htshape1
      | dir dd => exact entriesOkE_nil_dest dd
    · by_cases hitem : p.1 ∈ itemsToDelete
      · have hnone : lookupEntry fs2 [p.1] = none := by
          rw [hfs2def]
          exact cleanOldFiles_items bk fs1 p.1 [] hitem hfs1dir
        rw [hnone]
        exact copyOkE_none p.2
      · have hpt : p.1 ≠ "temp_richbess" :=
          keyMem_false_forall "temp_richbess" tops hnotemp p hp
        have hpb : p.1 ≠ bk := keyMem_false_forall bk tops hnobk p hp
        have hframe : lookupEntry fs2 [p.1] = lookupEntry fs [p.1] := by
          rw [hfs2def]
          rw [cleanOldFiles_frame bk fs1 p.1 [] hitem hd]
          rw [hfs1def]
          rw [lookupEntry_setEntry_head_ne (createBackup bk fs) "temp_richbess" p.1
            [] [] (Entry.dir tops) (Ne.symm hpt)]
          exact createBackup_frame bk fs p.1 [] (Ne.symm hpb)
        rw [hframe]
        exact htopok p hp hd hitem
  have happlyE : applyUpdateE fs2 = some (applyUpdate fs2) :=
    applyUpdateE_agree fs2 tops htemp2 hfs2dir hwftops hwfdeep hokAt2 hnotemp
  set fs3 := applyUpdate fs2 with hfs3def
  obtain ⟨DA, hDA, hokdbDA, hsrcDA, hokcfgDA, hmidDA⟩ :
      ∃ DA, lookupEntry fs3 ["dados"] = some (Entry.dir DA) ∧
        copyOkE (Entry.dir dbs) (childNamed DA "database") = true ∧
        noFile (childNamed DA "src") ∧
        (∀ ss, childNamed DA "src" = some (Entry.dir ss) →
          noDir (childNamed ss "config.json")) ∧
        noFile (childNamed DA "midias") := by
    cases hcn : childNamed tops "dados" with
    | none =>
      refine ⟨[], ?_, copyOkE_none _, trivial, ?_, trivial⟩
      · rw [hfs3def]
        exact applyUpdate_dados_none fs2 tops htemp2 hdados2 hcn
      · intro ss hss
        simp [childNamed] at hss
    | some e =>
      cases e with
      | file c =>
        rw [hcn] at htshape1
        simp [noFile] at htshape1
      | dir dd =>
        have hmem : ("dados", Entry.dir dd) ∈ tops := by
          obtain ⟨pre, post, heq, hk⟩ := childNamed_split tops "dados" _ hcn
          rw [heq]
          simp
        have hwdd : wfList dd = true := by
          have hh := wfEntry_of_mem tops "dados" (Entry.dir dd) hwftops hmem
          simpa [wfEntry] using hh
        obtain ⟨hok1, hok2, hok3, hok4⟩ := hstaged dd hcn
        refine ⟨dd, ?_, hok1, hok2, hok3, hok4⟩
        rw [hfs3def]
        exact applyUpdate_dados_copy fs2 tops dd hfs2dir htemp2 hwftops
          (keyMem_false_forall _ _ hnotemp) hdados2 hcn hwdd
  have hfs3dir : fs3.isDir = true := isDir_of_lookup_cons _ _ _ _ hDA
  have hbk3 : ∀ r, lookupEntry fs3 (bk :: r) = lookupEntry (backupTree fs) r := by
    intro r
    rw [hfs3def]
    exact (applyUpdate_frame fs2 tops bk r htemp2 (keyMem_false_forall _ _ hnobk)
      hne2).trans (lookup_under fs2 bk r _ hfs2dir hbk2)
  have hokmidDA : copyOkE (Entry.dir ([] : List (String × Entry)))
      (childNamed DA "midias") = true := by
    cases hcm : childNamed DA "midias" with
    | none => exact copyOkE_none _
    | some e =>
      cases e with
      | file c =>
        rw [hcm] at hmidDA
        simp [noFile] at hmidDA
      | dir ds2 => rfl
  have hresE : restoreBackupE bk fs3 = some (restoreBackup bk fs3) :=
    restoreBackupE_agree bk fs3 DA dbs [] "\x7b\"prefixo\":\"!\"\x7d" hfs3dir hne1 hDA
      ((hbk3 ["dados", "database"]).trans hBTdb)
      ((hbk3 ["dados", "src", "config.json"]).trans hBTcfg)
      ((hbk3 ["dados", "midias"]).trans hBTmid)
      hwfdb rfl hokdbDA hsrcDA hokcfgDA hokmidDA
  have hres := restoreBackup_restores bk fs3 DA dbs [] "\x7b\"prefixo\":\"!\"\x7d"
    hfs3dir hne1 hDA
    ((hbk3 ["dados", "database"]).trans hBTdb)
    ((hbk3 ["dados", "src", "config.json"]).trans hBTcfg)
    ((hbk3 ["dados", "midias"]).trans hBTmid)
    hwfdb (copyOk_dir_noFile dbs _ hokdbDA) hsrcDA
  exact ⟨happlyE, hresE, hres.2 "db.json" _ hdbjson, hres.1⟩

/-- Witness for the amended C2: the fetched staging tree carries
conflicting file contents at both user-data paths ("EVIL"), the
fallible replacement and restore complete, and both files survive with
their original contents. -/
theorem C2_end_to_end_amended_witness :
    applyUpdateE (cleanOldFiles "backup_1" (setEntry (createBackup "backup_1" (Entry.dir [("dados", Entry.dir
      [("database", Entry.dir [("db.json", Entry.file "\x7b\"v\":1\x7d")]),
       ("src", Entry.dir [("config.json", Entry.file "\x7b\"prefixo\":\"!\"\x7d")])])]))
        TEMPDIR (Entry.dir [("index.js", Entry.file "code"),
      ("dados", Entry.dir [("database", Entry.dir [("db.json", Entry.file "EVIL")]),
       ("src", Entry.dir [("config.json", Entry.file "EVIL")])])]))) =
      some (applyUpdate (cleanOldFiles "backup_1" (setEntry
        (createBackup "backup_1" (Entry.dir [("dados", Entry.dir
      [("database", Entry.dir [("db.json", Entry.file "\x7b\"v\":1\x7d")]),
       ("src", Entry.dir [("config.json", Entry.file "\x7b\"prefixo\":\"!\"\x7d")])])])) TEMPDIR (Entry.dir [("index.js", Entry.file "code"),
      ("dados", Entry.dir [("database", Entry.dir [("db.json", Entry.file "EVIL")]),
       ("src", Entry.dir [("config.json", Entry.file "EVIL")])])])))) ∧
    restoreBackupE "backup_1" (applyUpdate (cleanOldFiles "backup_1" (setEntry
        (createBackup "backup_1" (Entry.dir [("dados", Entry.dir
      [("database", Entry.dir [("db.json", Entry.file "\x7b\"v\":1\x7d")]),
       ("src", Entry.dir [("config.json", Entry.file "\x7b\"prefixo\":\"!\"\x7d")])])])) TEMPDIR (Entry.dir [("index.js", Entry.file "code"),
      ("dados", Entry.dir [("database", Entry.dir [("db.json", Entry.file "EVIL")]),
       ("src", Entry.dir [("config.json", Entry.file "EVIL")])])])))) =
      some (restoreBackup "backup_1" (applyUpdate (cleanOldFiles "backup_1"
        (setEntry (createBackup "backup_1" (Entry.dir [("dados", Entry.dir
      [("database", Entry.dir [("db.json", Entry.file "\x7b\"v\":1\x7d")]),
       ("src", Entry.dir [("config.json", Entry.file "\x7b\"prefixo\":\"!\"\x7d")])])])) TEMPDIR (Entry.dir [("index.js", Entry.file "code"),
      ("dados", Entry.dir [("database", Entry.dir [("db.json", Entry.file "EVIL")]),
       ("src", Entry.dir [("config.json", Entry.file "EVIL")])])]))))) ∧
    lookupEntry (restoreBackup "backup_1" (applyUpdate (cleanOldFiles "backup_1"
        (setEntry (createBackup "backup_1" (Entry.dir [("dados", Entry.dir
      [("database", Entry.dir [("db.json", Entry.file "\x7b\"v\":1\x7d")]),
       ("src", Entry.dir [("config.json", Entry.file "\x7b\"prefixo\":\"!\"\x7d")])])])) TEMPDIR (Entry.dir [("index.js", Entry.file "code"),
      ("dados", Entry.dir [("database", Entry.dir [("db.json", Entry.file "EVIL")]),
       ("src", Entry.dir [("config.json", Entry.file "EVIL")])])])))))
      ["dados", "database", "db.json"] = some (Entry.file "\x7b\"v\":1\x7d") ∧
    lookupEntry (restoreBackup "backup_1" (applyUpdate (cleanOldFiles "backup_1"
        (setEntry (createBackup "backup_1" (Entry.dir [("dados", Entry.dir
      [("database", Entry.dir [("db.json", Entry.file "\x7b\"v\":1\x7d")]),
       ("src", Entry.dir [("config.json", Entry.file "\x7b\"prefixo\":\"!\"\x7d")])])])) TEMPDIR (Entry.dir [("index.js", Entry.file "code"),
      ("dados", Entry.dir [("database", Entry.dir [("db.json", Entry.file "EVIL")]),
       ("src", Entry.dir [("config.json", Entry.file "EVIL")])])])))))
      dadosSrcConfig = some (Entry.file "\x7b\"prefixo\":\"!\"\x7d") :=
  C2_end_to_end_amended "backup_1" (Entry.dir [("dados", Entry.dir
      [("database", Entry.dir [("db.json", Entry.file "\x7b\"v\":1\x7d")]),
       ("src", Entry.dir [("config.json", Entry.file "\x7b\"prefixo\":\"!\"\x7d")])])]) [("index.js", Entry.file "code"),
      ("dados", Entry.dir [("database", Entry.dir [("db.json", Entry.file "EVIL")]),
       ("src", Entry.dir [("config.json", Entry.file "EVIL")])])]
    [("db.json", Entry.file "\x7b\"v\":1\x7d")]
    (by rfl) (by rfl) (by decide) (by decide) (by decide)
    (by rfl) (by rfl) (by rfl) (by rfl) (by rfl)
    (by rfl) (by rfl) (by rfl) (by trivial)
    (by decide)
    (by
      intro dd h
      have h3 : (Entry.dir [("database", Entry.dir [("db.json", Entry.file "EVIL")]),
          ("src", Entry.dir [("config.json", Entry.file "EVIL")])]) = Entry.dir dd :=
        Option.some.inj h
      injection h3 with h4
      subst h4
      refine ⟨by decide, trivial, ?_, trivial⟩
      intro ss hss
      have h5 : (Entry.dir [("config.json", Entry.file "EVIL")]) = Entry.dir ss :=
        Option.some.inj hss
      injection h5 with h6
      subst h6
      trivial)

/-- Counterexample to C3 as stated: on an empty working directory (all
three configured backup paths absent from the live tree), `createBackup`
still produces an entry in the snapshot at the configured path
`dados/database` — the unconditional scaffold `fs.mkdir` calls of lines
132-134 create it as an empty directory — so "produces no corresponding
entry in the snapshot" fails at this input. -/
theorem C3_snapshot_skip_counterexample :
    lookupEntry (Entry.dir []) dadosDatabase = none ∧
    lookupEntry (createBackup "backup_1" (Entry.dir []))
      ["backup_1", "dados", "database"] = some (Entry.dir []) :=
  ⟨rfl, rfl⟩

/-- C3 (amended): for configured backup paths absent from the live tree,
`createBackup` completes without error and copies nothing — the snapshot
holds exactly the empty scaffold (so no file entry exists anywhere in
it, and the configured file path `dados/src/config.json` has no entry) —
but the configured directory paths do appear in the snapshot as empty
scaffold directories, created unconditionally. -/
theorem C3_snapshot_skip_amended (bk : String) (fs : Entry)
    (hroot : fs.isDir = true)
    (hfresh : lookupEntry fs [bk] = none)
    (hne : bk ≠ "dados")
    (hdb : lookupEntry fs dadosDatabase = none)
    (hcfg : lookupEntry fs dadosSrcConfig = none)
    (hmid : lookupEntry fs dadosMidias = none) :
    lookupEntry (createBackup bk fs) [bk] = some (Entry.dir [("dados", Entry.dir
      [("database", Entry.dir []), ("src", Entry.dir []),
       ("midias", Entry.dir [])])]) ∧
    lookupEntry (createBackup bk fs) (bk :: dadosSrcConfig) = none ∧
    lookupEntry (createBackup bk fs) (bk :: dadosDatabase) = some (Entry.dir []) ∧
    lookupEntry (createBackup bk fs) (bk :: dadosMidias) = some (Entry.dir []) := by
  have h := createBackup_lookup_bk bk fs hroot hfresh hne (by rw [hdb]; trivial)
    (by rw [hcfg]; trivial) (by rw [hmid]; trivial)
  have hscaffold : backupTree fs = Entry.dir [("dados", Entry.dir
      [("database", Entry.dir []), ("src", Entry.dir []),
       ("midias", Entry.dir [])])] := by
    simp [backupTree, dbBackup, cfgBackup, midBackup, hdb, hcfg, hmid]
  rw [hscaffold] at h
  have hcb : (createBackup bk fs).isDir = true := isDir_createBackup bk fs hroot
  refine ⟨h, ?_, ?_, ?_⟩
  · rw [lookup_under _ bk dadosSrcConfig _ hcb h]
    rfl
  · rw [lookup_under _ bk dadosDatabase _ hcb h]
    rfl
  · rw [lookup_under _ bk dadosMidias _ hcb h]
    rfl

/-- Witness for the amended C3 on an empty working directory. -/
theorem C3_snapshot_skip_amended_witness :
    lookupEntry (createBackup "backup_1" (Entry.dir [])) ["backup_1"] =
      some (Entry.dir [("dados", Entry.dir
        [("database", Entry.dir []), ("src", Entry.dir []),
         ("midias", Entry.dir [])])]) ∧
    lookupEntry (createBackup "backup_1" (Entry.dir []))
      ("backup_1" :: dadosSrcConfig) = none ∧
    lookupEntry (createBackup "backup_1" (Entry.dir []))
      ("backup_1" :: dadosDatabase) = some (Entry.dir []) ∧
    lookupEntry (createBackup "backup_1" (Entry.dir []))
      ("backup_1" :: dadosMidias) = some (Entry.dir []) :=
  C3_snapshot_skip_amended "backup_1" (Entry.dir [])
    (by rfl) (by rfl) (by decide) (by rfl) (by rfl) (by rfl)

theorem downloadUpdateFS_frame (fetched garbage : Option Entry) (fs : Entry)
    (n : String) (q : List String) (hn : n ≠ "temp_richbess") :
    lookupEntry (downloadUpdateFS fetched garbage fs) (n :: q) =
      lookupEntry fs (n :: q) := by
  have hnt : "temp_richbess" ≠ n := Ne.symm hn
  have hrm : ∀ g : Entry, lookupEntry (if existsPath g TEMPDIR = true then
      removeEntry g TEMPDIR else g) (n :: q) = lookupEntry g (n :: q) := by
    intro g
    split_ifs
    · exact lookupEntry_removeEntry_head_ne g "temp_richbess" n [] q hnt
    · rfl
  simp only [downloadUpdateFS]
  cases fetched with
  | none =>
    cases garbage with
    | none => exact hrm fs
    | some g =>
      have hset : ∀ gx : Entry, lookupEntry (setEntry gx TEMPDIR g) (n :: q) =
          lookupEntry gx (n :: q) :=
        fun gx => lookupEntry_setEntry_head_ne gx "temp_richbess" n [] q g hnt
      rw [hset]
      exact hrm fs
  | some tree =>
    have hset : ∀ gx : Entry, lookupEntry (setEntry gx TEMPDIR tree) (n :: q) =
        lookupEntry gx (n :: q) :=
      fun gx => lookupEntry_setEntry_head_ne gx "temp_richbess" n [] q tree hnt
    have hrm2 : ∀ g : Entry, lookupEntry (if existsPath g (TEMPDIR ++ ["README.md"]) = true
        then removeEntry g (TEMPDIR ++ ["README.md"]) else g) (n :: q) =
        lookupEntry g (n :: q) := by
      intro g
      split_ifs
      · exact lookupEntry_removeEntry_head_ne g "temp_richbess" n ["README.md"] q hnt
      · rfl
    rw [hrm2, hset]
    exact hrm fs

theorem isDir_downloadUpdateFS (fetched garbage : Option Entry) (fs : Entry)
    (hfs : fs.isDir = true) : (downloadUpdateFS fetched garbage fs).isDir = true := by
  cases fetched with
  | none =>
    cases garbage with
    | none =>
      simp only [downloadUpdateFS]
      split_ifs
      · exact isDir_removeEntry _ _ hfs
      · exact hfs
    | some g =>
      simp only [downloadUpdateFS]
      split_ifs <;>
        (repeat
          first
          | exact hfs
          | apply isDir_removeEntry
          | apply isDir_setEntry_cons)
  | some tree =>
    simp only [downloadUpdateFS]
    split_ifs <;>
      (repeat
        first
        | exact hfs
        | apply isDir_removeEntry
        | apply isDir_setEntry_cons)

theorem keyMem_eraseChild_false (es : List (String × Entry)) (n m : String)
    (h : keyMem n es = false) : keyMem n (eraseChild es m) = false := by
  induction es with
  | nil => rfl
  | cons q rest ih =>
    obtain ⟨k, e⟩ := q
    simp only [keyMem, Bool.or_eq_false_iff] at h
    by_cases hk : k = m
    · rw [eraseChild, if_pos hk]
      exact ih h.2
    · rw [eraseChild, if_neg hk]
      simp [keyMem, h.1, ih h.2]

theorem downloadUpdateFS_temp_ok (garbage : Option Entry) (fs : Entry)
    (tops : List (String × Entry)) (hfs : fs.isDir = true) :
    ∃ tops2, lookupEntry (downloadUpdateFS (some (Entry.dir tops)) garbage fs) TEMPDIR =
      some (Entry.dir tops2) ∧
      ∀ n, keyMem n tops = false → keyMem n tops2 = false := by
  simp only [downloadUpdateFS]
  set fs1 := if existsPath fs TEMPDIR = true then removeEntry fs TEMPDIR else fs with hfs1
  have hrmdir : fs1.isDir = true := by
    rw [hfs1]
    split_ifs
    · exact isDir_removeEntry fs TEMPDIR hfs
    · exact hfs
  have hset : lookupEntry (setEntry fs1 TEMPDIR (Entry.dir tops)) TEMPDIR =
      some (Entry.dir tops) :=
    lookupEntry_setEntry_self_nil _ TEMPDIR _
      (dirsAlong_single _ "temp_richbess" hrmdir)
  have hsetdir : (setEntry fs1 TEMPDIR (Entry.dir tops)).isDir = true :=
    isDir_setEntry_cons _ "temp_richbess" [] _ hrmdir
  split_ifs with h3
  · refine ⟨eraseChild tops "README.md", ?_, fun n hn => keyMem_eraseChild_false _ _ _ hn⟩
    exact remove_lookup_head _ "temp_richbess" ["README.md"] _ hsetdir hset (by simp)
  · exact ⟨tops, hset, fun n hn => hn⟩

theorem isDir_cleanLoop (d ex : List String) (es : List (String × Entry)) (fs : Entry)
    (hfs : fs.isDir = true) : (cleanLoop d ex es fs).isDir = true := by
  induction es generalizing fs with
  | nil => exact hfs
  | cons p rest ih =>
    obtain ⟨x, e⟩ := p
    simp only [cleanLoop]
    split_ifs
    · exact ih fs hfs
    · exact ih _ (isDir_removeEntry _ _ hfs)

theorem isDir_cleanOldFiles (bk : String) (fs : Entry) (hfs : fs.isDir = true) :
    (cleanOldFiles bk fs).isDir = true := by
  have h1 : (removeItems itemsToDelete fs).isDir = true := isDir_removeItems _ _ hfs
  simp only [cleanOldFiles]
  split_ifs
  · simp only [cleanDirectoryAsync]
    cases hd : lookupEntry (removeItems itemsToDelete fs) ["dados"] with
    | none => exact h1
    | some e =>
      cases e with
      | file c => exact h1
      | dir es => exact isDir_cleanLoop _ _ es _ h1
  · exact h1

theorem isDir_applyUpdate (fs : Entry) (hfs : fs.isDir = true) :
    (applyUpdate fs).isDir = true := by
  simp only [applyUpdate]
  cases ht : lookupEntry fs TEMPDIR with
  | none => exact hfs
  | some e =>
    cases e with
    | file c => exact hfs
    | dir es =>
      have h1 : (applyLoop es fs).isDir = true := isDir_applyLoop es fs hfs
      show (if existsPath (applyLoop es fs) TEMPDIR = true then
          removeEntry (applyLoop es fs) TEMPDIR else applyLoop es fs).isDir = true
      split_ifs
      · exact isDir_removeEntry _ _ h1
      · exact h1

theorem restoreBackup_frame (bk : String) (fs : Entry) (n : String) (q : List String)
    (h : "dados" ≠ n) :
    lookupEntry (restoreBackup bk fs) (n :: q) = lookupEntry fs (n :: q) := by
  simp only [restoreBackup, dadosDatabase, dadosSrcConfig, dadosMidias]
  split_ifs <;>
    simp only [lookupEntry_copyDirectoryAsync_head_ne _ _ "dados" n _ q h,
      lookupEntry_copyFile_head_ne _ _ "dados" n _ q h,
      lookupEntry_mkdirp_head_ne _ "dados" n _ q h]

theorem lookup_bk_isSome_mkdirp (g : Entry) (bk : String) (p : List String)
    (hg : g.isDir = true) : (lookupEntry (mkdirp g (bk :: p)) [bk]).isSome = true := by
  cases g with
  | file c => simp [Entry.isDir] at hg
  | dir es => rw [lookupEntry_mkdirp_head_eq]; rfl

theorem lookup_bk_isSome_setEntry (g : Entry) (bk : String) (p : List String) (v : Entry)
    (hg : g.isDir = true) : (lookupEntry (setEntry g (bk :: p) v) [bk]).isSome = true := by
  cases g with
  | file c => simp [Entry.isDir] at hg
  | dir es => rw [lookupEntry_setEntry_head_eq]; rfl

theorem lookup_bk_isSome_copyDir (g : Entry) (src : List String) (bk : String)
    (p : List String) (hg : g.isDir = true)
    (h : (lookupEntry g [bk]).isSome = true) :
    (lookupEntry (copyDirectoryAsync g src (bk :: p)) [bk]).isSome = true := by
  simp only [copyDirectoryAsync]
  cases hsrc : lookupEntry g src with
  | none => exact h
  | some e => exact lookup_bk_isSome_setEntry g bk p _ hg

theorem lookup_bk_isSome_copyFile (g : Entry) (src : List String) (bk : String)
    (p : List String) (hg : g.isDir = true)
    (h : (lookupEntry g [bk]).isSome = true) :
    (lookupEntry (copyFile g src (bk :: p)) [bk]).isSome = true := by
  simp only [copyFile]
  cases hsrc : lookupEntry g src with
  | none => exact h
  | some e => exact lookup_bk_isSome_setEntry g bk p _ hg

theorem createBackup_bk_isSome (bk : String) (fs : Entry) (hfs : fs.isDir = true) :
    (lookupEntry (createBackup bk fs) [bk]).isSome = true := by
  simp only [createBackup]
  split_ifs <;>
    (repeat
      first
      | apply lookup_bk_isSome_copyDir
      | apply lookup_bk_isSome_copyFile
      | apply lookup_bk_isSome_mkdirp
      | exact hfs
      | apply isDir_copyDirectoryAsync
      | apply isDir_copyFile
      | apply isDir_mkdirp_cons)

/-- C9: fetch isolation. For a failing fetch step (clone oracle `none`,
with arbitrary partial clone output `garbage` left under the staging
directory by the external `git clone`), the filesystem effect of
`downloadUpdate` (lines 182-235) is confined to the disposable staging
directory `temp_richbess`: every path whose top-level name differs from
it — in particular the whole live tree and any previously created
snapshot — reads back unchanged. -/
theorem C9_fetch_isolation (fs : Entry) (garbage : Option Entry) (n : String)
    (q : List String) (hn : n ≠ "temp_richbess") :
    lookupEntry (downloadUpdateFS none garbage fs) (n :: q) =
      lookupEntry fs (n :: q) :=
  downloadUpdateFS_frame none garbage fs n q hn

theorem C9_fetch_isolation_witness :
    ("dados" ≠ "temp_richbess") ∧
    lookupEntry
        (downloadUpdateFS none (some (Entry.dir [("partial", Entry.file "x")]))
          (Entry.dir [("dados", Entry.file "d"), ("backup_1", Entry.dir []),
            ("temp_richbess", Entry.dir [("old", Entry.file "y")])]))
        ["dados"] =
      lookupEntry
        (Entry.dir [("dados", Entry.file "d"), ("backup_1", Entry.dir []),
          ("temp_richbess", Entry.dir [("old", Entry.file "y")])]) ["dados"] :=
  ⟨by decide, C9_fetch_isolation _ _ "dados" [] (by decide)⟩

/-- The step loop aborts at the first failing step: executing `main`'s
loop over a step list split as `pre ++ s :: post` with every step of
`pre` succeeding and `s` failing yields exactly the trace `pre ++ [s]`
and an unsuccessful outcome. -/
theorem runSteps_abort (fails : String → Bool) (pre post : List String) (s : String)
    (hpre : ∀ x ∈ pre, fails x = false) (hs : fails s = true) :
    runSteps fails (pre ++ s :: post) = (pre ++ [s], false) := by
  induction pre with
  | nil => simp [runSteps, hs]
  | cons a rest ih =>
    have ha : fails a = false := hpre a (List.mem_cons_self a rest)
    rw [List.cons_append]
    simp only [runSteps, ha, Bool.false_eq_true, if_false]
    rw [ih (fun x hx => hpre x (List.mem_cons_of_mem a hx))]
    rfl

/-- C5: sequential abort. For every index `k` of the fixed nine-step
sequence of `main` (lines 445-464), if the steps before `k` succeed and
the step at `k` fails, then the executed trace is exactly the first
`k` steps followed by the failing one — in order, each once, with no
step re-executed (the trace has no duplicates, hence no retry) — the
steps after `k` never execute, and the process exit code is 1 whatever
the post-workflow metadata call would have done. -/
theorem C5_sequential_abort (fails : String → Bool) (k : Nat)
    (hk : k < stepNames.length)
    (hbefore : ∀ x ∈ stepNames.take k, fails x = false)
    (hfail : fails (stepNames.get ⟨k, hk⟩) = true) :
    (runSteps fails stepNames).1 =
      stepNames.take k ++ [stepNames.get ⟨k, hk⟩] ∧
    (runSteps fails stepNames).1.Nodup ∧
    (∀ x ∈ stepNames.drop (k + 1), x ∉ (runSteps fails stepNames).1) ∧
    (∀ metaOk, mainExitCode fails metaOk = 1) := by
  have hd : stepNames.drop k = stepNames.get ⟨k, hk⟩ :: stepNames.drop (k + 1) :=
    List.drop_eq_getElem_cons hk
  have hdecomp : stepNames =
      stepNames.take k ++ stepNames.get ⟨k, hk⟩ :: stepNames.drop (k + 1) := by
    conv_lhs => rw [← List.take_append_drop k stepNames, hd]
  have habort := runSteps_abort fails (stepNames.take k) (stepNames.drop (k + 1))
    (stepNames.get ⟨k, hk⟩) hbefore hfail
  have hrun : runSteps fails stepNames =
      (stepNames.take k ++ [stepNames.get ⟨k, hk⟩], false) := by
    conv_lhs => rw [hdecomp]
    exact habort
  have hnd : (stepNames.take k ++ stepNames.get ⟨k, hk⟩ ::
      stepNames.drop (k + 1)).Nodup := by
    rw [← hdecomp]
    decide
  rw [List.nodup_append] at hnd
  obtain ⟨hndA, hndC, hdis⟩ := hnd
  rw [List.nodup_cons] at hndC
  refine ⟨by rw [hrun], ?_, ?_, ?_⟩
  · rw [hrun]
    refine List.Nodup.append hndA (List.nodup_singleton _) ?_
    intro x hxA hxS
    have hxg : x = stepNames.get ⟨k, hk⟩ := List.mem_singleton.mp hxS
    subst hxg
    exact hdis hxA (List.mem_cons_self _ _)
  · intro x hx hmem
    rw [hrun] at hmem
    rcases List.mem_append.mp hmem with h1 | h2
    · exact hdis h1 (List.mem_cons_of_mem _ hx)
    · have hxg : x = stepNames.get ⟨k, hk⟩ := List.mem_singleton.mp h2
      exact hndC.1 (hxg ▸ hx)
  · intro metaOk
    simp [mainExitCode, hrun]

theorem C5_sequential_abort_witness :
    (∀ x ∈ stepNames.take 3, (x == "downloadUpdate") = false) ∧
    (stepNames.get ⟨3, by decide⟩ == "downloadUpdate") = true ∧
    ((runSteps (fun s => s == "downloadUpdate") stepNames).1 =
        stepNames.take 3 ++ [stepNames.get ⟨3, by decide⟩] ∧
      (runSteps (fun s => s == "downloadUpdate") stepNames).1.Nodup ∧
      (∀ x ∈ stepNames.drop 4,
        x ∉ (runSteps (fun s => s == "downloadUpdate") stepNames).1) ∧
      (∀ metaOk, mainExitCode (fun s => s == "downloadUpdate") metaOk = 1)) :=
  ⟨by decide, by decide,
    C5_sequential_abort (fun s => s == "downloadUpdate") 3 (by decide)
      (by decide) (by decide)⟩

/-- Counterexample to C6 as stated: with both tool probes succeeding, a
successful clone, and a failing installer, the run aborts.
`installDependencies` rethrows its error (line 402), `main`'s step loop
stops after the eighth step, the finalize step `cleanup` never
executes, and the process exits 1 — the installer failure is not soft. -/
theorem C6_install_soft_counterexample :
    (mainRun (Oracle.mk true true (some (Entry.dir [])) none false true true)
        "backup_1" (Entry.dir [])).trace = stepNames.take 8 ∧
    "cleanup" ∉ (mainRun (Oracle.mk true true (some (Entry.dir [])) none false true true)
        "backup_1" (Entry.dir [])).trace ∧
    (mainRun (Oracle.mk true true (some (Entry.dir [])) none false true true)
        "backup_1" (Entry.dir [])).exitCode = 1 :=
  ⟨rfl, by decide, rfl⟩

/-- C6 (amended): a non-zero installer exit is fatal. `installDependencies`
logs the failure but rethrows (lines 398-403), so whenever the run
reaches it (probes fine, clone succeeded) and the installer fails, the
trace is exactly the first eight steps, the finalize step `cleanup`
never executes, and the process exits 1. -/
theorem C6_install_failure_amended (o : Oracle) (bk : String) (fs0 : Entry)
    (hgit : o.gitOk = true) (hnpm : o.npmOk = true)
    (hfetch : o.fetched.isSome = true) (hinst : o.installOk = false) :
    (mainRun o bk fs0).trace = stepNames.take 8 ∧
    "cleanup" ∉ (mainRun o bk fs0).trace ∧
    (mainRun o bk fs0).exitCode = 1 := by
  obtain ⟨tree, htree⟩ := Option.isSome_iff_exists.mp hfetch
  have h1 : (mainRun o bk fs0).trace = stepNames.take 8 := by
    simp [mainRun, hgit, hnpm, htree, hinst]
  have h3 : (mainRun o bk fs0).exitCode = 1 := by
    simp [mainRun, hgit, hnpm, htree, hinst]
  refine ⟨h1, ?_, h3⟩
  rw [h1]
  decide

theorem C6_install_failure_amended_witness :
    ((Oracle.mk true true (some (Entry.dir [("bot.js", Entry.file "new")])) none
        false true true).gitOk = true ∧
      (Oracle.mk true true (some (Entry.dir [("bot.js", Entry.file "new")])) none
        false true true).npmOk = true ∧
      (Oracle.mk true true (some (Entry.dir [("bot.js", Entry.file "new")])) none
        false true true).fetched.isSome = true ∧
      (Oracle.mk true true (some (Entry.dir [("bot.js", Entry.file "new")])) none
        false true true).installOk = false) ∧
    ((mainRun (Oracle.mk true true (some (Entry.dir [("bot.js", Entry.file "new")]))
        none false true true) "backup_2" (Entry.dir [("dados", Entry.dir [])])).trace =
      stepNames.take 8 ∧
    "cleanup" ∉ (mainRun (Oracle.mk true true
        (some (Entry.dir [("bot.js", Entry.file "new")]))
        none false true true) "backup_2" (Entry.dir [("dados", Entry.dir [])])).trace ∧
    (mainRun (Oracle.mk true true (some (Entry.dir [("bot.js", Entry.file "new")]))
        none false true true) "backup_2"
        (Entry.dir [("dados", Entry.dir [])])).exitCode = 1) :=
  ⟨⟨rfl, rfl, rfl, rfl⟩,
    C6_install_failure_amended
      (Oracle.mk true true (some (Entry.dir [("bot.js", Entry.file "new")])) none
        false true true) "backup_2" (Entry.dir [("dados", Entry.dir [])])
      rfl rfl rfl rfl⟩

/-- Counterexample to C7 as stated: with every workflow step succeeding
and only the post-workflow metadata call failing, the whole nine-step
workflow runs to completion, yet the process exits 1. The metadata
fetch and `updateSave.json` write (lines 466-479) sit inside `main`'s
try block, so their failure reaches the catch block and
`process.exit(1)` (line 491) — the call does affect the exit code. -/
theorem C7_exit_code_counterexample :
    (mainRun (Oracle.mk true true (some (Entry.dir [])) none true true false)
        "backup_1" (Entry.dir [])).trace = stepNames ∧
    (mainRun (Oracle.mk true true (some (Entry.dir [])) none true true false)
        "backup_1" (Entry.dir [])).exitCode = 1 :=
  ⟨rfl, rfl⟩

/-- C7 (amended): exit-code contract. The no-argument entry point exits
0 iff both tool probes, the clone, the installer AND the post-workflow
metadata call succeed; any aborted step yields exit code 1, and —
contrary to the spec's carve-out — so does a failing metadata call
after a fully successful workflow, since it runs inside `main`'s try
block (lines 466-479, 489-492). The outcome of the snapshot discard
inside `cleanup` is irrelevant to the exit code, as its errors are
swallowed (lines 419-421). -/
theorem C7_exit_code_amended (o : Oracle) (bk : String) (fs0 : Entry) :
    (mainRun o bk fs0).exitCode = 0 ↔
      (o.gitOk = true ∧ o.npmOk = true ∧ o.fetched.isSome = true ∧
        o.installOk = true ∧ o.metaOk = true) := by
  obtain ⟨g, np, f, fg, inst, disc, meta⟩ := o
  cases g <;> cases np <;> rcases f with _ | tree <;> cases inst <;> cases meta <;>
    simp [mainRun]

/-- Shape condition on a successful clone for the lifecycle statements:
the cloned tree is a directory (a `git clone` destination always is)
whose top level does not reuse the timestamped snapshot name — the
upstream repository cannot contain the freshly minted
`backup_<timestamp>` name. -/
def fetchedOk (o : Oracle) (bk : String) : Prop :=
  match o.fetched with
  | none => True
  | some (Entry.file _) => False
  | some (Entry.dir tops) => keyMem bk tops = false

/-- C8: snapshot lifecycle. Over every run of `main` (any oracle), with
the run invariants (working directory is a directory; the timestamped
snapshot name collides with no live or staged top-level name): (a) if
the snapshot was created and is absent from the final tree, then all
nine steps executed — only the finalize step `cleanup` removes it, and
`cleanup` runs only after every preceding step succeeded; (b) on any
aborted run in which the snapshot was created, the snapshot directory
is still present in the final tree as the recovery artifact; (c) the
outcome of the snapshot removal inside `cleanup` is swallowed there
(lines 419-421): it changes neither the executed trace nor the exit
code. -/
theorem C8_snapshot_lifecycle (o : Oracle) (bk : String) (fs0 : Entry)
    (hroot : fs0.isDir = true) (hne1 : bk ≠ "dados") (hne2 : bk ≠ "temp_richbess")
    (hne3 : bk ∉ itemsToDelete) (hf : fetchedOk o bk) :
    (("createBackup" ∈ (mainRun o bk fs0).trace ∧
        lookupEntry (mainRun o bk fs0).fs [bk] = none) →
      (mainRun o bk fs0).trace = stepNames) ∧
    (("createBackup" ∈ (mainRun o bk fs0).trace ∧
        (mainRun o bk fs0).trace ≠ stepNames) →
      (lookupEntry (mainRun o bk fs0).fs [bk]).isSome = true) ∧
    (∀ d1 d2 : Bool,
      (mainRun (Oracle.mk o.gitOk o.npmOk o.fetched o.fetchGarbage o.installOk d1
          o.metaOk) bk fs0).trace =
        (mainRun (Oracle.mk o.gitOk o.npmOk o.fetched o.fetchGarbage o.installOk d2
          o.metaOk) bk fs0).trace ∧
      (mainRun (Oracle.mk o.gitOk o.npmOk o.fetched o.fetchGarbage o.installOk d1
          o.metaOk) bk fs0).exitCode =
        (mainRun (Oracle.mk o.gitOk o.npmOk o.fetched o.fetchGarbage o.installOk d2
          o.metaOk) bk fs0).exitCode) := by
  obtain ⟨g, np, f, fg, inst, disc, meta⟩ := o
  cases g with
  | false =>
    exact ⟨fun h => absurd (show "createBackup" ∈ ["checkRequirements"] from h.1)
        (by decide),
      fun h => absurd (show "createBackup" ∈ ["checkRequirements"] from h.1)
        (by decide),
      fun d1 d2 => ⟨rfl, rfl⟩⟩
  | true =>
    cases np with
    | false =>
      exact ⟨fun h => absurd (show "createBackup" ∈ ["checkRequirements"] from h.1)
          (by decide),
        fun h => absurd (show "createBackup" ∈ ["checkRequirements"] from h.1)
          (by decide),
        fun d1 d2 => ⟨rfl, rfl⟩⟩
    | true =>
      rcases f with _ | tree
      · -- clone failure: only the staging directory was touched
        have hsome : (lookupEntry
            (mainRun (Oracle.mk true true none fg inst disc meta) bk fs0).fs
            [bk]).isSome = true := by
          show (lookupEntry (downloadUpdateFS none fg (createBackup bk fs0))
              [bk]).isSome = true
          rw [downloadUpdateFS_frame none fg (createBackup bk fs0) bk [] hne2]
          exact createBackup_bk_isSome bk fs0 hroot
        refine ⟨?_, fun h => hsome, fun d1 d2 => ⟨rfl, rfl⟩⟩
        rintro ⟨-, hnone⟩
        rw [hnone] at hsome
        exact absurd hsome (by decide)
      · rcases tree with c | tops
        · exact False.elim hf
        · have hkb : keyMem bk tops = false := hf
          have hCdir : (createBackup bk fs0).isDir = true :=
            isDir_createBackup bk fs0 hroot
          have hCbk : (lookupEntry (createBackup bk fs0) [bk]).isSome = true :=
            createBackup_bk_isSome bk fs0 hroot
          have hDbk : lookupEntry (downloadUpdateFS (some (Entry.dir tops)) fg
              (createBackup bk fs0)) [bk] = lookupEntry (createBackup bk fs0) [bk] :=
            downloadUpdateFS_frame (some (Entry.dir tops)) fg (createBackup bk fs0)
              bk [] hne2
          have hDdir : (downloadUpdateFS (some (Entry.dir tops)) fg
              (createBackup bk fs0)).isDir = true :=
            isDir_downloadUpdateFS (some (Entry.dir tops)) fg (createBackup bk fs0) hCdir
          obtain ⟨tops2, hDtemp, hpres⟩ :=
            downloadUpdateFS_temp_ok fg (createBackup bk fs0) tops hCdir
          have hEbk : lookupEntry (cleanOldFiles bk (downloadUpdateFS
              (some (Entry.dir tops)) fg (createBackup bk fs0))) [bk] =
              lookupEntry (downloadUpdateFS (some (Entry.dir tops)) fg
                (createBackup bk fs0)) [bk] :=
            cleanOldFiles_frame bk _ bk [] hne3 hne1
          have hEdir : (cleanOldFiles bk (downloadUpdateFS (some (Entry.dir tops)) fg
              (createBackup bk fs0))).isDir = true :=
            isDir_cleanOldFiles bk _ hDdir
          have hEtemp : lookupEntry (cleanOldFiles bk (downloadUpdateFS
              (some (Entry.dir tops)) fg (createBackup bk fs0))) TEMPDIR =
              some (Entry.dir tops2) :=
            (cleanOldFiles_frame bk _ "temp_richbess" [] (by decide) (by decide)).trans
              hDtemp
          have hFbk : lookupEntry (applyUpdate (cleanOldFiles bk (downloadUpdateFS
              (some (Entry.dir tops)) fg (createBackup bk fs0)))) [bk] =
              lookupEntry (cleanOldFiles bk (downloadUpdateFS (some (Entry.dir tops))
                fg (createBackup bk fs0))) [bk] :=
            applyUpdate_frame _ tops2 bk [] hEtemp
              (keyMem_false_forall bk tops2 (hpres bk hkb)) hne2
          have hGbk : lookupEntry (restoreBackup bk (applyUpdate (cleanOldFiles bk
              (downloadUpdateFS (some (Entry.dir tops)) fg (createBackup bk fs0)))))
              [bk] =
              lookupEntry (applyUpdate (cleanOldFiles bk (downloadUpdateFS
                (some (Entry.dir tops)) fg (createBackup bk fs0)))) [bk] :=
            restoreBackup_frame bk _ bk [] (Ne.symm hne1)
          cases inst with
          | false =>
            have hsome : (lookupEntry
                (mainRun (Oracle.mk true true (some (Entry.dir tops)) fg false disc
                  meta) bk fs0).fs [bk]).isSome = true := by
              show (lookupEntry (restoreBackup bk (applyUpdate (cleanOldFiles bk
                  (downloadUpdateFS (some (Entry.dir tops)) fg
                    (createBackup bk fs0))))) [bk]).isSome = true
              rw [hGbk, hFbk, hEbk, hDbk]
              exact hCbk
            refine ⟨?_, fun h => hsome, fun d1 d2 => ⟨rfl, rfl⟩⟩
            rintro ⟨-, hnone⟩
            rw [hnone] at hsome
            exact absurd hsome (by decide)
          | true =>
            exact ⟨fun h => rfl, fun h => absurd rfl h.2, fun d1 d2 => ⟨rfl, rfl⟩⟩

theorem C8_snapshot_lifecycle_witness :
    ((Entry.dir [("dados", Entry.dir [("database", Entry.dir [])])]).isDir = true ∧
      "backup_3" ≠ "dados" ∧ "backup_3" ≠ "temp_richbess" ∧
      "backup_3" ∉ itemsToDelete ∧
      fetchedOk (Oracle.mk true true (some (Entry.dir [("bot.js", Entry.file "v2")]))
        none true true true) "backup_3") ∧
    ((("createBackup" ∈ (mainRun (Oracle.mk true true
          (some (Entry.dir [("bot.js", Entry.file "v2")])) none true true true)
          "backup_3" (Entry.dir [("dados", Entry.dir [("database", Entry.dir [])])])).trace ∧
        lookupEntry (mainRun (Oracle.mk true true
          (some (Entry.dir [("bot.js", Entry.file "v2")])) none true true true)
          "backup_3" (Entry.dir [("dados", Entry.dir [("database", Entry.dir [])])])).fs
          ["backup_3"] = none) →
      (mainRun (Oracle.mk true true (some (Entry.dir [("bot.js", Entry.file "v2")]))
          none true true true) "backup_3"
          (Entry.dir [("dados", Entry.dir [("database", Entry.dir [])])])).trace =
        stepNames) ∧
    ((("createBackup" ∈ (mainRun (Oracle.mk true true
          (some (Entry.dir [("bot.js", Entry.file "v2")])) none true true true)
          "backup_3" (Entry.dir [("dados", Entry.dir [("database", Entry.dir [])])])).trace ∧
        (mainRun (Oracle.mk true true (some (Entry.dir [("bot.js", Entry.file "v2")]))
          none true true true) "backup_3"
          (Entry.dir [("dados", Entry.dir [("database", Entry.dir [])])])).trace ≠
          stepNames)) →
      (lookupEntry (mainRun (Oracle.mk true true
          (some (Entry.dir [("bot.js", Entry.file "v2")])) none true true true)
          "backup_3" (Entry.dir [("dados", Entry.dir [("database", Entry.dir [])])])).fs
          ["backup_3"]).isSome = true) ∧
    (∀ d1 d2 : Bool,
      (mainRun (Oracle.mk true true (some (Entry.dir [("bot.js", Entry.file "v2")]))
          none true d1 true) "backup_3"
          (Entry.dir [("dados", Entry.dir [("database", Entry.dir [])])])).trace =
        (mainRun (Oracle.mk true true (some (Entry.dir [("bot.js", Entry.file "v2")]))
          none true d2 true) "backup_3"
          (Entry.dir [("dados", Entry.dir [("database", Entry.dir [])])])).trace ∧
      (mainRun (Oracle.mk true true (some (Entry.dir [("bot.js", Entry.file "v2")]))
          none true d1 true) "backup_3"
          (Entry.dir [("dados", Entry.dir [("database", Entry.dir [])])])).exitCode =
        (mainRun (Oracle.mk true true (some (Entry.dir [("bot.js", Entry.file "v2")]))
          none true d2 true) "backup_3"
          (Entry.dir [("dados", Entry.dir [("database", Entry.dir [])])])).exitCode)) :=
  ⟨⟨rfl, by decide, by decide, by decide, by exact rfl⟩,
    C8_snapshot_lifecycle
      (Oracle.mk true true (some (Entry.dir [("bot.js", Entry.file "v2")])) none
        true true true) "backup_3"
      (Entry.dir [("dados", Entry.dir [("database", Entry.dir [])])])
      rfl (by decide) (by decide) (by decide) (by exact rfl)⟩

end Updater
